import Mathlib

/-!
# world-engine: the Cardinal tick engine

A shallow embedding of `cardinal/world.go`.  The `World` record carries the
fields of the Go struct that the tick loop and the lifecycle functions read or
write.  Calls made on collaborators (entity store, router, receipt history,
event server, stage manager) are appended to a ghost `trace`, so that
"step X was not performed" is a statement about the trace.  The results of
those collaborators come from an `Env` of oracles, each of which may depend on
the whole world state at the time of the call.

The embedding is of one goroutine at a time: a function body runs to its end
(or to its blocking point) without another goroutine changing the world in
between.  Unsigned 64-bit counters are natural numbers with explicit
reduction modulo `2^64`.
-/

namespace Cardinal

/-- Transactions are opaque to `world.go`; they are identified by a number. -/
abbrev Tx := Nat

/-- Receipts are opaque to `world.go`; they are identified by a number. -/
abbrev Receipt := Nat

/-- Waiter channels (`chan struct{}`) are identified by a number. -/
abbrev Chan := Nat

/-- Modelled from the spec: the stages of `worldstage`, whose declaration is
not among the sources; the six names are those used by `world.go` and listed
by the spec as `Init → Starting → Recovering → Running → ShuttingDown →
ShutDown`. -/
inductive Stage where
  | Init
  | Starting
  | Recovering
  | Running
  | ShuttingDown
  | ShutDown
  deriving DecidableEq, Repr

/-- The wrap-around bound of `uint64`. -/
def u64 : Nat := 2 ^ 64

/-- Addition of `uint64` values, as done by `atomic.Uint64.Add`. -/
def u64Add (a b : Nat) : Nat := (a + b) % u64

/-- Subtraction of `uint64` values (`w.CurrentTick() - 1` wraps at zero). -/
def u64Sub (a b : Nat) : Nat := (a + u64 - b % u64) % u64

/-- The value handed to `server.BroadcastEvent`: the tick results after
`SetReceipts` and `SetTick`. -/
structure TickResults where
  tick : Nat
  receipts : List Receipt
  deriving DecidableEq, Repr

/-- One call on a collaborator, or one store into an atomic of the world. -/
inductive Effect where
  | copyTransactions (snapshot : List Tx)
  | storeTimestamp (timestamp : Nat)
  | runSystems (snapshot : List Tx)
  | finalizeTick
  | setEvmResults (snapshot : List Tx)
  | submitTxBlob (txs : List Tx) (tick : Nat) (timestamp : Nat)
  | tickAdd
  | nextTick
  | getReceiptsForTick (tick : Nat)
  | broadcastEvent (results : TickResults)
  | tickResultsClear
  | tickDoneSend (tick : Nat)
  | tickDoneClose
  | storeStage (s : Stage)
  | cancel
  | notifyOnStage (s : Stage)
  | registerComponents
  | routerStart
  | registerGameShard
  | getLastFinalizedTick
  | tickStore (tick : Nat)
  | recoverFromChain
  | receiptSetTick (tick : Nat)
  | startGameLoop
  | serverServe
  | redisClose
  | telemetryShutdown
  deriving DecidableEq, Repr

/-- The fields of the Go `World` struct used by the tick loop and the
lifecycle functions.  `router`, `telemetry`, `cancel` and `tickDoneChannel`
record whether the Go field is non-nil.  `receiptTick` is the position of the
receipt history window.  `trace` is the ghost log of effects. -/
structure World where
  stage : Stage
  tick : Nat
  timestamp : Nat
  txPool : List Tx
  router : Bool
  rollupEnabled : Bool
  cancel : Bool
  telemetry : Bool
  tickDoneChannel : Bool
  receiptTick : Nat
  trace : List Effect
  deriving DecidableEq, Repr

/-- What `SystemManager.runSystems` does: return nil, return an error, or
panic inside a system. -/
inductive SysResult where
  | ok
  | err (e : String)
  | panic (r : String)
  deriving DecidableEq, Repr

/-- The error values `doTick` returns. `invalidStage s` is
`eris.Errorf("world is not in a valid state to tick %s", s)`, `systems e` and
`finalize e` are the errors of `runSystems` and `FinalizeTick` returned as
they are, and `submit e` is
`eris.Wrap(e, "failed to submit transactions to base shard")`. -/
inductive TickError where
  | invalidStage (s : Stage)
  | systems (e : String)
  | finalize (e : String)
  | submit (e : String)
  deriving DecidableEq, Repr

/-- How a call of `doTick` ends. -/
inductive TickResult where
  | nil
  | err (e : TickError)
  | panic (r : String)
  deriving DecidableEq, Repr

/-- One historical tick blob held by the sequencer: its transactions and its
original timestamp. -/
structure Blob where
  txs : List Tx
  timestamp : Nat
  deriving DecidableEq, Repr

/-- The collaborators of the world, as oracles.  Each takes the world state at
the time of the call. -/
structure Env where
  runSystems : World → List Tx → SysResult
  finalizeTick : World → Option String
  submitTxBlob : World → List Tx → Nat → Nat → Option String
  getReceiptsForTick : World → Nat → List Receipt × Option String
  broadcastEvent : World → TickResults → Option String
  jsonMarshal : TickError → Except String String
  registerComponents : World → Option String
  routerStart : World → Option String
  registerGameShard : World → Option String
  getLastFinalizedTick : World → Except String Nat
  chainBlobs : World → List Blob
  serverServe : World → Option String
  redisClose : World → Option String
  telemetryShutdown : World → Option String

/-- Appends one effect to the ghost trace. -/
def World.log (w : World) (e : Effect) : World :=
  { w with trace := w.trace ++ [e] }

/-- Source `World.CurrentTick`: `w.tick.Load()`. -/
def World.CurrentTick (w : World) : Nat := w.tick

/-- Modelled from the spec: `worldstage.Manager.Store`, whose code is not among
the sources: an unconditional store of the stage. -/
def World.storeStage (w : World) (s : Stage) : World :=
  { w with stage := s, trace := w.trace ++ [Effect.storeStage s] }

/-- Modelled from the spec: `txpool.TxPool.CopyTransactions`, whose code is not
among the sources: it extracts all pending transactions and resets the pool to
empty. The snapshot is returned with the new world. -/
def World.copyTransactions (w : World) : List Tx × World :=
  (w.txPool, { w with txPool := [], trace := w.trace ++ [Effect.copyTransactions w.txPool] })

/-- Modelled from the spec: `receipt.History.NextTick`, whose code is not among
the sources: it advances the window by one tick. -/
def World.receiptNextTick (w : World) : World :=
  { w with receiptTick := u64Add w.receiptTick 1, trace := w.trace ++ [Effect.nextTick] }

/-- Modelled from the spec: `receipt.History.SetTick`, whose code is not among
the sources: it anchors the window at the given tick. -/
def World.receiptSetTick (w : World) (n : Nat) : World :=
  { w with receiptTick := n, trace := w.trace ++ [Effect.receiptSetTick n] }

/-- Source `World.broadcastTickResults`: receipts of tick `CurrentTick() - 1`
are fetched, put into the tick results together with that tick, the results
are broadcast, and the tick results are cleared. The error of
`GetReceiptsForTick` and the error of `BroadcastEvent` are only written to the
logger, so both are dropped here. Nothing is returned. -/
def broadcastTickResults (env : Env) (w : World) : World :=
  let got := env.getReceiptsForTick w (u64Sub w.CurrentTick 1)
  let w1 := w.log (Effect.getReceiptsForTick (u64Sub w.CurrentTick 1))
  let results : TickResults := { tick := u64Sub w1.CurrentTick 1, receipts := got.1 }
  let _sent := env.broadcastEvent w1 results
  let w2 := w1.log (Effect.broadcastEvent results)
  w2.log Effect.tickResultsClear

/-- Source `World.doTick`. The stage check comes first; then the pool is
snapshotted, the timestamp stored, the systems run, the entity store
finalised, the EVM results stashed, the blob submitted when a router is set
and the stage is not `Recovering`, the tick incremented, the receipt history
advanced and, when the stage is not `Recovering`, the results broadcast. A
panic in a system passes through `handleTickPanic`, which logs and panics
again with the same value. -/
def doTick (env : Env) (w : World) (timestamp : Nat) : World × TickResult :=
  if w.stage ≠ Stage.Recovering ∧ w.stage ≠ Stage.Running ∧ w.stage ≠ Stage.ShuttingDown then
    (w, TickResult.err (TickError.invalidStage w.stage))
  else
    let (txPool, w1) := w.copyTransactions
    let w2 := { w1 with timestamp := timestamp, trace := w1.trace ++ [Effect.storeTimestamp timestamp] }
    match env.runSystems w2 txPool with
    | SysResult.panic r => (w2.log (Effect.runSystems txPool), TickResult.panic r)
    | SysResult.err e => (w2.log (Effect.runSystems txPool), TickResult.err (TickError.systems e))
    | SysResult.ok =>
      let w3 := w2.log (Effect.runSystems txPool)
      match env.finalizeTick w3 with
      | some e => (w3.log Effect.finalizeTick, TickResult.err (TickError.finalize e))
      | none =>
        let w4 := w3.log Effect.finalizeTick
        let w5 := w4.log (Effect.setEvmResults txPool)
        let submitted : World × Option String :=
          if w5.router ∧ w5.stage ≠ Stage.Recovering then
            (w5.log (Effect.submitTxBlob txPool w5.tick w5.timestamp),
              env.submitTxBlob w5 txPool w5.tick w5.timestamp)
          else (w5, none)
        match submitted with
        | (w6, some e) => (w6, TickResult.err (TickError.submit e))
        | (w6, none) =>
          let w7 := { w6 with tick := u64Add w6.tick 1, trace := w6.trace ++ [Effect.tickAdd] }
          let w8 := w7.receiptNextTick
          let w9 := if w8.stage ≠ Stage.Recovering then broadcastTickResults env w8 else w8
          (w9, TickResult.nil)

/-- How `tickTheEngine` ends: it returns, or it panics with a value. -/
inductive EngineResult where
  | returned
  | panic (v : String)
  deriving DecidableEq, Repr

/-- Source `World.tickTheEngine`. The tick is read, `doTick` is called with the
current time `now`; an error is serialised and thrown as a panic (the
marshalling error is thrown when serialising fails); otherwise the tick read at
entry is sent on `tickDone` when that channel is not nil. -/
def tickTheEngine (env : Env) (w : World) (now : Nat) (tickDone : Bool) : World × EngineResult :=
  let currTick := w.CurrentTick
  match doTick env w now with
  | (w1, TickResult.panic r) => (w1, EngineResult.panic r)
  | (w1, TickResult.err e) =>
    match env.jsonMarshal e with
    | Except.error errMarshal => (w1, EngineResult.panic errMarshal)
    | Except.ok bytes => (w1, EngineResult.panic bytes)
  | (w1, TickResult.nil) =>
    if tickDone then (w1.log (Effect.tickDoneSend currTick), EngineResult.returned)
    else (w1, EngineResult.returned)

/-- Where the goroutine of `startGameLoop` stands. -/
inductive LoopStatus where
  | running
  | shutDown
  | tickStartClosed
  | panicked (v : String)
  deriving DecidableEq, Repr

/-- The state of `startGameLoop`: the world, the local slice `waitingChs`, the
ghost log `closedChs` of every `close(ch)` made on a waiter channel, whether
the draining goroutine has been started, and the status of the loop. -/
structure GameLoop where
  world : World
  waitingChs : List Chan
  closedChs : List Chan
  draining : Bool
  status : LoopStatus
  deriving DecidableEq, Repr

/-- What the `select` of `startGameLoop` can receive: the cancellation of the
context, a value (or the closing, `ok = false`) of `tickStart` at time `now`,
or a waiter channel. -/
inductive LoopEvent where
  | ctxDone
  | tickStart (ok : Bool) (now : Nat)
  | addChannel (ch : Chan)
  deriving DecidableEq, Repr

/-- Source `closeAllChannels`: every channel of the slice is closed, in order.
The closes are appended to the log `closed`. -/
def closeAllChannels (closed : List Chan) (chs : List Chan) : List Chan :=
  chs.foldl (fun acc ch => acc ++ [ch]) closed

/-- Source `World.drainChannelsWaitingForNextTick`: a goroutine is started that
closes every channel arriving on `addChannelWaitingForNextTick` from now on. -/
def drainChannelsWaitingForNextTick (s : GameLoop) : GameLoop :=
  { s with draining := true }

/-- One iteration of the `select` in source `World.startGameLoop`. While the
loop runs: cancellation starts the draining goroutine, closes the pending
waiters, closes `tickDone` when not nil and leaves the loop; a closed
`tickStart` returns an error; a tick runs `tickTheEngine`, then closes the
pending waiters and empties the slice (a panic of `tickTheEngine` ends the
goroutine before that); a waiter channel is appended to the slice. After the
loop was left through cancellation, a waiter channel is received by the
draining goroutine, which closes it. In every other case nobody receives. -/
def startGameLoopStep (env : Env) (tickDone : Bool) (s : GameLoop) (ev : LoopEvent) : GameLoop :=
  match s.status with
  | LoopStatus.running =>
    match ev with
    | LoopEvent.ctxDone =>
      let s1 := drainChannelsWaitingForNextTick s
      let closed := closeAllChannels s1.closedChs s1.waitingChs
      let w1 := if tickDone then s1.world.log Effect.tickDoneClose else s1.world
      { s1 with world := w1, closedChs := closed, status := LoopStatus.shutDown }
    | LoopEvent.tickStart false _ => { s with status := LoopStatus.tickStartClosed }
    | LoopEvent.tickStart true now =>
      match tickTheEngine env s.world now tickDone with
      | (w1, EngineResult.panic v) => { s with world := w1, status := LoopStatus.panicked v }
      | (w1, EngineResult.returned) =>
        { s with world := w1, closedChs := closeAllChannels s.closedChs s.waitingChs, waitingChs := [] }
    | LoopEvent.addChannel ch => { s with waitingChs := s.waitingChs ++ [ch] }
  | LoopStatus.shutDown =>
    match ev with
    | LoopEvent.addChannel ch =>
      if s.draining then { s with closedChs := s.closedChs ++ [ch] } else s
    | _ => s
  | _ => s

/-- Source `World.startGameLoop`, run over the sequence of things its `select`
receives. -/
def startGameLoop (env : Env) (tickDone : Bool) (s : GameLoop) (evs : List LoopEvent) : GameLoop :=
  evs.foldl (startGameLoopStep env tickDone) s

/-- The state in which `startGameLoop` begins: `waitingChs` is nil. -/
def GameLoop.start (w : World) : GameLoop :=
  { world := w, waitingChs := [], closedChs := [], draining := false, status := LoopStatus.running }

/-- Source `World.WaitForNextTick`. The tick is read; the fresh channel `ch` is
sent on `addChannelWaitingForNextTick` after the loop received `before`; the
caller blocks until `ch` is closed, the loop receiving `later` meanwhile; the
result is whether the tick read then is greater than the tick read at entry.
The value is `none` when `ch` has not been closed, that is when the call has
not returned. -/
def WaitForNextTick (env : Env) (tickDone : Bool) (s : GameLoop) (ch : Chan)
    (before later : List LoopEvent) : Option Bool :=
  let startTick := s.world.CurrentTick
  let s1 := startGameLoop env tickDone s before
  let s2 := startGameLoopStep env tickDone s1 (LoopEvent.addChannel ch)
  let s3 := startGameLoop env tickDone s2 later
  if ch ∈ s3.closedChs then some (decide (s3.world.CurrentTick > startTick)) else none

/-- How a call of `Shutdown` ends: the request was ignored, the call came back
after the stage `ShutDown` was notified, it panicked on a nil `cancel`, or it
is still waiting for the notification. -/
inductive ShutdownResult where
  | ignored
  | completed
  | nilCancelPanic
  | waiting
  deriving DecidableEq, Repr

/-- Source `World.Shutdown`. In stage `ShutDown` or `ShuttingDown` the request
is ignored. Otherwise `ShuttingDown` is stored, `cancel` is called (a nil
function panics), and the call waits for the notification of stage `ShutDown`;
`others` is what the other goroutines do to the world during the wait.
Modelled from the spec: `NotifyOnStage`, whose code is not among the sources,
fires when the stage is current or later; no stage is later than `ShutDown`. -/
def Shutdown (w : World) (others : World → World) : World × ShutdownResult :=
  if w.stage = Stage.ShutDown ∨ w.stage = Stage.ShuttingDown then
    (w, ShutdownResult.ignored)
  else
    let w1 := w.storeStage Stage.ShuttingDown
    if w1.cancel = false then (w1, ShutdownResult.nilCancelPanic)
    else
      let w2 := w1.log Effect.cancel
      let w3 := w2.log (Effect.notifyOnStage Stage.ShutDown)
      let w4 := others w3
      if w4.stage = Stage.ShutDown then (w4, ShutdownResult.completed)
      else (w4, ShutdownResult.waiting)

/-- Source `World.cleanup`: the storage connection is closed, telemetry is shut
down when set (both errors are only written to the logger), and the stage
`ShutDown` is stored last. -/
def cleanup (env : Env) (w : World) : World :=
  let _closed := env.redisClose w
  let w1 := w.log Effect.redisClose
  let w2 := if w1.telemetry then
      let _down := env.telemetryShutdown w1
      w1.log Effect.telemetryShutdown
    else w1
  w2.storeStage Stage.ShutDown

/-- Replays the historical blobs in order through `doTick`, stopping at the
first tick that does not return nil. -/
def replayBlobs (env : Env) : World → List Blob → World × TickResult
  | w, [] => (w, TickResult.nil)
  | w, b :: bs =>
    match doTick env { w with txPool := w.txPool ++ b.txs } b.timestamp with
    | (w1, TickResult.nil) => replayBlobs env w1 bs
    | r => r

/-- Modelled from the spec: `World.recoverFromChain`, whose code is not among
the sources: for each historical tick blob the sequencer has for this
namespace, replay it via `doTick` with the original timestamp; recovery halts
on any error. -/
def recoverFromChain (env : Env) (w : World) : World × TickResult :=
  replayBlobs env (w.log Effect.recoverFromChain) (env.chainBlobs w)

/-- How a call of `StartGame` ends: it returns nil, returns an error, panics in
its own goroutine (during recovery), is ended with the whole process by a
panic of the game-loop goroutine, or is still blocked in `g.Wait()`. -/
inductive StartResult where
  | nil
  | err (msg : String)
  | panic (v : String)
  | crashed (v : String)
  | blocked
  deriving DecidableEq, Repr

/-- The body of source `World.StartGame` from the compare-and-swap to the
return, without the deferred `cleanup`. `evs` is what the game loop receives.
Modelled from the spec: `CompareAndSwap(Init, Starting)`, whose code is not
among the sources, stores `Starting` and yields true exactly when the stage is
`Init`. -/
def startGameBody (env : Env) (w : World) (evs : List LoopEvent) : World × StartResult :=
  if w.stage ≠ Stage.Init then (w, StartResult.err "game has already been started")
  else
    let w1 := w.storeStage Stage.Starting
    match env.registerComponents w1 with
    | some e => (w1.log Effect.registerComponents, StartResult.err ("failed to register components: " ++ e))
    | none =>
      let w2 := w1.log Effect.registerComponents
      let started : World × Option String :=
        if w2.router then
          match env.routerStart w2 with
          | some e => (w2.log Effect.routerStart, some ("failed to start router service: " ++ e))
          | none =>
            let w3 := w2.log Effect.routerStart
            match env.registerGameShard w3 with
            | some e => (w3.log Effect.registerGameShard,
                some ("failed to register game shard to base shard: " ++ e))
            | none => (w3.log Effect.registerGameShard, none)
        else (w2, none)
      match started with
      | (w4, some msg) => (w4, StartResult.err msg)
      | (w4, none) =>
        let w5 := w4.storeStage Stage.Recovering
        match env.getLastFinalizedTick w5 with
        | Except.error e =>
          (w5.log Effect.getLastFinalizedTick, StartResult.err ("failed to get latest finalized tick: " ++ e))
        | Except.ok tick =>
          let w6 := w5.log Effect.getLastFinalizedTick
          let w7 := { w6 with tick := tick, trace := w6.trace ++ [Effect.tickStore tick] }
          let recovered : World × TickResult :=
            if w7.rollupEnabled ∧ w7.router then recoverFromChain env w7 else (w7, TickResult.nil)
          match recovered with
          | (w8, TickResult.panic r) => (w8, StartResult.panic r)
          | (w8, TickResult.err _) => (w8, StartResult.err "failed to recover from chain")
          | (w8, TickResult.nil) =>
            let w9 := w8.receiptSetTick w8.CurrentTick
            let w10 := w9.storeStage Stage.Running
            let s := startGameLoop env w10.tickDoneChannel (GameLoop.start (w10.log Effect.startGameLoop)) evs
            match s.status with
            | LoopStatus.panicked v => (s.world, StartResult.crashed v)
            | LoopStatus.running => (s.world, StartResult.blocked)
            | LoopStatus.tickStartClosed =>
              (s.world, StartResult.err "error occurred while running cardinal")
            | LoopStatus.shutDown =>
              match env.serverServe s.world with
              | some _ => (s.world.log Effect.serverServe,
                  StartResult.err "error occurred while running cardinal")
              | none => (s.world.log Effect.serverServe, StartResult.nil)

/-- Source `World.StartGame`: `cancel` is assigned, the body runs, and the
deferred `cleanup` runs on every return of the body and on a panic raised in
the goroutine of `StartGame` itself. A call still blocked in `g.Wait()` has not
run `cleanup`, and a panic of the game-loop goroutine ends the process before
the deferred call. -/
def StartGame (env : Env) (w : World) (evs : List LoopEvent) : World × StartResult :=
  let w0 := { w with cancel := true }
  match startGameBody env w0 evs with
  | (w1, StartResult.blocked) => (w1, StartResult.blocked)
  | (w1, StartResult.crashed v) => (w1, StartResult.crashed v)
  | (w1, r) => (cleanup env w1, r)

/-- Successive calls of `doTick` with the given timestamps, each of which has to
return nil; `none` when one of them does not. -/
def doTicks (env : Env) : World → List Nat → Option World
  | w, [] => some w
  | w, t :: ts =>
    match doTick env w t with
    | (w1, TickResult.nil) => doTicks env w1 ts
    | _ => none

/-- The stages in which `doTick` is allowed to run. -/
def Stage.canTick (s : Stage) : Prop :=
  s = Stage.Recovering ∨ s = Stage.Running ∨ s = Stage.ShuttingDown

instance (s : Stage) : Decidable s.canTick := by
  unfold Stage.canTick
  exact inferInstance

/-- The effects appended to the trace between the world `w` and the later
world `w1`. -/
def World.since (w1 w : World) : List Effect := w1.trace.drop w.trace.length

/-- Whether the effect is a call of `router.SubmitTxBlob`. -/
def Effect.isSubmit : Effect → Bool
  | Effect.submitTxBlob _ _ _ => true
  | _ => false

/-- Whether the effect is one of the calls made by `broadcastTickResults`. -/
def Effect.isBroadcast : Effect → Bool
  | Effect.getReceiptsForTick _ => true
  | Effect.broadcastEvent _ => true
  | Effect.tickResultsClear => true
  | _ => false

/-- The world in which `doTick` calls `runSystems`: the pool has been
snapshotted and the timestamp stored. -/
def World.atSystems (w : World) (timestamp : Nat) : World :=
  { w with txPool := [], timestamp := timestamp,
           trace := w.trace ++ [Effect.copyTransactions w.txPool, Effect.storeTimestamp timestamp] }

/-- The world in which `doTick` calls `FinalizeTick`. -/
def World.atFinalize (w : World) (timestamp : Nat) : World :=
  (w.atSystems timestamp).log (Effect.runSystems w.txPool)

/-- The world in which `doTick` decides on the submission of the blob. -/
def World.atSubmit (w : World) (timestamp : Nat) : World :=
  ((w.atFinalize timestamp).log Effect.finalizeTick).log (Effect.setEvmResults w.txPool)

/-- The world in which `doTick` increments the tick: the blob has been
submitted when a router is set and the stage is not `Recovering`. -/
def World.atIncrement (w : World) (timestamp : Nat) : World :=
  if w.router ∧ w.stage ≠ Stage.Recovering then
    (w.atSubmit timestamp).log (Effect.submitTxBlob w.txPool w.tick timestamp)
  else w.atSubmit timestamp

/-- The world in which `doTick` decides on the broadcast: the tick has been
incremented and the receipt history advanced. -/
def World.atBroadcast (w : World) (timestamp : Nat) : World :=
  let w6 := w.atIncrement timestamp
  { w6 with tick := u64Add w.tick 1, receiptTick := u64Add w.receiptTick 1,
            trace := w6.trace ++ [Effect.tickAdd, Effect.nextTick] }

/-- The three effects of one call of `broadcastTickResults` in world `w`. -/
def broadcastEffects (env : Env) (w : World) : List Effect :=
  [Effect.getReceiptsForTick (u64Sub w.tick 1),
   Effect.broadcastEvent
     { tick := u64Sub w.tick 1, receipts := (env.getReceiptsForTick w (u64Sub w.tick 1)).1 },
   Effect.tickResultsClear]

/-- The effects of `doTick` up to and including `setEvmResults`. -/
def World.untilSubmit (w : World) (timestamp : Nat) : List Effect :=
  [Effect.copyTransactions w.txPool, Effect.storeTimestamp timestamp, Effect.runSystems w.txPool,
   Effect.finalizeTick, Effect.setEvmResults w.txPool]

/-- The submission made by `doTick`, when it makes one. -/
def World.submitEffects (w : World) (timestamp : Nat) : List Effect :=
  if w.router ∧ w.stage ≠ Stage.Recovering then
    [Effect.submitTxBlob w.txPool w.tick timestamp]
  else []

/-- Whether the effect is a send on the `tickDone` channel. -/
def Effect.isTickDoneSend : Effect → Bool
  | Effect.tickDoneSend _ => true
  | _ => false

/-- Whether the effect is one of those `doTick` makes. -/
def Effect.isTickStep : Effect → Bool
  | Effect.copyTransactions _ => true
  | Effect.storeTimestamp _ => true
  | Effect.runSystems _ => true
  | Effect.finalizeTick => true
  | Effect.setEvmResults _ => true
  | Effect.submitTxBlob _ _ _ => true
  | Effect.tickAdd => true
  | Effect.nextTick => true
  | Effect.getReceiptsForTick _ => true
  | Effect.broadcastEvent _ => true
  | Effect.tickResultsClear => true
  | _ => false

/-- An environment in which every collaborator succeeds, used to evaluate the
definitions on concrete inputs. -/
def envOk : Env where
  runSystems := fun _ _ => SysResult.ok
  finalizeTick := fun _ => none
  submitTxBlob := fun _ _ _ _ => none
  getReceiptsForTick := fun _ _ => ([], none)
  broadcastEvent := fun _ _ => none
  jsonMarshal := fun _ => Except.ok "err"
  registerComponents := fun _ => none
  routerStart := fun _ => none
  registerGameShard := fun _ => none
  getLastFinalizedTick := fun _ => Except.ok 0
  chainBlobs := fun _ => []
  serverServe := fun _ => none
  redisClose := fun _ => none
  telemetryShutdown := fun _ => none

/-- The environment `envOk` with a system that returns an error. -/
def envSystemsFail : Env := { envOk with runSystems := fun _ _ => SysResult.err "system failed" }

/-- The environment `envOk` with a failing `FinalizeTick`. -/
def envFinalizeFails : Env := { envOk with finalizeTick := fun _ => some "finalize failed" }

/-- The environment `envOk` with a failing `SubmitTxBlob`. -/
def envSubmitFails : Env := { envOk with submitTxBlob := fun _ _ _ _ => some "submit failed" }

/-- The environment `envOk` in which both `GetReceiptsForTick` and
`BroadcastEvent` return an error. -/
def envBroadcastFails : Env :=
  { envOk with getReceiptsForTick := fun _ _ => ([], some "no receipts"),
               broadcastEvent := fun _ _ => some "broadcast failed" }

/-- A world as `NewWorld` builds it without options: stage `Init`, tick 0,
nil router, nil cancel, nil tickDone channel. -/
def worldNew : World where
  stage := Stage.Init
  tick := 0
  timestamp := 0
  txPool := []
  router := false
  rollupEnabled := false
  cancel := false
  telemetry := false
  tickDoneChannel := false
  receiptTick := 0
  trace := []

/-- A running world at tick 7 with a router, a tickDone channel and two pending
transactions. -/
def worldRunning : World :=
  { worldNew with stage := Stage.Running, tick := 7, txPool := [11, 12], router := true,
                  cancel := true, tickDoneChannel := true, receiptTick := 7 }

/-- The waiter channels sent on `addChannelWaitingForNextTick` in a sequence
of events, in order. -/
def registered : List LoopEvent → List Chan
  | [] => []
  | LoopEvent.addChannel ch :: evs => ch :: registered evs
  | _ :: evs => registered evs

/-- The bookkeeping of the loop against the list `regs` of channels sent so
far: while the loop runs, the closed channels followed by the pending ones are
`regs`; after the loop was left through cancellation, the closed channels are
`regs` and the draining goroutine is on; after a panic or a closed `tickStart`
the closed channels followed by the pending ones are the beginning of `regs`
(later senders are never received). -/
def LoopInv (s : GameLoop) (regs : List Chan) : Prop :=
  match s.status with
  | LoopStatus.running => s.closedChs ++ s.waitingChs = regs
  | LoopStatus.shutDown => s.closedChs = regs ∧ s.draining = true
  | _ => ∃ t, s.closedChs ++ s.waitingChs ++ t = regs

/-- Whether the event is a tick that the running loop completes, that is a
tick whose `tickTheEngine` returns. -/
def tickSucceeds (env : Env) (tickDone : Bool) (s : GameLoop) (ev : LoopEvent) : Bool :=
  match s.status, ev with
  | LoopStatus.running, LoopEvent.tickStart true now =>
    decide ((tickTheEngine env s.world now tickDone).2 = EngineResult.returned)
  | _, _ => false

/-- The number of ticks completed by the loop over a sequence of events. -/
def successfulTicks (env : Env) (tickDone : Bool) : GameLoop → List LoopEvent → Nat
  | _, [] => 0
  | s, ev :: evs =>
    (if tickSucceeds env tickDone s ev then 1 else 0) +
      successfulTicks env tickDone (startGameLoopStep env tickDone s ev) evs

/-- The loop after it was left through cancellation, in the world left by
`cleanup`: stage `ShutDown`, the draining goroutine running. -/
def loopShutDown : GameLoop :=
  { world := { worldRunning with stage := Stage.ShutDown }, waitingChs := [], closedChs := [],
    draining := true, status := LoopStatus.shutDown }

/-- Whether the effect is one of the startup steps of `StartGame` that follow
the compare-and-swap: storing a stage other than `ShutDown`, registering the
components, starting the router, registering the game shard, reading the last
finalized tick, storing the tick, recovering from the chain, anchoring the
receipt history, starting the game loop or serving. -/
def Effect.isStartupStep : Effect → Bool
  | Effect.storeStage s => decide (s ≠ Stage.ShutDown)
  | Effect.registerComponents => true
  | Effect.routerStart => true
  | Effect.registerGameShard => true
  | Effect.getLastFinalizedTick => true
  | Effect.tickStore _ => true
  | Effect.recoverFromChain => true
  | Effect.receiptSetTick _ => true
  | Effect.startGameLoop => true
  | Effect.serverServe => true
  | _ => false

/-- Source `World.AddTransaction` (and `World.AddEVMTransaction`, which has the
same two statements): the tick is read, then the transaction is added to the
pool; the tick read is returned. Modelled from the spec: `txpool.AddTransaction`,
whose code is not among the sources, appends to the pending transactions. -/
def AddTransaction (w : World) (tx : Tx) : Nat × World :=
  let tick := w.CurrentTick
  (tick, { w with txPool := w.txPool ++ [tx] })

/-- The steps of a run in which calls of `AddTransaction` are interleaved with
ticks: the first statement of `AddTransaction` for `tx` (the read of the tick),
its second statement (the append to the pool), and a call of `doTick`. -/
inductive RaceStep where
  | readTick (tx : Tx)
  | appendTx (tx : Tx)
  | tick (timestamp : Nat)
  deriving DecidableEq, Repr

/-- The state of such a run: the world, the tick reported for each transaction
by `AddTransaction`, and, for each transaction of a snapshot, the number of the
tick that took the snapshot. -/
structure RaceState where
  world : World
  reported : List (Tx × Nat)
  executed : List (Tx × Nat)
  deriving DecidableEq, Repr

/-- The transactions of the snapshots taken in a trace. -/
def snapshotTxs : List Effect → List Tx
  | [] => []
  | Effect.copyTransactions snapshot :: rest => snapshot ++ snapshotTxs rest
  | _ :: rest => snapshotTxs rest

/-- One step of the run. A tick is a call of `doTick`; the transactions of the
snapshot it takes are recorded with the tick counter at its entry. -/
def raceStep (env : Env) (s : RaceState) : RaceStep → RaceState
  | RaceStep.readTick tx => { s with reported := s.reported ++ [(tx, s.world.CurrentTick)] }
  | RaceStep.appendTx tx => { s with world := { s.world with txPool := s.world.txPool ++ [tx] } }
  | RaceStep.tick timestamp =>
    let w1 := (doTick env s.world timestamp).1
    { s with world := w1,
             executed := s.executed ++
               (snapshotTxs (w1.since s.world)).map (fun tx => (tx, s.world.CurrentTick)) }

/-- A run of steps. -/
def raceRun (env : Env) (s : RaceState) (steps : List RaceStep) : RaceState :=
  steps.foldl (raceStep env) s

/-- The start of a run in world `w`. -/
def RaceState.start (w : World) : RaceState :=
  { world := w, reported := [], executed := [] }

/-- Whether the steps are those of calls of `AddTransaction`, given the
transactions `known` so far: each call has its own transaction, and the append
of a transaction comes after the read of the tick of the same call. -/
def raceWellFormed : List Tx → List RaceStep → Bool
  | _, [] => true
  | known, RaceStep.readTick tx :: rest =>
    !(known.contains tx) && raceWellFormed (tx :: known) rest
  | known, RaceStep.appendTx tx :: rest => known.contains tx && raceWellFormed known rest
  | known, RaceStep.tick _ :: rest => raceWellFormed known rest

/-- The number of calls of `doTick` among the steps. -/
def ticksIn : List RaceStep → Nat
  | [] => 0
  | RaceStep.tick _ :: rest => ticksIn rest + 1
  | _ :: rest => ticksIn rest

/-- The claim on a state of a run: no transaction is in the snapshot of a tick
numbered less than the tick reported for it. -/
def reportedNotAfterExecution (s : RaceState) : Prop :=
  ∀ tx t t1, (tx, t) ∈ s.reported → (tx, t1) ∈ s.executed → t ≤ t1

/-- A running world whose tick counter holds the largest `uint64`. -/
def worldAtMaxTick : World :=
  { worldRunning with tick := 2 ^ 64 - 1, txPool := [], receiptTick := 2 ^ 64 - 1 }

/-- The effects of the startup of `StartGame` before stage `Recovering` is
stored: the compare-and-swap to `Starting`, the registration of the components
and, when a router is set, its start and the registration of the game shard. -/
def World.startupEffects (w : World) : List Effect :=
  [Effect.storeStage Stage.Starting, Effect.registerComponents] ++
    (if w.router = true then [Effect.routerStart, Effect.registerGameShard] else [])

/-- The world in which `StartGame` calls `GetLastFinalizedTick`: stage
`Recovering` has just been stored. -/
def World.atLastFinalizedTick (w : World) : World :=
  { w with stage := Stage.Recovering,
           trace := w.trace ++ (w.startupEffects ++ [Effect.storeStage Stage.Recovering]) }

/-- The world in which `StartGame` decides on the recovery from the chain: the
last finalized tick `n` has been read and stored in the tick counter. -/
def World.atRecovery (w : World) (n : Nat) : World :=
  { w with stage := Stage.Recovering, tick := n,
           trace := w.trace ++ (w.startupEffects ++
             [Effect.storeStage Stage.Recovering, Effect.getLastFinalizedTick,
              Effect.tickStore n]) }

/-- The end of the startup from the world left by the recovery: the receipt
history is anchored at the current tick, stage `Running` is stored and the game
loop is started. -/
def World.started (w : World) : World :=
  ((w.receiptSetTick w.CurrentTick).storeStage Stage.Running).log Effect.startGameLoop

/-- Whether the effect is a store of a stage. -/
def Effect.isStoreStage : Effect → Bool
  | Effect.storeStage _ => true
  | _ => false

/-- An environment whose last finalized tick is 7. -/
def envFinalizedSeven : Env := { envOk with getLastFinalizedTick := fun _ => Except.ok 7 }

/-- An environment whose `GetLastFinalizedTick` fails. -/
def envNoFinalizedTick : Env :=
  { envOk with getLastFinalizedTick := fun _ => Except.error "storage unreachable" }

/-- An environment with one historical blob whose replay fails in a system. -/
def envRecoveryFails : Env :=
  { envOk with chainBlobs := fun _ => [{ txs := [1], timestamp := 3 }],
               runSystems := fun _ _ => SysResult.err "system failed" }

end Cardinal

/-!
# world-engine: the EVM to game-shard router

A shallow embedding of `evm/router/router.go`.  The message queue and the
result storage are declared in files that are not among the sources; they are
modelled from the spec, the result storage with its TTL per entry.  The
goroutine started by `dispatchMessage` is kept as a pending task in `spawned`
and run by `runSpawned`.  The wall clock that the result storage reads is the
field `clock` of the router state; `Router.advance` lets time pass.
-/

namespace EvmRouter

/-- EVM addresses (`common.Address`) are identified by a number. -/
abbrev Address := Nat

/-- EVM transaction hashes (`common.Hash`) are identified by a number. -/
abbrev Hash := Nat

/-- A game-shard gRPC client (`routerv1.MsgClient`) is identified by a number. -/
abbrev Client := Nat

/-- Source constant `CodeConnectionError = iota + 100`. -/
def CodeConnectionError : Nat := 100

/-- Source constant `CodeServerError`, the next `iota` value. -/
def CodeServerError : Nat := CodeConnectionError + 1

/-- The go-ethereum constant `ReceiptStatusSuccessful`, which is 1. -/
def ReceiptStatusSuccessful : Nat := 1

/-- The fields of `routerv1.SendMessageRequest`. -/
structure SendMessageRequest where
  Sender : String
  PersonaTag : String
  MessageId : String
  Message : List Nat
  EvmTxHash : String
  deriving DecidableEq, Repr

/-- The fields of `routerv1.SendMessageResponse`. -/
structure SendMessageResponse where
  EvmTxHash : String
  Code : Nat
  Errs : String
  Result : List Nat
  deriving DecidableEq, Repr

/-- Modelled from the spec: an entry of the message queue, a pending message
with its namespace. -/
structure NamespacedMessage where
  ns : String
  msg : SendMessageRequest
  deriving DecidableEq, Repr

/-- Modelled from the spec: the message queue `msgQueue`, whose code is not
among the sources: a map from address to `(namespace, pending_message)`, kept
here as a list of entries. -/
abbrev MsgQueue := List (Address × NamespacedMessage)

/-- Modelled from the spec: `msgQueue.Message`, the entry of an address, if
any. -/
def MsgQueue.Message (q : MsgQueue) (a : Address) : Option NamespacedMessage :=
  (q.find? (fun p => p.1 = a)).map Prod.snd

/-- Modelled from the spec: `msgQueue.IsSet`, whether the address has an
entry. -/
def MsgQueue.IsSet (q : MsgQueue) (a : Address) : Bool :=
  (q.Message a).isSome

/-- Modelled from the spec: `msgQueue.Set`, which returns an error on collision
and otherwise adds the entry. -/
def MsgQueue.Set (q : MsgQueue) (a : Address) (ns : String) (msg : SendMessageRequest) :
    Except String MsgQueue :=
  if q.IsSet a then Except.error "message already queued for this address"
  else Except.ok (q ++ [(a, { ns := ns, msg := msg })])

/-- Modelled from the spec: `msgQueue.Remove`, which deletes the entry of an
address. -/
def MsgQueue.Remove (q : MsgQueue) (a : Address) : MsgQueue :=
  q.filter (fun p => p.1 ≠ a)

/-- Modelled from the spec: `msgQueue.Clear`, which empties the queue. -/
def MsgQueue.Clear (_q : MsgQueue) : MsgQueue := []

/-- The queued request is held through a pointer, so the writes that
`dispatchMessage` makes to the request are seen in the queue: the request of
the address is replaced. -/
def MsgQueue.setMsg (q : MsgQueue) (a : Address) (msg : SendMessageRequest) : MsgQueue :=
  q.map (fun p => if p.1 = a then (p.1, { p.2 with msg := msg }) else p)

/-- Source variable `defaultStorageTimeout = 1 * time.Hour`, a `time.Duration`,
which counts nanoseconds. -/
def defaultStorageTimeout : Nat := 1 * (60 * (60 * (1000 * (1000 * 1000))))

/-- Modelled from the spec: an entry of the result storage, a cross-shard
result held with the time at which it was stored. -/
structure StoredResult where
  res : SendMessageResponse
  storedAt : Nat
  deriving DecidableEq, Repr

/-- Modelled from the spec: the result storage, whose code is not among the
sources: a store of results keyed by `evm_tx_hash` with a TTL per entry. The
entries are kept the newest first, so that a newer result for a hash hides the
older one; `keepAlive` is the TTL. -/
structure ResultStorage where
  keepAlive : Nat
  results : List StoredResult
  deriving DecidableEq, Repr

/-- Modelled from the spec: `NewMemoryResultStorage`, an empty storage with the
given TTL. -/
def NewMemoryResultStorage (keepAlive : Nat) : ResultStorage :=
  { keepAlive := keepAlive, results := [] }

/-- Modelled from the spec: an entry is past its TTL at time `now` when more
than `keepAlive` has passed since it was stored. -/
def StoredResult.expired (e : StoredResult) (keepAlive now : Nat) : Bool :=
  decide (e.storedAt + keepAlive < now)

/-- Modelled from the spec: `ResultStorage.SetResult` inserts the result keyed
by its `EvmTxHash`; `now` is the time of the insertion. -/
def ResultStorage.SetResult (st : ResultStorage) (now : Nat) (res : SendMessageResponse) :
    ResultStorage :=
  { st with results := { res := res, storedAt := now } :: st.results }

/-- Modelled from the spec: `ResultStorage.Result` returns the value and the
presence bit; an entry past its TTL at the time `now` of the read is not
returned (lazy expiry on read). -/
def ResultStorage.Result (st : ResultStorage) (now : Nat) (hash : String) :
    Option SendMessageResponse :=
  match st.results.find? (fun e => e.res.EvmTxHash = hash) with
  | none => none
  | some e => if e.expired st.keepAlive now then none else some e.res

/-- The part of `ethtypes.Transaction` read by the hook: the hash and the `To`
address, nil for a contract creation. -/
structure EvmTx where
  hash : Hash
  To : Option Address
  deriving DecidableEq, Repr

/-- The part of `ethtypes.Receipt` read by the hook. -/
structure EvmReceipt where
  status : Nat
  txHash : Hash
  deriving DecidableEq, Repr

/-- The state of `routerImpl`: the queue, the result storage, the goroutines
started by `dispatchMessage` that have not run yet (client and request), the
ghost log of the calls of `dispatchMessage`, and the wall clock as the result
storage reads it, in nanoseconds. -/
structure Router where
  queue : MsgQueue
  resultStore : ResultStorage
  spawned : List (Client × SendMessageRequest)
  dispatched : List (Address × Hash)
  clock : Nat
  deriving DecidableEq, Repr

/-- Time passes: the wall clock moves on by `d` and nothing else changes. -/
def Router.advance (r : Router) (d : Nat) : Router :=
  { r with clock := r.clock + d }

/-- The library functions and the remote parties the router calls. -/
structure RouterEnv where
  hexToAddress : String → Address
  hashString : Hash → String
  toLower : String → String
  getAddr : String → Except String String
  grpcNewClient : String → Option Client
  clientSendMessage : Client → SendMessageRequest → Except String SendMessageResponse

/-- Source `routerImpl.getConnectionForNamespace`: the address of the namespace
is looked up, then a client is made for it; the error of the lookup is
returned as it is, the error of the connection is replaced by a message naming
the address and the namespace. -/
def getConnectionForNamespace (env : RouterEnv) (ns : String) : Except String Client :=
  match env.getAddr ns with
  | Except.error err => Except.error err
  | Except.ok addr =>
    match env.grpcNewClient addr with
    | none => Except.error ("error connecting to '" ++ addr ++ "' for namespace '" ++ ns ++ "'")
    | some client => Except.ok client

/-- Source `routerImpl.dispatchMessage`. The message of the sender is taken
from the queue (nothing is done when there is none); its sender is lowered and
its `EvmTxHash` set; when no connection is found a result with
`CodeConnectionError` is stored; otherwise a goroutine is started that sends
the message. -/
def dispatchMessage (env : RouterEnv) (r : Router) (sender : Address) (txHash : Hash) : Router :=
  let r0 := { r with dispatched := r.dispatched ++ [(sender, txHash)] }
  match r0.queue.Message sender with
  | none => r0
  | some gameShardTx =>
    let msg : SendMessageRequest :=
      { gameShardTx.msg with Sender := env.toLower gameShardTx.msg.Sender,
                             EvmTxHash := env.hashString txHash }
    let r1 := { r0 with queue := r0.queue.setMsg sender msg }
    match getConnectionForNamespace env gameShardTx.ns with
    | Except.error err =>
      let res : SendMessageResponse :=
        { EvmTxHash := msg.EvmTxHash, Code := CodeConnectionError,
          Errs := "error getting game shard gRPC connection: " ++ err, Result := [] }
      { r1 with resultStore := r1.resultStore.SetResult r1.clock res }
    | Except.ok client => { r1 with spawned := r1.spawned ++ [(client, msg)] }

/-- The body of the goroutine started by `dispatchMessage`, run at time `now`:
the message is sent; an error is stored as a result with `CodeServerError`, a
response is stored as it is. -/
def sendInBackground (env : RouterEnv) (now : Nat) (st : ResultStorage)
    (task : Client × SendMessageRequest) : ResultStorage :=
  match env.clientSendMessage task.1 task.2 with
  | Except.error err =>
    st.SetResult now { EvmTxHash := task.2.EvmTxHash, Code := CodeServerError, Errs := err,
                       Result := [] }
  | Except.ok res => st.SetResult now res

/-- The goroutines started so far run to their end at the present time, in the
order in which they were started. -/
def runSpawned (env : RouterEnv) (r : Router) : Router :=
  { r with resultStore := r.spawned.foldl (sendInBackground env r.clock) r.resultStore,
           spawned := [] }

/-- The loop of source `routerImpl.PostBlockHook` from index `i` on. A
transaction with a `To` address that is in the queue reads `receipts[i]`
(`none` stands for the panic of an index out of range), dispatches when the
receipt is successful, and removes the address from the queue. -/
def postBlockLoop (env : RouterEnv) (receipts : List EvmReceipt) :
    Nat → List EvmTx → Router → Option Router
  | _, [], r => some r
  | i, tx :: txs, r =>
    match tx.To with
    | some toAddr =>
      if r.queue.IsSet toAddr then
        match receipts.get? i with
        | none => none
        | some receipt =>
          let r1 := if receipt.status = ReceiptStatusSuccessful then
              dispatchMessage env r toAddr receipt.txHash
            else r
          postBlockLoop env receipts (i + 1) txs { r1 with queue := r1.queue.Remove toAddr }
      else postBlockLoop env receipts (i + 1) txs r
    | none => postBlockLoop env receipts (i + 1) txs r

/-- Source `routerImpl.PostBlockHook`: the loop over the transactions, then the
queue is cleared. -/
def PostBlockHook (env : RouterEnv) (r : Router) (transactions : List EvmTx)
    (receipts : List EvmReceipt) : Option Router :=
  (postBlockLoop env receipts 0 transactions r).map
    (fun r1 => { r1 with queue := r1.queue.Clear })

/-- Source `routerImpl.SendMessage`: the request is built and set in the queue
under `HexToAddress(sender)`; the error of `Set` is returned. -/
def SendMessage (env : RouterEnv) (r : Router) (personaTag ns sender msgID : String)
    (msg : List Nat) : Router × Option String :=
  let req : SendMessageRequest :=
    { Sender := sender, PersonaTag := personaTag, MessageId := msgID, Message := msg,
      EvmTxHash := "" }
  match r.queue.Set (env.hexToAddress sender) ns req with
  | Except.error err => (r, some err)
  | Except.ok q => ({ r with queue := q }, none)

/-- Source `routerImpl.MessageResult`: the result of the hash is fetched; its
payload, error string and code are returned, or an error when there is none. -/
def MessageResult (r : Router) (evmTxHash : String) : Except String (List Nat × String × Nat) :=
  match r.resultStore.Result r.clock evmTxHash with
  | none => Except.error ("no result found for tx " ++ evmTxHash)
  | some res => Except.ok (res.Result, res.Errs, res.Code)

/-- The claim of the spec on which transactions dispatch, by index: the
transaction has a `To` address, the queue at the start of the block holds a
message for it, no earlier transaction of the block has the same `To` address,
and the receipt of the same index is successful. The value is the address and
the hash of the receipt. -/
def specDispatchAt (q0 : MsgQueue) (txs : List EvmTx) (receipts : List EvmReceipt)
    (i : Nat) : Option (Address × Hash) :=
  match txs.get? i, receipts.get? i with
  | some tx, some receipt =>
    match tx.To with
    | some a =>
      if q0.IsSet a = true ∧ (∀ j < i, (txs.get? j).bind EvmTx.To ≠ some a) ∧
          receipt.status = ReceiptStatusSuccessful then
        some (a, receipt.txHash)
      else none
    | none => none
  | _, _ => none

/-- The dispatches the spec expects of a block, in the order of the
transactions. -/
def specDispatches (q0 : MsgQueue) (txs : List EvmTx) (receipts : List EvmReceipt) :
    List (Address × Hash) :=
  (List.range txs.length).filterMap (specDispatchAt q0 txs receipts)

/-- The request that a dispatch of the queued message `m` with the hash `h`
sends: the queued request with `evm_tx_hash = h.String()` (and the sender in
lower case, as the source normalizes it). -/
def specRequest (env : RouterEnv) (m : NamespacedMessage) (h : Hash) : SendMessageRequest :=
  { m.msg with Sender := env.toLower m.msg.Sender, EvmTxHash := env.hashString h }

/-- The synthetic response that a dispatch with the hash `h` writes into the
result storage when the connection of the namespace fails with `err`. -/
def specConnectionFailure (env : RouterEnv) (h : Hash) (err : String) : SendMessageResponse :=
  { EvmTxHash := env.hashString h, Code := CodeConnectionError,
    Errs := "error getting game shard gRPC connection: " ++ err, Result := [] }

/-- What the spec expects the dispatches `ds` of a block to send: for each
dispatch whose namespace resolves to a client, the message queued for the
address at the start of the block, sent to that client with
`evm_tx_hash = receipt.tx_hash`. -/
def specSent (env : RouterEnv) (q0 : MsgQueue) (ds : List (Address × Hash)) :
    List (Client × SendMessageRequest) :=
  ds.filterMap (fun d =>
    match q0.Message d.1 with
    | none => none
    | some m =>
      match getConnectionForNamespace env m.ns with
      | Except.ok client => some (client, specRequest env m d.2)
      | Except.error _ => none)

/-- What the spec expects the dispatches `ds` of a block to record at once: for
each dispatch whose namespace does not resolve, the synthetic response with
`CodeConnectionError`, keyed by the hash of the receipt. -/
def specRecorded (env : RouterEnv) (q0 : MsgQueue) (ds : List (Address × Hash)) :
    List SendMessageResponse :=
  ds.filterMap (fun d =>
    match q0.Message d.1 with
    | none => none
    | some m =>
      match getConnectionForNamespace env m.ns with
      | Except.ok _ => none
      | Except.error err => some (specConnectionFailure env d.2 err))

/-- An environment for evaluation: every namespace resolves and every send is
answered with code 0. -/
def renvOk : RouterEnv where
  hexToAddress := fun s => s.length
  hashString := fun h => toString h
  toLower := fun s => s.toLower
  getAddr := fun ns => Except.ok ("addr-of-" ++ ns)
  grpcNewClient := fun _ => some 1
  clientSendMessage := fun _ msg =>
    Except.ok { EvmTxHash := msg.EvmTxHash, Code := 0, Errs := "", Result := [1] }

/-- The environment `renvOk` in which no namespace resolves. -/
def renvNoConnection : RouterEnv :=
  { renvOk with getAddr := fun _ => Except.error "namespace not found" }

/-- The environment `renvOk` in which every send fails. -/
def renvServerFails : RouterEnv :=
  { renvOk with clientSendMessage := fun _ _ => Except.error "rpc error: unavailable" }

/-- The environment `renvOk` in which every send fails with an error whose
text is empty, as `errors.New("")` has. -/
def renvServerFailsNoText : RouterEnv :=
  { renvOk with clientSendMessage := fun _ _ => Except.error "" }

/-- A router as `NewRouter` builds it: an empty queue and an empty result
storage with the TTL `defaultStorageTimeout`. -/
def routerNew : Router :=
  { queue := [], resultStore := NewMemoryResultStorage defaultStorageTimeout, spawned := [],
    dispatched := [], clock := 0 }

/-- A router with one message queued for address 10 and one for address 20. -/
def routerTwo : Router :=
  { routerNew with queue :=
      [(10, { ns := "game", msg := { Sender := "0xA", PersonaTag := "p", MessageId := "m",
                                      Message := [1], EvmTxHash := "" } }),
       (20, { ns := "game", msg := { Sender := "0xB", PersonaTag := "q", MessageId := "m",
                                      Message := [2], EvmTxHash := "" } })] }

end EvmRouter

/-!
# world-engine: custom authentication of the Nakama relay

A shallow embedding of `relay/nakama/auth/custom.go`.  The four handlers
(`authWithSIWE`, `authWithArgusID`, `linkWithSIWE`, `linkWithArgusID`) are
declared in files that are not among the sources; they are oracles, and each
call is recorded.
-/

namespace NakamaAuth

/-- Source constant `signInWithEthereumType`. -/
def signInWithEthereumType : String := "siwe"

/-- Source constant `signInWithArgusIDType`. -/
def signInWithArgusIDType : String := "argus"

/-- The part of `api.AuthenticateCustomRequest` and of `api.AccountCustom` read
by the routing: the identifier and the vars. -/
structure Request where
  id : String
  vars : List (String × String)
  deriving DecidableEq, Repr

/-- The index of a Go map of strings: the value of the key, or the empty string
when the key is missing. -/
def Request.var (req : Request) (key : String) : String :=
  ((req.vars.find? (fun p => p.1 = key)).map Prod.snd).getD ""

/-- The errors returned: `ErrBadCustomAuthType`, or the error of a handler. -/
inductive AuthError where
  | ErrBadCustomAuthType
  | handler (e : String)
  deriving DecidableEq, Repr

/-- The handlers that can be invoked. -/
inductive Handler where
  | authWithSIWE
  | authWithArgusID
  | linkWithSIWE
  | linkWithArgusID
  deriving DecidableEq, Repr

/-- The four handlers, as oracles. -/
structure AuthEnv where
  authWithSIWE : Request → Except AuthError Request
  authWithArgusID : Request → Except AuthError Request
  linkWithSIWE : Request → Except AuthError Request
  linkWithArgusID : Request → Except AuthError Request

/-- Source `handleCustomAuthentication`, with the global `GlobalJWTSecret` as
an argument. The result is returned with the list of the handlers invoked. -/
def handleCustomAuthentication (env : AuthEnv) (GlobalJWTSecret : String) (req : Request) :
    Except AuthError Request × List Handler :=
  let authType := req.var "type"
  if authType = signInWithEthereumType then
    match env.authWithSIWE req with
    | Except.error err => (Except.error err, [Handler.authWithSIWE])
    | Except.ok inResult => (Except.ok inResult, [Handler.authWithSIWE])
  else if authType = signInWithArgusIDType ∧ GlobalJWTSecret ≠ "" then
    match env.authWithArgusID req with
    | Except.error err => (Except.error err, [Handler.authWithArgusID])
    | Except.ok inResult => (Except.ok inResult, [Handler.authWithArgusID])
  else (Except.error AuthError.ErrBadCustomAuthType, [])

/-- Source `handleCustomLink`, with the global `GlobalJWTSecret` as an
argument. The result is returned with the list of the handlers invoked. -/
def handleCustomLink (env : AuthEnv) (GlobalJWTSecret : String) (req : Request) :
    Except AuthError Request × List Handler :=
  let authType := req.var "type"
  if authType = signInWithEthereumType then
    match env.linkWithSIWE req with
    | Except.error err => (Except.error err, [Handler.linkWithSIWE])
    | Except.ok inResult => (Except.ok inResult, [Handler.linkWithSIWE])
  else if authType = signInWithArgusIDType ∧ GlobalJWTSecret ≠ "" then
    match env.linkWithArgusID req with
    | Except.error err => (Except.error err, [Handler.linkWithArgusID])
    | Except.ok inResult => (Except.ok inResult, [Handler.linkWithArgusID])
  else (Except.error AuthError.ErrBadCustomAuthType, [])

/-- Handlers for evaluation: each accepts and marks the identifier. -/
def authEnvOk : AuthEnv where
  authWithSIWE := fun req => Except.ok { req with id := "siwe-auth" }
  authWithArgusID := fun req => Except.ok { req with id := "argus-auth" }
  linkWithSIWE := fun req => Except.ok { req with id := "siwe-link" }
  linkWithArgusID := fun req => Except.ok { req with id := "argus-link" }

end NakamaAuth

namespace Cardinal

/-! ## The stage check of `doTick` -/

theorem doTick_of_not_canTick (env : Env) (w : World) (ts : Nat)
    (h : w.stage ≠ Stage.Recovering ∧ w.stage ≠ Stage.Running ∧ w.stage ≠ Stage.ShuttingDown) :
    doTick env w ts = (w, TickResult.err (TickError.invalidStage w.stage)) := by
  unfold doTick
  rw [if_pos h]

/-- C1: the stage check of `doTick` fails exactly when the stage is none of
`Recovering`, `Running`, `ShuttingDown`; and from `Init`, `Starting` or
`ShutDown` the call returns the invalid-stage error and leaves the whole world
(pool, timestamp, tick, and the trace of calls) as it was. -/
theorem doTick_stage_precondition (env : Env) (w : World) (ts : Nat) :
    ((doTick env w ts).2 = TickResult.err (TickError.invalidStage w.stage) ↔
      (w.stage ≠ Stage.Recovering ∧ w.stage ≠ Stage.Running ∧ w.stage ≠ Stage.ShuttingDown)) ∧
    ((w.stage = Stage.Init ∨ w.stage = Stage.Starting ∨ w.stage = Stage.ShutDown) →
      doTick env w ts = (w, TickResult.err (TickError.invalidStage w.stage))) := by
  refine ⟨⟨fun h => ?_, fun h => by rw [doTick_of_not_canTick env w ts h]⟩, fun h => ?_⟩
  · by_contra hc
    unfold doTick at h
    rw [if_neg hc] at h
    simp only [World.copyTransactions] at h
    split at h
    · simp at h
    · simp at h
    · split at h
      · simp at h
      · split at h
        · simp at h
        · simp at h
  · apply doTick_of_not_canTick
    rcases h with h | h | h <;> simp [h]

/-- C1, evaluated: a tick asked of a fresh world in stage `Init` is refused and
the world is untouched. -/
theorem doTick_stage_precondition_witness :
    doTick envOk worldNew 5 = (worldNew, TickResult.err (TickError.invalidStage Stage.Init)) :=
  (doTick_stage_precondition envOk worldNew 5).2 (Or.inl rfl)

/-! ## The paths through `doTick` -/

theorem canTick_not_invalid {s : Stage} (h : s.canTick) :
    ¬ (s ≠ Stage.Recovering ∧ s ≠ Stage.Running ∧ s ≠ Stage.ShuttingDown) := by
  rcases h with h | h | h <;> simp [h]

theorem doTick_systems_err (env : Env) (w : World) (ts : Nat) (e : String)
    (hs : w.stage.canTick) (h : env.runSystems (w.atSystems ts) w.txPool = SysResult.err e) :
    doTick env w ts = (w.atFinalize ts, TickResult.err (TickError.systems e)) := by
  unfold doTick
  rw [if_neg (canTick_not_invalid hs)]
  simp only [World.copyTransactions, World.atSystems, World.atFinalize, World.log,
    List.append_assoc, List.cons_append, List.nil_append] at h ⊢
  rw [h]

theorem doTick_systems_panic (env : Env) (w : World) (ts : Nat) (r : String)
    (hs : w.stage.canTick) (h : env.runSystems (w.atSystems ts) w.txPool = SysResult.panic r) :
    doTick env w ts = (w.atFinalize ts, TickResult.panic r) := by
  unfold doTick
  rw [if_neg (canTick_not_invalid hs)]
  simp only [World.copyTransactions, World.atSystems, World.atFinalize, World.log,
    List.append_assoc, List.cons_append, List.nil_append] at h ⊢
  rw [h]

theorem doTick_finalize_err (env : Env) (w : World) (ts : Nat) (e : String)
    (hs : w.stage.canTick) (h1 : env.runSystems (w.atSystems ts) w.txPool = SysResult.ok)
    (h2 : env.finalizeTick (w.atFinalize ts) = some e) :
    doTick env w ts =
      ((w.atFinalize ts).log Effect.finalizeTick, TickResult.err (TickError.finalize e)) := by
  unfold doTick
  rw [if_neg (canTick_not_invalid hs)]
  simp only [World.copyTransactions, World.atSystems, World.atFinalize, World.log,
    List.append_assoc, List.cons_append, List.nil_append] at h1 h2 ⊢
  rw [h1]
  simp only
  rw [h2]

theorem doTick_submit_err (env : Env) (w : World) (ts : Nat) (e : String)
    (hs : w.stage.canTick) (h1 : env.runSystems (w.atSystems ts) w.txPool = SysResult.ok)
    (h2 : env.finalizeTick (w.atFinalize ts) = none)
    (hr : w.router = true) (hn : w.stage ≠ Stage.Recovering)
    (h3 : env.submitTxBlob (w.atSubmit ts) w.txPool w.tick ts = some e) :
    doTick env w ts = (w.atIncrement ts, TickResult.err (TickError.submit e)) := by
  unfold doTick
  rw [if_neg (canTick_not_invalid hs)]
  simp only [World.copyTransactions, World.atSystems, World.atFinalize, World.atSubmit,
    World.atIncrement, World.log,
    List.append_assoc, List.cons_append, List.nil_append] at h1 h2 h3 ⊢
  rw [h1]
  simp only
  rw [h2]
  simp only
  rw [if_pos ⟨hr, hn⟩, if_pos ⟨hr, hn⟩, h3]

theorem doTick_nil (env : Env) (w : World) (ts : Nat)
    (hs : w.stage.canTick) (h1 : env.runSystems (w.atSystems ts) w.txPool = SysResult.ok)
    (h2 : env.finalizeTick (w.atFinalize ts) = none)
    (h3 : w.router = true → w.stage ≠ Stage.Recovering →
      env.submitTxBlob (w.atSubmit ts) w.txPool w.tick ts = none) :
    doTick env w ts =
      (if w.stage ≠ Stage.Recovering then broadcastTickResults env (w.atBroadcast ts)
        else w.atBroadcast ts, TickResult.nil) := by
  unfold doTick
  rw [if_neg (canTick_not_invalid hs)]
  simp only [World.copyTransactions, World.atSystems, World.atFinalize, World.atSubmit,
    World.atIncrement, World.atBroadcast, World.receiptNextTick, World.log,
    List.append_assoc, List.cons_append, List.nil_append] at h1 h2 h3 ⊢
  rw [h1]
  simp only
  rw [h2]
  simp only
  by_cases hc : w.router = true ∧ w.stage ≠ Stage.Recovering
  · rw [if_pos hc, if_pos hc]
    simp only [h3 hc.1 hc.2]
  · rw [if_neg hc, if_neg hc]

theorem doTick_nil_inv (env : Env) (w w1 : World) (ts : Nat)
    (h : doTick env w ts = (w1, TickResult.nil)) :
    w.stage.canTick ∧ env.runSystems (w.atSystems ts) w.txPool = SysResult.ok ∧
    env.finalizeTick (w.atFinalize ts) = none ∧
    (w.router = true → w.stage ≠ Stage.Recovering →
      env.submitTxBlob (w.atSubmit ts) w.txPool w.tick ts = none) := by
  have hs : w.stage.canTick := by
    by_contra hc
    have hi : w.stage ≠ Stage.Recovering ∧ w.stage ≠ Stage.Running ∧
        w.stage ≠ Stage.ShuttingDown := by
      unfold Stage.canTick at hc
      push_neg at hc
      exact hc
    rw [doTick_of_not_canTick env w ts hi] at h
    simp at h
  have h1 : env.runSystems (w.atSystems ts) w.txPool = SysResult.ok := by
    cases hr : env.runSystems (w.atSystems ts) w.txPool with
    | ok => rfl
    | err e => rw [doTick_systems_err env w ts e hs hr] at h; simp at h
    | panic r => rw [doTick_systems_panic env w ts r hs hr] at h; simp at h
  have h2 : env.finalizeTick (w.atFinalize ts) = none := by
    cases hf : env.finalizeTick (w.atFinalize ts) with
    | none => rfl
    | some e => rw [doTick_finalize_err env w ts e hs h1 hf] at h; simp at h
  refine ⟨hs, h1, h2, fun hr hn => ?_⟩
  cases hb : env.submitTxBlob (w.atSubmit ts) w.txPool w.tick ts with
  | none => rfl
  | some e => rw [doTick_submit_err env w ts e hs h1 h2 hr hn hb] at h; simp at h

theorem since_of_trace_eq {w w1 : World} {l : List Effect} (h : w1.trace = w.trace ++ l) :
    w1.since w = l := by
  unfold World.since
  rw [h]
  exact List.drop_left _ _

theorem broadcastTickResults_eq (env : Env) (w : World) :
    broadcastTickResults env w = { w with trace := w.trace ++ broadcastEffects env w } := by
  simp [broadcastTickResults, broadcastEffects, World.log, World.CurrentTick]

theorem atIncrement_trace (w : World) (ts : Nat) :
    (w.atIncrement ts).trace = w.trace ++ (w.untilSubmit ts ++ w.submitEffects ts) := by
  unfold World.atIncrement World.submitEffects
  split <;>
    simp [World.atSubmit, World.atFinalize, World.atSystems, World.log, World.untilSubmit]

theorem atBroadcast_trace (w : World) (ts : Nat) :
    (w.atBroadcast ts).trace =
      w.trace ++ (w.untilSubmit ts ++ w.submitEffects ts ++ [Effect.tickAdd, Effect.nextTick]) := by
  simp [World.atBroadcast, atIncrement_trace]

theorem atIncrement_tick (w : World) (ts : Nat) : (w.atIncrement ts).tick = w.tick := by
  unfold World.atIncrement
  split <;> simp [World.atSubmit, World.atFinalize, World.atSystems, World.log]

theorem atIncrement_stage (w : World) (ts : Nat) : (w.atIncrement ts).stage = w.stage := by
  unfold World.atIncrement
  split <;> simp [World.atSubmit, World.atFinalize, World.atSystems, World.log]

/-- The world left by a `doTick` that returns nil, field by field. -/
theorem doTick_nil_fields (env : Env) (w w1 : World) (ts : Nat)
    (h : doTick env w ts = (w1, TickResult.nil)) :
    w1.tick = u64Add w.tick 1 ∧ w1.receiptTick = u64Add w.receiptTick 1 ∧ w1.stage = w.stage ∧
    w1.trace = w.trace ++ (w.untilSubmit ts ++ w.submitEffects ts ++
      [Effect.tickAdd, Effect.nextTick] ++
      (if w.stage ≠ Stage.Recovering then broadcastEffects env (w.atBroadcast ts) else [])) := by
  obtain ⟨hs, h1, h2, h3⟩ := doTick_nil_inv env w w1 ts h
  rw [doTick_nil env w ts hs h1 h2 h3] at h
  have hw : w1 = if w.stage ≠ Stage.Recovering then broadcastTickResults env (w.atBroadcast ts)
      else w.atBroadcast ts := (congrArg Prod.fst h).symm
  subst hw
  by_cases hr : w.stage ≠ Stage.Recovering
  · rw [if_pos hr, if_pos hr, broadcastTickResults_eq]
    simp [atIncrement_trace, World.atBroadcast, atIncrement_stage]
  · rw [if_neg hr, if_neg hr]
    simp [atIncrement_trace, World.atBroadcast, atIncrement_stage]

/-! ## The tick counter -/

theorem doTicks_tick (env : Env) (tss : List Nat) :
    ∀ w w1 : World, w.tick < u64 → doTicks env w tss = some w1 →
      w1.tick = (w.tick + tss.length) % u64 := by
  induction tss with
  | nil =>
    intro w w1 hw h
    simp only [doTicks, Option.some.injEq] at h
    subst h
    simp [Nat.mod_eq_of_lt hw]
  | cons t ts ih =>
    intro w w1 hw h
    unfold doTicks at h
    cases hd : doTick env w t with
    | mk w2 r =>
      rw [hd] at h
      cases r with
      | nil =>
        simp only at h
        have hf := (doTick_nil_fields env w w2 t hd).1
        have h2 : w2.tick < u64 := by
          rw [hf]
          exact Nat.mod_lt _ (by unfold u64; positivity)
        rw [ih w2 w1 h2 h, hf]
        unfold u64Add
        rw [List.length_cons, Nat.mod_add_mod]
        congr 1
        omega
      | err e => simp at h
      | panic r => simp at h

/-- C2: a `doTick` that returns nil leaves the tick counter at `n + 1` modulo
`2^64`, having incremented it once and advanced the receipt history once; and
after any sequence of `k` successful `doTick` calls `CurrentTick()` is
`n + k` modulo `2^64`. -/
theorem doTick_advances_tick_by_one (env : Env) (w : World) (hw : w.tick < 2 ^ 64) :
    (∀ ts w1, doTick env w ts = (w1, TickResult.nil) →
      w1.CurrentTick = (w.tick + 1) % 2 ^ 64 ∧
      (w1.since w).count Effect.tickAdd = 1 ∧
      (w1.since w).count Effect.nextTick = 1 ∧
      w1.receiptTick = (w.receiptTick + 1) % 2 ^ 64) ∧
    (∀ tss w1, doTicks env w tss = some w1 →
      w1.CurrentTick = (w.tick + tss.length) % 2 ^ 64) := by
  refine ⟨fun ts w1 h => ?_, fun tss w1 h => doTicks_tick env tss w w1 hw h⟩
  obtain ⟨ht, hr, _, htr⟩ := doTick_nil_fields env w w1 ts h
  rw [since_of_trace_eq htr]
  refine ⟨ht, ?_, ?_, hr⟩
  · unfold World.untilSubmit World.submitEffects broadcastEffects
    split <;> split <;> simp
  · unfold World.untilSubmit World.submitEffects broadcastEffects
    split <;> split <;> simp

/-- C2, evaluated: in the running world at tick 7 one successful tick leads to
tick 8 and two successful ticks lead to tick 9. -/
theorem doTick_advances_tick_by_one_witness :
    (doTick envOk worldRunning 100).1.CurrentTick = 8 ∧
    (doTicks envOk worldRunning [100, 200]).map World.CurrentTick = some 9 :=
  ⟨((doTick_advances_tick_by_one envOk worldRunning (by decide)).1 100
      (doTick envOk worldRunning 100).1 rfl).1,
   match h : doTicks envOk worldRunning [100, 200] with
   | none => absurd h (by decide)
   | some w1 => congrArg some
      ((doTick_advances_tick_by_one envOk worldRunning (by decide)).2 [100, 200] w1 h)⟩

/-! ## Halting at the first failing step -/

theorem since_self (w : World) : w.since w = [] := by
  simp [World.since]

theorem atFinalize_trace (w : World) (ts : Nat) :
    (w.atFinalize ts).trace = w.trace ++
      [Effect.copyTransactions w.txPool, Effect.storeTimestamp ts, Effect.runSystems w.txPool] := by
  simp [World.atFinalize, World.atSystems, World.log]

/-- C3: `doTick` halts at the first failing step. When `runSystems` returns
an error, no `FinalizeTick`, no `SubmitTxBlob`, no increment, no `NextTick` and
no broadcast is made; when `FinalizeTick` returns an error, no `SubmitTxBlob`,
increment, `NextTick` or broadcast is made; when the call of `SubmitTxBlob`
returns an error, no increment, `NextTick` or broadcast is made. Each time
`doTick` returns an error and the tick counter is the one at entry. -/
theorem doTick_halts_at_first_failure (env : Env) (w : World) (ts : Nat) :
    (∀ e, env.runSystems (w.atSystems ts) w.txPool = SysResult.err e →
      (∃ err, (doTick env w ts).2 = TickResult.err err) ∧
      (doTick env w ts).1.CurrentTick = w.tick ∧
      (doTick env w ts).1.receiptTick = w.receiptTick ∧
      ∀ x ∈ (doTick env w ts).1.since w, x ≠ Effect.finalizeTick ∧ x.isSubmit = false ∧
        x ≠ Effect.tickAdd ∧ x ≠ Effect.nextTick ∧ x.isBroadcast = false) ∧
    (∀ e, env.runSystems (w.atSystems ts) w.txPool = SysResult.ok →
      env.finalizeTick (w.atFinalize ts) = some e →
      (∃ err, (doTick env w ts).2 = TickResult.err err) ∧
      (doTick env w ts).1.CurrentTick = w.tick ∧
      (doTick env w ts).1.receiptTick = w.receiptTick ∧
      ∀ x ∈ (doTick env w ts).1.since w, x.isSubmit = false ∧
        x ≠ Effect.tickAdd ∧ x ≠ Effect.nextTick ∧ x.isBroadcast = false) ∧
    (∀ e, env.runSystems (w.atSystems ts) w.txPool = SysResult.ok →
      env.finalizeTick (w.atFinalize ts) = none →
      w.router = true → w.stage ≠ Stage.Recovering →
      env.submitTxBlob (w.atSubmit ts) w.txPool w.tick ts = some e →
      (∃ err, (doTick env w ts).2 = TickResult.err err) ∧
      (doTick env w ts).1.CurrentTick = w.tick ∧
      (doTick env w ts).1.receiptTick = w.receiptTick ∧
      ∀ x ∈ (doTick env w ts).1.since w,
        x ≠ Effect.tickAdd ∧ x ≠ Effect.nextTick ∧ x.isBroadcast = false) := by
  by_cases hs : w.stage.canTick
  · refine ⟨fun e h1 => ?_, fun e h1 h2 => ?_, fun e h1 h2 hr hn h3 => ?_⟩
    · rw [doTick_systems_err env w ts e hs h1]
      refine ⟨⟨_, rfl⟩, rfl, rfl, ?_⟩
      rw [since_of_trace_eq (atFinalize_trace w ts)]
      intro x hx
      simp only [List.mem_cons, List.mem_singleton, List.not_mem_nil, or_false] at hx
      rcases hx with hx | hx | hx <;> subst hx <;> simp [Effect.isSubmit, Effect.isBroadcast]
    · rw [doTick_finalize_err env w ts e hs h1 h2]
      refine ⟨⟨_, rfl⟩, rfl, rfl, ?_⟩
      have htr : ((w.atFinalize ts).log Effect.finalizeTick).trace = w.trace ++
          [Effect.copyTransactions w.txPool, Effect.storeTimestamp ts,
            Effect.runSystems w.txPool, Effect.finalizeTick] := by
        simp [World.atFinalize, World.atSystems, World.log]
      rw [since_of_trace_eq htr]
      intro x hx
      simp only [List.mem_cons, List.mem_singleton, List.not_mem_nil, or_false] at hx
      rcases hx with hx | hx | hx | hx <;> subst hx <;>
        simp [Effect.isSubmit, Effect.isBroadcast]
    · rw [doTick_submit_err env w ts e hs h1 h2 hr hn h3]
      refine ⟨⟨_, rfl⟩, atIncrement_tick w ts, ?_, ?_⟩
      · unfold World.atIncrement
        split <;> simp [World.atSubmit, World.atFinalize, World.atSystems, World.log]
      · rw [since_of_trace_eq (atIncrement_trace w ts)]
        intro x hx
        unfold World.untilSubmit World.submitEffects at hx
        rw [if_pos ⟨hr, hn⟩] at hx
        simp only [List.cons_append, List.nil_append, List.mem_cons, List.mem_singleton,
          List.not_mem_nil, or_false] at hx
        rcases hx with hx | hx | hx | hx | hx | hx <;> subst hx <;> simp [Effect.isBroadcast]
  · have hi : w.stage ≠ Stage.Recovering ∧ w.stage ≠ Stage.Running ∧
        w.stage ≠ Stage.ShuttingDown := by
      unfold Stage.canTick at hs
      push_neg at hs
      exact hs
    rw [doTick_of_not_canTick env w ts hi]
    simp [since_self, World.CurrentTick]

/-- C3, evaluated: in the running world at tick 7 a failing system, a failing
`FinalizeTick` and a failing `SubmitTxBlob` each leave the tick at 7. -/
theorem doTick_halts_at_first_failure_witness :
    (doTick envSystemsFail worldRunning 5).1.CurrentTick = 7 ∧
    (doTick envFinalizeFails worldRunning 5).1.CurrentTick = 7 ∧
    (doTick envSubmitFails worldRunning 5).1.CurrentTick = 7 :=
  ⟨((doTick_halts_at_first_failure envSystemsFail worldRunning 5).1 "system failed" rfl).2.1,
   ((doTick_halts_at_first_failure envFinalizeFails worldRunning 5).2.1 "finalize failed"
      rfl rfl).2.1,
   ((doTick_halts_at_first_failure envSubmitFails worldRunning 5).2.2 "submit failed"
      rfl rfl rfl (by decide) rfl).2.1⟩

/-! ## The submission of the blob -/

theorem doTick_trace_after_finalize (env : Env) (w : World) (ts : Nat)
    (hs : w.stage.canTick) (h1 : env.runSystems (w.atSystems ts) w.txPool = SysResult.ok)
    (h2 : env.finalizeTick (w.atFinalize ts) = none) :
    ∃ rest, (doTick env w ts).1.trace =
        w.trace ++ (w.untilSubmit ts ++ w.submitEffects ts ++ rest) ∧
      ∀ x ∈ rest, x.isSubmit = false := by
  by_cases h3 : w.router = true → w.stage ≠ Stage.Recovering →
      env.submitTxBlob (w.atSubmit ts) w.txPool w.tick ts = none
  · have h := doTick_nil env w ts hs h1 h2 h3
    have hf := doTick_nil_fields env w _ ts h
    rw [h]
    refine ⟨[Effect.tickAdd, Effect.nextTick] ++
      (if w.stage ≠ Stage.Recovering then broadcastEffects env (w.atBroadcast ts) else []),
      ?_, ?_⟩
    · rw [hf.2.2.2, List.append_assoc (w.untilSubmit ts ++ w.submitEffects ts)]
    · intro x hx
      by_cases hr : w.stage ≠ Stage.Recovering
      · rw [if_pos hr] at hx
        unfold broadcastEffects at hx
        simp only [List.cons_append, List.nil_append, List.mem_cons, List.mem_singleton,
          List.not_mem_nil, or_false] at hx
        rcases hx with rfl | rfl | rfl | rfl | rfl <;> rfl
      · rw [if_neg hr] at hx
        simp only [List.append_nil, List.mem_cons, List.mem_singleton,
          List.not_mem_nil, or_false] at hx
        rcases hx with rfl | rfl <;> rfl
  · push_neg at h3
    obtain ⟨hr, hn, h3⟩ := h3
    obtain ⟨e, he⟩ := Option.ne_none_iff_exists'.mp h3
    rw [doTick_submit_err env w ts e hs h1 h2 hr hn he]
    exact ⟨[], by simp [atIncrement_trace], by simp⟩

/-- C4: in a `doTick` whose systems and `FinalizeTick` succeed, the calls of
`SubmitTxBlob` are: exactly one, with the transactions of the snapshot taken
at the start of the tick, the tick counter from before the increment and the
timestamp passed to `doTick`, when the router is set and the stage is not
`Recovering`; and none otherwise. The snapshot is the pool at entry, taken by
the first effect of the tick. -/
theorem doTick_submits_iff_router_and_not_recovering (env : Env) (w : World) (ts : Nat)
    (hs : w.stage.canTick) (h1 : env.runSystems (w.atSystems ts) w.txPool = SysResult.ok)
    (h2 : env.finalizeTick (w.atFinalize ts) = none) :
    ((doTick env w ts).1.since w).filter Effect.isSubmit =
      (if w.router = true ∧ w.stage ≠ Stage.Recovering then
        [Effect.submitTxBlob w.txPool w.tick ts] else []) ∧
    ((∃ x ∈ (doTick env w ts).1.since w, x.isSubmit = true) ↔
      (w.router = true ∧ w.stage ≠ Stage.Recovering)) ∧
    ((doTick env w ts).1.since w).head? = some (Effect.copyTransactions w.txPool) := by
  obtain ⟨rest, htr, hrest⟩ := doTick_trace_after_finalize env w ts hs h1 h2
  rw [since_of_trace_eq htr]
  have hfilter : (w.untilSubmit ts ++ w.submitEffects ts ++ rest).filter Effect.isSubmit =
      (if w.router = true ∧ w.stage ≠ Stage.Recovering then
        [Effect.submitTxBlob w.txPool w.tick ts] else []) := by
    have hr : rest.filter Effect.isSubmit = [] := by
      rw [List.filter_eq_nil_iff]
      intro x hx
      simp [hrest x hx]
    rw [List.filter_append, List.filter_append, hr]
    unfold World.untilSubmit World.submitEffects
    split <;> simp [Effect.isSubmit, List.filter]
  refine ⟨hfilter, ?_, ?_⟩
  · have hmem : (∃ x ∈ w.untilSubmit ts ++ w.submitEffects ts ++ rest, x.isSubmit = true) ↔
        (w.untilSubmit ts ++ w.submitEffects ts ++ rest).filter Effect.isSubmit ≠ [] := by
      rw [Ne, List.filter_eq_nil_iff]
      push_neg
      rfl
    rw [hmem, hfilter]
    split <;> simp_all
  · simp [World.untilSubmit]

/-- C4, evaluated: the running world with a router submits its two pending
transactions with tick 7 and timestamp 5, once. -/
theorem doTick_submits_iff_router_and_not_recovering_witness :
    ((doTick envOk worldRunning 5).1.since worldRunning).filter Effect.isSubmit =
      [Effect.submitTxBlob [11, 12] 7 5] :=
  (doTick_submits_iff_router_and_not_recovering envOk worldRunning 5
    (by decide) rfl rfl).1

/-! ## The broadcast of the tick results -/

theorem u64Sub_u64Add_one (n : Nat) (h : n < 2 ^ 64) : u64Sub (u64Add n 1) 1 = n := by
  unfold u64Sub u64Add u64
  omega

theorem doTick_recovering_no_broadcast (env : Env) (w : World) (ts : Nat)
    (hrec : w.stage = Stage.Recovering) :
    ∀ x ∈ (doTick env w ts).1.since w, x.isBroadcast = false := by
  have hs : w.stage.canTick := Or.inl hrec
  cases h1 : env.runSystems (w.atSystems ts) w.txPool with
  | err e =>
    rw [doTick_systems_err env w ts e hs h1, since_of_trace_eq (atFinalize_trace w ts)]
    intro x hx
    simp only [List.mem_cons, List.mem_singleton, List.not_mem_nil, or_false] at hx
    rcases hx with rfl | rfl | rfl <;> rfl
  | panic r =>
    rw [doTick_systems_panic env w ts r hs h1, since_of_trace_eq (atFinalize_trace w ts)]
    intro x hx
    simp only [List.mem_cons, List.mem_singleton, List.not_mem_nil, or_false] at hx
    rcases hx with rfl | rfl | rfl <;> rfl
  | ok =>
    cases h2 : env.finalizeTick (w.atFinalize ts) with
    | some e =>
      have htr : ((w.atFinalize ts).log Effect.finalizeTick).trace = w.trace ++
          [Effect.copyTransactions w.txPool, Effect.storeTimestamp ts,
            Effect.runSystems w.txPool, Effect.finalizeTick] := by
        simp [World.atFinalize, World.atSystems, World.log]
      rw [doTick_finalize_err env w ts e hs h1 h2, since_of_trace_eq htr]
      intro x hx
      simp only [List.mem_cons, List.mem_singleton, List.not_mem_nil, or_false] at hx
      rcases hx with rfl | rfl | rfl | rfl <;> rfl
    | none =>
      have hn : ¬ (w.stage ≠ Stage.Recovering) := fun h => h hrec
      rw [doTick_nil env w ts hs h1 h2 (fun _ h => absurd hrec h), if_neg hn,
        since_of_trace_eq (atBroadcast_trace w ts)]
      intro x hx
      unfold World.untilSubmit World.submitEffects at hx
      rw [if_neg (fun h => h.2 hrec)] at hx
      simp only [List.cons_append, List.nil_append, List.append_nil, List.mem_cons,
        List.mem_singleton, List.not_mem_nil, or_false] at hx
      rcases hx with rfl | rfl | rfl | rfl | rfl | rfl | rfl <;> rfl

/-- C5: broadcasting is gated on the stage and is best-effort. In stage
`Recovering` no call of `broadcastTickResults` is made, whatever else happens.
In the other stages that may tick, once the systems, `FinalizeTick` and the
submission succeeded, and for every behaviour `g` of `GetReceiptsForTick` and
`b` of `BroadcastEvent`, `doTick` returns nil, the tick counter is advanced by
one, and the last effects of the tick are the increment, `NextTick` and then
the broadcast for tick `CurrentTick() - 1`, which is the tick at entry. -/
theorem doTick_broadcast_best_effort (env : Env) (w : World) (ts : Nat) :
    (w.stage = Stage.Recovering →
      ∀ x ∈ (doTick env w ts).1.since w, x.isBroadcast = false) ∧
    (w.stage.canTick → w.tick < 2 ^ 64 →
      env.runSystems (w.atSystems ts) w.txPool = SysResult.ok →
      env.finalizeTick (w.atFinalize ts) = none →
      (w.router = true → w.stage ≠ Stage.Recovering →
        env.submitTxBlob (w.atSubmit ts) w.txPool w.tick ts = none) →
      ∀ (g : World → Nat → List Receipt × Option String)
        (b : World → TickResults → Option String),
        (doTick { env with getReceiptsForTick := g, broadcastEvent := b } w ts).2 =
          TickResult.nil ∧
        (doTick { env with getReceiptsForTick := g, broadcastEvent := b } w ts).1.CurrentTick =
          (w.tick + 1) % 2 ^ 64 ∧
        (w.stage ≠ Stage.Recovering →
          u64Sub
            (doTick { env with getReceiptsForTick := g, broadcastEvent := b } w ts).1.CurrentTick
            1 = w.tick ∧
          ∃ pre, (∀ x ∈ pre, x.isBroadcast = false) ∧
            (doTick { env with getReceiptsForTick := g, broadcastEvent := b } w ts).1.since w =
              pre ++ [Effect.tickAdd, Effect.nextTick, Effect.getReceiptsForTick w.tick,
                Effect.broadcastEvent
                  { tick := w.tick, receipts := (g (w.atBroadcast ts) w.tick).1 },
                Effect.tickResultsClear])) := by
  refine ⟨doTick_recovering_no_broadcast env w ts, fun hs hw h1 h2 h3 g b => ?_⟩
  have h := doTick_nil { env with getReceiptsForTick := g, broadcastEvent := b } w ts hs h1 h2 h3
  have hf := doTick_nil_fields _ w _ ts h
  rw [h]
  refine ⟨rfl, hf.1, fun hn => ?_⟩
  have hsub : u64Sub (w.atBroadcast ts).tick 1 = w.tick := by
    simp only [World.atBroadcast]
    exact u64Sub_u64Add_one w.tick hw
  refine ⟨?_, w.untilSubmit ts ++ w.submitEffects ts, ?_, ?_⟩
  · simp only [World.CurrentTick]
    rw [hf.1]
    exact u64Sub_u64Add_one w.tick hw
  · intro x hx
    unfold World.untilSubmit World.submitEffects at hx
    split at hx <;>
      simp only [List.cons_append, List.nil_append, List.append_nil, List.mem_cons,
        List.mem_singleton, List.not_mem_nil, or_false] at hx
    · rcases hx with rfl | rfl | rfl | rfl | rfl | rfl <;> rfl
    · rcases hx with rfl | rfl | rfl | rfl | rfl <;> rfl
  · rw [since_of_trace_eq hf.2.2.2, if_pos hn]
    unfold broadcastEffects
    rw [hsub]
    simp

/-- C5, evaluated: in the running world at tick 7, with `GetReceiptsForTick` and
`BroadcastEvent` both failing, `doTick` returns nil and the tick is 8. -/
theorem doTick_broadcast_best_effort_witness :
    (doTick envBroadcastFails worldRunning 5).2 = TickResult.nil ∧
    (doTick envBroadcastFails worldRunning 5).1.CurrentTick = 8 :=
  ⟨((doTick_broadcast_best_effort envOk worldRunning 5).2 (by decide) (by decide) rfl rfl
      (fun _ _ => rfl) (fun _ _ => ([], some "no receipts"))
      (fun _ _ => some "broadcast failed")).1,
   ((doTick_broadcast_best_effort envOk worldRunning 5).2 (by decide) (by decide) rfl rfl
      (fun _ _ => rfl) (fun _ _ => ([], some "no receipts"))
      (fun _ _ => some "broadcast failed")).2.1⟩

/-! ## Every path of `doTick` at once -/

theorem doTick_cases (env : Env) (w : World) (ts : Nat) :
    doTick env w ts = (w, TickResult.err (TickError.invalidStage w.stage)) ∨
    (∃ e, doTick env w ts = (w.atFinalize ts, TickResult.err (TickError.systems e))) ∨
    (∃ r, doTick env w ts = (w.atFinalize ts, TickResult.panic r)) ∨
    (∃ e, doTick env w ts =
      ((w.atFinalize ts).log Effect.finalizeTick, TickResult.err (TickError.finalize e))) ∨
    (∃ e, doTick env w ts = (w.atIncrement ts, TickResult.err (TickError.submit e))) ∨
    doTick env w ts =
      (if w.stage ≠ Stage.Recovering then broadcastTickResults env (w.atBroadcast ts)
        else w.atBroadcast ts, TickResult.nil) := by
  by_cases hs : w.stage.canTick
  · cases h1 : env.runSystems (w.atSystems ts) w.txPool with
    | err e => exact Or.inr (Or.inl ⟨e, doTick_systems_err env w ts e hs h1⟩)
    | panic r => exact Or.inr (Or.inr (Or.inl ⟨r, doTick_systems_panic env w ts r hs h1⟩))
    | ok =>
      cases h2 : env.finalizeTick (w.atFinalize ts) with
      | some e =>
        exact Or.inr (Or.inr (Or.inr (Or.inl ⟨e, doTick_finalize_err env w ts e hs h1 h2⟩)))
      | none =>
        by_cases h3 : w.router = true → w.stage ≠ Stage.Recovering →
            env.submitTxBlob (w.atSubmit ts) w.txPool w.tick ts = none
        · exact Or.inr (Or.inr (Or.inr (Or.inr (Or.inr (doTick_nil env w ts hs h1 h2 h3)))))
        · push_neg at h3
          obtain ⟨hr, hn, h3⟩ := h3
          obtain ⟨e, he⟩ := Option.ne_none_iff_exists'.mp h3
          exact Or.inr (Or.inr (Or.inr (Or.inr (Or.inl
            ⟨e, doTick_submit_err env w ts e hs h1 h2 hr hn he⟩))))
  · have hi : w.stage ≠ Stage.Recovering ∧ w.stage ≠ Stage.Running ∧
        w.stage ≠ Stage.ShuttingDown := by
      unfold Stage.canTick at hs
      push_neg at hs
      exact hs
    exact Or.inl (doTick_of_not_canTick env w ts hi)

theorem broadcastTickResults_stage (env : Env) (w : World) :
    (broadcastTickResults env w).stage = w.stage := by
  rw [broadcastTickResults_eq]

theorem broadcastTickResults_tick (env : Env) (w : World) :
    (broadcastTickResults env w).tick = w.tick := by
  rw [broadcastTickResults_eq]

theorem atBroadcast_stage (w : World) (ts : Nat) : (w.atBroadcast ts).stage = w.stage := by
  simp [World.atBroadcast, atIncrement_stage]

/-- No path of `doTick` stores a stage. -/
theorem doTick_stage (env : Env) (w : World) (ts : Nat) :
    (doTick env w ts).1.stage = w.stage := by
  rcases doTick_cases env w ts with h | ⟨e, h⟩ | ⟨r, h⟩ | ⟨e, h⟩ | ⟨e, h⟩ | h <;> rw [h]
  · rfl
  · rfl
  · rfl
  · exact atIncrement_stage w ts
  · show (if w.stage ≠ Stage.Recovering then broadcastTickResults env (w.atBroadcast ts)
      else w.atBroadcast ts).stage = w.stage
    split
    · rw [broadcastTickResults_stage, atBroadcast_stage]
    · exact atBroadcast_stage w ts

/-- A `doTick` that does not return nil leaves the tick counter alone. -/
theorem doTick_tick_of_ne_nil (env : Env) (w : World) (ts : Nat)
    (hne : (doTick env w ts).2 ≠ TickResult.nil) : (doTick env w ts).1.tick = w.tick := by
  rcases doTick_cases env w ts with h | ⟨e, h⟩ | ⟨r, h⟩ | ⟨e, h⟩ | ⟨e, h⟩ | h
  · rw [h]
  · rw [h]; rfl
  · rw [h]; rfl
  · rw [h]; rfl
  · rw [h]; exact atIncrement_tick w ts
  · rw [h] at hne
    exact absurd rfl hne

/-- Every path of `doTick` appends tick steps to the trace and nothing else. -/
theorem doTick_trace (env : Env) (w : World) (ts : Nat) :
    ∃ l, (doTick env w ts).1.trace = w.trace ++ l ∧ ∀ x ∈ l, x.isTickStep = true := by
  rcases doTick_cases env w ts with h | ⟨e, h⟩ | ⟨r, h⟩ | ⟨e, h⟩ | ⟨e, h⟩ | h
  · exact ⟨[], by rw [h]; simp, by simp⟩
  · refine ⟨_, by rw [h]; exact atFinalize_trace w ts, ?_⟩
    intro x hx
    simp only [List.mem_cons, List.mem_singleton, List.not_mem_nil, or_false] at hx
    rcases hx with rfl | rfl | rfl <;> rfl
  · refine ⟨_, by rw [h]; exact atFinalize_trace w ts, ?_⟩
    intro x hx
    simp only [List.mem_cons, List.mem_singleton, List.not_mem_nil, or_false] at hx
    rcases hx with rfl | rfl | rfl <;> rfl
  · refine ⟨[Effect.copyTransactions w.txPool, Effect.storeTimestamp ts,
      Effect.runSystems w.txPool, Effect.finalizeTick], ?_, ?_⟩
    · rw [h]
      simp [World.atFinalize, World.atSystems, World.log]
    · intro x hx
      simp only [List.mem_cons, List.mem_singleton, List.not_mem_nil, or_false] at hx
      rcases hx with rfl | rfl | rfl | rfl <;> rfl
  · refine ⟨_, by rw [h]; exact atIncrement_trace w ts, ?_⟩
    intro x hx
    unfold World.untilSubmit World.submitEffects at hx
    split at hx <;>
      simp only [List.cons_append, List.nil_append, List.append_nil, List.mem_cons,
        List.mem_singleton, List.not_mem_nil, or_false] at hx
    · rcases hx with rfl | rfl | rfl | rfl | rfl | rfl <;> rfl
    · rcases hx with rfl | rfl | rfl | rfl | rfl <;> rfl
  · have hf := doTick_nil_fields env w _ ts h
    refine ⟨_, by rw [h]; exact hf.2.2.2, ?_⟩
    intro x hx
    unfold World.untilSubmit World.submitEffects broadcastEffects at hx
    split at hx <;> split at hx <;>
      simp only [List.cons_append, List.nil_append, List.append_nil, List.mem_cons,
        List.mem_singleton, List.not_mem_nil, or_false] at hx
    · rcases hx with rfl | rfl | rfl | rfl | rfl | rfl | rfl | rfl | rfl | rfl | rfl <;> rfl
    · rcases hx with rfl | rfl | rfl | rfl | rfl | rfl | rfl | rfl <;> rfl
    · rcases hx with rfl | rfl | rfl | rfl | rfl | rfl | rfl | rfl | rfl | rfl <;> rfl
    · rcases hx with rfl | rfl | rfl | rfl | rfl | rfl | rfl <;> rfl

/-! ## `tickTheEngine` -/

theorem isTickDoneSend_of_isTickStep {x : Effect} (h : x.isTickStep = true) :
    x.isTickDoneSend = false := by
  cases x <;> simp_all [Effect.isTickStep, Effect.isTickDoneSend]

theorem doTick_since_no_tickDoneSend (env : Env) (w : World) (ts : Nat) :
    ∃ l, (doTick env w ts).1.trace = w.trace ++ l ∧
      l.filter Effect.isTickDoneSend = [] := by
  obtain ⟨l, hl, hx⟩ := doTick_trace env w ts
  refine ⟨l, hl, ?_⟩
  rw [List.filter_eq_nil_iff]
  intro x hmem
  simp [isTickDoneSend_of_isTickStep (hx x hmem)]

/-- C6: when `doTick` returns nil and `tickDone` is not nil, `tickTheEngine`
returns after sending exactly one value on `tickDone`, the tick counter read at
entry, which is `CurrentTick() - 1` after the call. When `doTick` returns an
error, `tickTheEngine` panics, with the JSON serialisation of the error
whenever it has one, and sends nothing on `tickDone`. -/
theorem tickTheEngine_signals_completed_tick (env : Env) (w : World) (now : Nat) :
    (∀ w1, doTick env w now = (w1, TickResult.nil) →
      (tickTheEngine env w now true).2 = EngineResult.returned ∧
      ((tickTheEngine env w now true).1.since w).filter Effect.isTickDoneSend =
        [Effect.tickDoneSend w.tick] ∧
      (w.tick < 2 ^ 64 → u64Sub (tickTheEngine env w now true).1.CurrentTick 1 = w.tick)) ∧
    (∀ w1 e, doTick env w now = (w1, TickResult.err e) → ∀ tickDone,
      (∃ v, (tickTheEngine env w now tickDone).2 = EngineResult.panic v) ∧
      (∀ bytes, env.jsonMarshal e = Except.ok bytes →
        (tickTheEngine env w now tickDone).2 = EngineResult.panic bytes) ∧
      ∀ x ∈ (tickTheEngine env w now tickDone).1.since w, x.isTickDoneSend = false) := by
  obtain ⟨l, hl, hfil⟩ := doTick_since_no_tickDoneSend env w now
  refine ⟨fun w1 h => ?_, fun w1 e h tickDone => ?_⟩
  · have hf := doTick_nil_fields env w w1 now h
    rw [h] at hl
    have he : tickTheEngine env w now true =
        (w1.log (Effect.tickDoneSend w.tick), EngineResult.returned) := by
      simp [tickTheEngine, h, World.CurrentTick]
    rw [he]
    refine ⟨rfl, ?_, fun hw => ?_⟩
    · have htr : (w1.log (Effect.tickDoneSend w.tick)).trace =
          w.trace ++ (l ++ [Effect.tickDoneSend w.tick]) := by
        simp only [World.log] at hl ⊢
        rw [hl, List.append_assoc]
      rw [since_of_trace_eq htr, List.filter_append, hfil]
      rfl
    · show u64Sub w1.tick 1 = w.tick
      rw [hf.1]
      exact u64Sub_u64Add_one w.tick hw
  · rw [h] at hl
    have hw1 : (tickTheEngine env w now tickDone).1 = w1 := by
      simp only [tickTheEngine, h]
      cases env.jsonMarshal e <;> rfl
    refine ⟨?_, fun bytes hb => ?_, ?_⟩
    · simp only [tickTheEngine, h]
      cases env.jsonMarshal e with
      | error m => exact ⟨m, rfl⟩
      | ok bytes => exact ⟨bytes, rfl⟩
    · simp only [tickTheEngine, h, hb]
    · rw [hw1, since_of_trace_eq hl]
      intro x hx
      have := List.filter_eq_nil_iff.mp hfil x hx
      simpa using this

/-- C6, evaluated: in the running world at tick 7 a successful tick sends 7 on
`tickDone`, and a tick whose system fails panics with the serialised error. -/
theorem tickTheEngine_signals_completed_tick_witness :
    ((tickTheEngine envOk worldRunning 5 true).1.since worldRunning).filter
        Effect.isTickDoneSend = [Effect.tickDoneSend 7] ∧
    (tickTheEngine envSystemsFail worldRunning 5 true).2 = EngineResult.panic "err" :=
  ⟨((tickTheEngine_signals_completed_tick envOk worldRunning 5).1
      (doTick envOk worldRunning 5).1 rfl).2.1,
   ((tickTheEngine_signals_completed_tick envSystemsFail worldRunning 5).2
      (doTick envSystemsFail worldRunning 5).1 (TickError.systems "system failed") rfl true).2.1
      "err" rfl⟩

/-! ## The waiter list of `startGameLoop` -/

theorem closeAllChannels_eq (closed chs : List Chan) :
    closeAllChannels closed chs = closed ++ chs := by
  unfold closeAllChannels
  induction chs generalizing closed with
  | nil => simp
  | cons c cs ih => simp [List.foldl_cons, ih]

theorem registered_cons (ev : LoopEvent) (evs : List LoopEvent) :
    registered (ev :: evs) = registered [ev] ++ registered evs := by
  cases ev <;> simp [registered]

/-- One iteration keeps the bookkeeping, the channel of the event (if any)
being added to the channels sent. -/
theorem startGameLoopStep_inv (env : Env) (tickDone : Bool) (s : GameLoop) (ev : LoopEvent)
    (regs : List Chan) (h : LoopInv s regs) :
    LoopInv (startGameLoopStep env tickDone s ev) (regs ++ registered [ev]) := by
  unfold LoopInv at h
  cases hst : s.status with
  | running =>
    rw [hst] at h
    cases ev with
    | ctxDone =>
      simp [startGameLoopStep, hst, LoopInv, drainChannelsWaitingForNextTick,
        closeAllChannels_eq, registered, h]
    | tickStart ok now =>
      cases ok with
      | false =>
        simp only [startGameLoopStep, hst, LoopInv, registered, List.append_nil]
        exact ⟨[], by simp [h]⟩
      | true =>
        simp only [startGameLoopStep, hst, registered, List.append_nil]
        cases hte : tickTheEngine env s.world now tickDone with
        | mk w1 r =>
          cases r with
          | panic v =>
            simp only [LoopInv]
            exact ⟨[], by simp [h]⟩
          | returned =>
            simp only [LoopInv, hst, closeAllChannels_eq, List.append_nil]
            exact h
    | addChannel ch =>
      simp only [startGameLoopStep, hst, LoopInv, registered]
      rw [← h, List.append_assoc]
  | shutDown =>
    rw [hst] at h
    cases ev with
    | ctxDone => simpa [startGameLoopStep, hst, LoopInv, registered] using h
    | tickStart ok now => simpa [startGameLoopStep, hst, LoopInv, registered] using h
    | addChannel ch =>
      simp only [startGameLoopStep, hst, h.2, if_true, LoopInv, registered]
      exact ⟨by rw [h.1], trivial⟩
  | tickStartClosed =>
    rw [hst] at h
    obtain ⟨t, ht⟩ := h
    simp only [startGameLoopStep, hst, LoopInv]
    exact ⟨t ++ registered [ev], by rw [← ht]; simp only [List.append_assoc]⟩
  | panicked v =>
    rw [hst] at h
    obtain ⟨t, ht⟩ := h
    simp only [startGameLoopStep, hst, LoopInv]
    exact ⟨t ++ registered [ev], by rw [← ht]; simp only [List.append_assoc]⟩

theorem startGameLoop_inv (env : Env) (tickDone : Bool) (evs : List LoopEvent) :
    ∀ (s : GameLoop) (regs : List Chan), LoopInv s regs →
      LoopInv (startGameLoop env tickDone s evs) (regs ++ registered evs) := by
  induction evs with
  | nil =>
    intro s regs h
    simpa [startGameLoop, registered] using h
  | cons ev evs ih =>
    intro s regs h
    have h1 := startGameLoopStep_inv env tickDone s ev regs h
    have h2 := ih _ _ h1
    rw [List.append_assoc, ← registered_cons] at h2
    exact h2

theorem LoopInv_start (w : World) : LoopInv (GameLoop.start w) [] := by
  simp [LoopInv, GameLoop.start]

theorem LoopInv_closed_initial {s : GameLoop} {regs : List Chan} (h : LoopInv s regs) :
    ∃ t, s.closedChs ++ t = regs := by
  unfold LoopInv at h
  cases hst : s.status with
  | running => rw [hst] at h; exact ⟨_, h⟩
  | shutDown => rw [hst] at h; exact ⟨[], by simp [h.1]⟩
  | tickStartClosed =>
    rw [hst] at h
    obtain ⟨t, ht⟩ := h
    exact ⟨s.waitingChs ++ t, by rw [← ht, List.append_assoc]⟩
  | panicked v =>
    rw [hst] at h
    obtain ⟨t, ht⟩ := h
    exact ⟨s.waitingChs ++ t, by rw [← ht, List.append_assoc]⟩

/-- C7: the game loop over the events it receives, with fresh waiter channels.
No channel is closed twice and only channels that were sent are closed; while
the loop runs every channel sent is either closed or pending, in order; a tick
that completes closes all pending channels and leaves the pending list empty;
cancellation closes all pending channels and leaves the loop; and once the
loop was left through cancellation the channels closed are exactly the channels
sent, each once. -/
theorem startGameLoop_closes_each_waiter_once (env : Env) (tickDone : Bool) (w : World)
    (evs : List LoopEvent) (hfresh : (registered evs).Nodup) :
    (startGameLoop env tickDone (GameLoop.start w) evs).closedChs.Nodup ∧
    (∀ ch ∈ (startGameLoop env tickDone (GameLoop.start w) evs).closedChs,
      ch ∈ registered evs) ∧
    ((startGameLoop env tickDone (GameLoop.start w) evs).status = LoopStatus.running →
      (startGameLoop env tickDone (GameLoop.start w) evs).closedChs ++
        (startGameLoop env tickDone (GameLoop.start w) evs).waitingChs = registered evs) ∧
    ((startGameLoop env tickDone (GameLoop.start w) evs).status = LoopStatus.shutDown →
      (startGameLoop env tickDone (GameLoop.start w) evs).closedChs = registered evs) ∧
    (∀ now,
      (startGameLoop env tickDone (GameLoop.start w) evs).status = LoopStatus.running →
      (tickTheEngine env (startGameLoop env tickDone (GameLoop.start w) evs).world now
        tickDone).2 = EngineResult.returned →
      (startGameLoop env tickDone (GameLoop.start w)
        (evs ++ [LoopEvent.tickStart true now])).waitingChs = [] ∧
      (startGameLoop env tickDone (GameLoop.start w)
        (evs ++ [LoopEvent.tickStart true now])).closedChs = registered evs) ∧
    ((startGameLoop env tickDone (GameLoop.start w) evs).status = LoopStatus.running →
      (startGameLoop env tickDone (GameLoop.start w) (evs ++ [LoopEvent.ctxDone])).closedChs =
        registered evs ∧
      (startGameLoop env tickDone (GameLoop.start w) (evs ++ [LoopEvent.ctxDone])).status =
        LoopStatus.shutDown) := by
  have hinv := startGameLoop_inv env tickDone evs _ _ (LoopInv_start w)
  rw [List.nil_append] at hinv
  obtain ⟨t, ht⟩ := LoopInv_closed_initial hinv
  have hrun : (startGameLoop env tickDone (GameLoop.start w) evs).status = LoopStatus.running →
      (startGameLoop env tickDone (GameLoop.start w) evs).closedChs ++
        (startGameLoop env tickDone (GameLoop.start w) evs).waitingChs = registered evs := by
    intro hst
    unfold LoopInv at hinv
    rw [hst] at hinv
    exact hinv
  refine ⟨?_, ?_, hrun, ?_, ?_, ?_⟩
  · rw [← ht] at hfresh
    exact (List.nodup_append.mp hfresh).1
  · intro ch hch
    rw [← ht]
    exact List.mem_append_left _ hch
  · intro hst
    unfold LoopInv at hinv
    rw [hst] at hinv
    exact hinv.1
  · intro now hst hret
    have hr := hrun hst
    simp only [startGameLoop, List.foldl_append, List.foldl_cons, List.foldl_nil]
      at hr hst hret ⊢
    simp only [startGameLoopStep, hst]
    cases hte : tickTheEngine env
        (List.foldl (startGameLoopStep env tickDone) (GameLoop.start w) evs).world now
        tickDone with
    | mk w1 r =>
      rw [hte] at hret
      simp only at hret
      subst hret
      simp only [closeAllChannels_eq]
      exact ⟨trivial, hr⟩
  · intro hst
    have hr := hrun hst
    simp only [startGameLoop, List.foldl_append, List.foldl_cons, List.foldl_nil] at hr hst ⊢
    simp only [startGameLoopStep, hst, drainChannelsWaitingForNextTick, closeAllChannels_eq]
    exact ⟨hr, trivial⟩

/-- C7, evaluated: two waiters, a tick, a third waiter, cancellation and a late
waiter; the channels closed are 1, 2, 3, 4, each once. -/
theorem startGameLoop_closes_each_waiter_once_witness :
    (startGameLoop envOk true (GameLoop.start worldRunning)
      [LoopEvent.addChannel 1, LoopEvent.addChannel 2, LoopEvent.tickStart true 5,
       LoopEvent.addChannel 3, LoopEvent.ctxDone, LoopEvent.addChannel 4]).closedChs =
      [1, 2, 3, 4] :=
  (startGameLoop_closes_each_waiter_once envOk true worldRunning
    [LoopEvent.addChannel 1, LoopEvent.addChannel 2, LoopEvent.tickStart true 5,
     LoopEvent.addChannel 3, LoopEvent.ctxDone, LoopEvent.addChannel 4]
    (by decide)).2.2.2.1 rfl

/-! ## `WaitForNextTick` -/

theorem tickTheEngine_stage (env : Env) (w : World) (now : Nat) (tickDone : Bool) :
    (tickTheEngine env w now tickDone).1.stage = w.stage := by
  have hs := doTick_stage env w now
  unfold tickTheEngine
  cases hd : doTick env w now with
  | mk w1 r =>
    rw [hd] at hs
    cases r with
    | nil => simp only; split <;> exact hs
    | err e => simp only; cases env.jsonMarshal e <;> exact hs
    | panic v => exact hs

theorem tickTheEngine_tick_of_not_returned (env : Env) (w : World) (now : Nat)
    (tickDone : Bool) (h : (tickTheEngine env w now tickDone).2 ≠ EngineResult.returned) :
    (tickTheEngine env w now tickDone).1.tick = w.tick := by
  unfold tickTheEngine at h ⊢
  cases hd : doTick env w now with
  | mk w1 r =>
    rw [hd] at h
    have ht : r ≠ TickResult.nil → w1.tick = w.tick := by
      intro hne
      have := doTick_tick_of_ne_nil env w now (by rw [hd]; exact hne)
      rw [hd] at this
      exact this
    cases r with
    | nil =>
      simp only at h
      split at h <;> exact absurd rfl h
    | err e => simp only; cases env.jsonMarshal e <;> exact ht (by simp)
    | panic v => exact ht (by simp)

theorem tickTheEngine_not_returned_of_shutDown (env : Env) (w : World) (now : Nat)
    (tickDone : Bool) (h : w.stage = Stage.ShutDown) :
    (tickTheEngine env w now tickDone).2 ≠ EngineResult.returned := by
  have hd := doTick_of_not_canTick env w now (by simp [h])
  unfold tickTheEngine
  rw [hd]
  simp only
  cases env.jsonMarshal (TickError.invalidStage w.stage) <;> simp

theorem startGameLoopStep_stage (env : Env) (tickDone : Bool) (s : GameLoop) (ev : LoopEvent) :
    (startGameLoopStep env tickDone s ev).world.stage = s.world.stage := by
  unfold startGameLoopStep
  cases hst : s.status with
  | running =>
    cases ev with
    | ctxDone =>
      simp only [drainChannelsWaitingForNextTick]
      split <;> rfl
    | tickStart ok now =>
      cases ok with
      | false => rfl
      | true =>
        have := tickTheEngine_stage env s.world now tickDone
        simp only
        cases hte : tickTheEngine env s.world now tickDone with
        | mk w1 r =>
          rw [hte] at this
          cases r <;> exact this
    | addChannel ch => rfl
  | shutDown =>
    cases ev with
    | addChannel ch => simp only; split <;> rfl
    | ctxDone => rfl
    | tickStart ok now => rfl
  | tickStartClosed => rfl
  | panicked v => rfl

theorem startGameLoopStep_tick (env : Env) (tickDone : Bool) (s : GameLoop) (ev : LoopEvent)
    (h : tickSucceeds env tickDone s ev = false) :
    (startGameLoopStep env tickDone s ev).world.tick = s.world.tick := by
  unfold startGameLoopStep
  cases hst : s.status with
  | running =>
    cases ev with
    | ctxDone =>
      simp only [drainChannelsWaitingForNextTick]
      split <;> rfl
    | tickStart ok now =>
      cases ok with
      | false => rfl
      | true =>
        simp only [tickSucceeds, hst, decide_eq_false_iff_not] at h
        have := tickTheEngine_tick_of_not_returned env s.world now tickDone h
        simp only
        cases hte : tickTheEngine env s.world now tickDone with
        | mk w1 r =>
          rw [hte] at this h
          cases r with
          | returned => exact absurd rfl h
          | panic v => exact this
    | addChannel ch => rfl
  | shutDown =>
    cases ev with
    | addChannel ch => simp only; split <;> rfl
    | ctxDone => rfl
    | tickStart ok now => rfl
  | tickStartClosed => rfl
  | panicked v => rfl

theorem startGameLoop_tick_of_no_success (env : Env) (tickDone : Bool) (evs : List LoopEvent) :
    ∀ s : GameLoop, successfulTicks env tickDone s evs = 0 →
      (startGameLoop env tickDone s evs).world.tick = s.world.tick := by
  induction evs with
  | nil => intro s _; rfl
  | cons ev evs ih =>
    intro s h
    simp only [successfulTicks, Nat.add_eq_zero] at h
    have h1 : tickSucceeds env tickDone s ev = false := by
      by_contra hc
      simp [hc] at h
    simp only [startGameLoop, List.foldl_cons]
    have := ih _ h.2
    simp only [startGameLoop] at this
    rw [this, startGameLoopStep_tick env tickDone s ev h1]

theorem successfulTicks_of_shutDown_stage (env : Env) (tickDone : Bool)
    (evs : List LoopEvent) :
    ∀ s : GameLoop, s.world.stage = Stage.ShutDown →
      successfulTicks env tickDone s evs = 0 := by
  induction evs with
  | nil => intro s _; rfl
  | cons ev evs ih =>
    intro s h
    have h1 : tickSucceeds env tickDone s ev = false := by
      unfold tickSucceeds
      split
      · simp [tickTheEngine_not_returned_of_shutDown env s.world _ tickDone h]
      · rfl
    simp only [successfulTicks, h1, Bool.false_eq_true, if_false, Nat.zero_add]
    exact ih _ (by rw [startGameLoopStep_stage, h])

theorem startGameLoop_of_shutDown (env : Env) (tickDone : Bool) (evs : List LoopEvent) :
    ∀ s : GameLoop, s.status = LoopStatus.shutDown → s.draining = true →
      (startGameLoop env tickDone s evs).world = s.world ∧
      (∀ ch ∈ s.closedChs, ch ∈ (startGameLoop env tickDone s evs).closedChs) ∧
      (∀ ch ∈ registered evs, ch ∈ (startGameLoop env tickDone s evs).closedChs) ∧
      (startGameLoop env tickDone s evs).status = LoopStatus.shutDown ∧
      (startGameLoop env tickDone s evs).draining = true := by
  induction evs with
  | nil => intro s hst hd; simp [startGameLoop, registered, hst, hd]
  | cons ev evs ih =>
    intro s hst hd
    simp only [startGameLoop, List.foldl_cons]
    cases ev with
    | ctxDone =>
      have hstep : startGameLoopStep env tickDone s LoopEvent.ctxDone = s := by
        simp [startGameLoopStep, hst]
      rw [hstep]
      simpa [registered, startGameLoop] using ih s hst hd
    | tickStart ok now =>
      have hstep : startGameLoopStep env tickDone s (LoopEvent.tickStart ok now) = s := by
        simp [startGameLoopStep, hst]
      rw [hstep]
      simpa [registered, startGameLoop] using ih s hst hd
    | addChannel ch =>
      have hstep : startGameLoopStep env tickDone s (LoopEvent.addChannel ch) =
          { s with closedChs := s.closedChs ++ [ch] } := by
        simp [startGameLoopStep, hst, hd]
      rw [hstep]
      obtain ⟨h1, h2, h3, h4, h5⟩ := ih { s with closedChs := s.closedChs ++ [ch] } hst hd
      simp only [startGameLoop] at h1 h2 h3 h4 h5
      refine ⟨h1, fun c hc => h2 c (by simp [hc]), fun c hc => ?_, h4, h5⟩
      simp only [registered, List.mem_cons] at hc
      rcases hc with rfl | hc
      · exact h2 c (by simp)
      · exact h3 c hc

theorem mem_registered_mid (ch : Chan) (before later : List LoopEvent) :
    ch ∈ registered (before ++ LoopEvent.addChannel ch :: later) := by
  induction before with
  | nil => simp [registered]
  | cons e es ih => cases e <;> simp [registered, ih]

theorem WaitForNextTick_eq (env : Env) (tickDone : Bool) (s : GameLoop) (ch : Chan)
    (before later : List LoopEvent) :
    WaitForNextTick env tickDone s ch before later =
      if ch ∈ (startGameLoop env tickDone s
          (before ++ LoopEvent.addChannel ch :: later)).closedChs then
        some (decide ((startGameLoop env tickDone s
          (before ++ LoopEvent.addChannel ch :: later)).world.CurrentTick >
            s.world.CurrentTick))
      else none := by
  simp only [WaitForNextTick, startGameLoop, List.foldl_append, List.foldl_cons]

/-- C8: `WaitForNextTick` returns true exactly when the tick counter read after
its channel was closed is greater than the one read at entry. When the loop
completed no tick in between, it returns false: so it does when its channel is
closed by the cancellation of a running loop, and when the call is made after
the loop was left through cancellation (the call then returns, closed by the
draining goroutine). In stage `ShutDown`, where `doTick` is refused, every call
that returns, returns false. -/
theorem WaitForNextTick_true_iff_tick_advanced (env : Env) (tickDone : Bool) (s : GameLoop)
    (ch : Chan) (before later : List LoopEvent) :
    (∀ b, WaitForNextTick env tickDone s ch before later = some b →
      (b = true ↔
        (startGameLoop env tickDone s
          (before ++ LoopEvent.addChannel ch :: later)).world.CurrentTick >
          s.world.CurrentTick)) ∧
    (successfulTicks env tickDone s (before ++ LoopEvent.addChannel ch :: later) = 0 →
      ∀ b, WaitForNextTick env tickDone s ch before later = some b → b = false) ∧
    (s.world.stage = Stage.ShutDown →
      ∀ b, WaitForNextTick env tickDone s ch before later = some b → b = false) ∧
    (s.status = LoopStatus.shutDown → s.draining = true →
      WaitForNextTick env tickDone s ch before later = some false) ∧
    (s.status = LoopStatus.running →
      WaitForNextTick env tickDone s ch [] (LoopEvent.ctxDone :: later) = some false) := by
  have hzero : successfulTicks env tickDone s (before ++ LoopEvent.addChannel ch :: later) = 0 →
      ∀ b, WaitForNextTick env tickDone s ch before later = some b → b = false := by
    intro h0 b hb
    rw [WaitForNextTick_eq] at hb
    split at hb
    · simp only [Option.some.injEq] at hb
      rw [← hb]
      simp [World.CurrentTick, startGameLoop_tick_of_no_success env tickDone _ s h0]
    · simp at hb
  refine ⟨fun b hb => ?_, hzero, fun hsd => ?_, fun hst hd => ?_, fun hst => ?_⟩
  · rw [WaitForNextTick_eq] at hb
    split at hb
    · simp only [Option.some.injEq] at hb
      rw [← hb]
      simp
    · simp at hb
  · exact hzero (successfulTicks_of_shutDown_stage env tickDone _ s hsd)
  · obtain ⟨hw, _, hreg, _, _⟩ := startGameLoop_of_shutDown env tickDone
      (before ++ LoopEvent.addChannel ch :: later) s hst hd
    have hmem := mem_registered_mid ch before later
    rw [WaitForNextTick_eq, if_pos (hreg ch hmem), hw]
    simp
  · have hstep : startGameLoop env tickDone s
        ([] ++ LoopEvent.addChannel ch :: LoopEvent.ctxDone :: later) =
        startGameLoop env tickDone
          { s with world := if tickDone then s.world.log Effect.tickDoneClose else s.world,
                   waitingChs := s.waitingChs ++ [ch],
                   closedChs := s.closedChs ++ (s.waitingChs ++ [ch]),
                   draining := true, status := LoopStatus.shutDown } later := by
      simp [startGameLoop, startGameLoopStep, hst, drainChannelsWaitingForNextTick,
        closeAllChannels_eq]
    obtain ⟨hw, hcl, _, _, _⟩ := startGameLoop_of_shutDown env tickDone later
      { s with world := if tickDone then s.world.log Effect.tickDoneClose else s.world,
               waitingChs := s.waitingChs ++ [ch],
               closedChs := s.closedChs ++ (s.waitingChs ++ [ch]),
               draining := true, status := LoopStatus.shutDown } rfl rfl
    rw [WaitForNextTick_eq, hstep, if_pos (hcl ch (by simp)), hw]
    cases tickDone <;> simp [World.CurrentTick, World.log]

/-- C8, evaluated: after the loop was left and the stage became `ShutDown`, a
call of `WaitForNextTick` returns false; and a call on the running loop at tick
7 whose channel is closed by the next tick returns true, the tick read then
being greater than 7. -/
theorem WaitForNextTick_true_iff_tick_advanced_witness :
    WaitForNextTick envOk true loopShutDown 9 [] [] = some false ∧
    WaitForNextTick envOk true (GameLoop.start worldRunning) 9 []
      [LoopEvent.tickStart true 5] = some true ∧
    (startGameLoop envOk true (GameLoop.start worldRunning)
      [LoopEvent.addChannel 9, LoopEvent.tickStart true 5]).world.CurrentTick > 7 :=
  ⟨(WaitForNextTick_true_iff_tick_advanced envOk true loopShutDown 9 [] []).2.2.2.1 rfl rfl,
   by decide,
   ((WaitForNextTick_true_iff_tick_advanced envOk true (GameLoop.start worldRunning)
      9 [] [LoopEvent.tickStart true 5]).1 true (by decide)).mp rfl⟩

/-! ## `StartGame` outside stage `Init` -/

theorem cleanup_trace (env : Env) (w : World) :
    (cleanup env w).trace = w.trace ++ ([Effect.redisClose] ++
      (if w.telemetry = true then [Effect.telemetryShutdown] else []) ++
      [Effect.storeStage Stage.ShutDown]) := by
  unfold cleanup
  by_cases ht : w.telemetry = true <;> simp [World.log, World.storeStage, ht]

/-- C9: startup begins only through `CompareAndSwap(Init, Starting)`. When the
stage is not `Init`, `StartGame` returns the error "game has already been
started"; what it leaves is the deferred `cleanup` of the world with `cancel`
assigned; and it makes none of the startup steps: no components are
registered, no router is started, the last finalized tick is not read, the
tick is not stored and the game loop is not started. -/
theorem StartGame_only_from_Init (env : Env) (w : World) (evs : List LoopEvent)
    (h : w.stage ≠ Stage.Init) :
    (StartGame env w evs).2 = StartResult.err "game has already been started" ∧
    (StartGame env w evs).1 = cleanup env { w with cancel := true } ∧
    (StartGame env w evs).1.since w = [Effect.redisClose] ++
      (if w.telemetry = true then [Effect.telemetryShutdown] else []) ++
      [Effect.storeStage Stage.ShutDown] ∧
    (StartGame env w evs).1.CurrentTick = w.tick ∧
    ∀ x ∈ (StartGame env w evs).1.since w, x.isStartupStep = false := by
  have hbody : startGameBody env { w with cancel := true } evs =
      ({ w with cancel := true }, StartResult.err "game has already been started") := by
    unfold startGameBody
    rw [if_pos h]
  have hsg : StartGame env w evs = (cleanup env { w with cancel := true },
      StartResult.err "game has already been started") := by
    simp only [StartGame, hbody]
  have htr := cleanup_trace env { w with cancel := true }
  have hsince := since_of_trace_eq (w := w) htr
  rw [hsg]
  refine ⟨rfl, rfl, hsince, ?_, ?_⟩
  · unfold cleanup
    simp only [World.CurrentTick, World.storeStage, World.log]
    split <;> rfl
  · rw [hsince]
    intro x hx
    split at hx <;>
      simp only [List.cons_append, List.nil_append, List.append_nil, List.mem_cons,
        List.mem_singleton, List.not_mem_nil, or_false] at hx
    · rcases hx with rfl | rfl | rfl <;> rfl
    · rcases hx with rfl | rfl <;> rfl

/-- C9, evaluated: a second `StartGame` on the running world returns "game has
already been started". -/
theorem StartGame_only_from_Init_witness :
    (StartGame envOk worldRunning []).2 = StartResult.err "game has already been started" :=
  (StartGame_only_from_Init envOk worldRunning [] (by decide)).1

/-! ## `Shutdown` on re-entry -/

theorem Shutdown_of_stopping (w : World) (others : World → World)
    (h : w.stage = Stage.ShuttingDown ∨ w.stage = Stage.ShutDown) :
    Shutdown w others = (w, ShutdownResult.ignored) := by
  unfold Shutdown
  rw [if_pos (Or.symm h)]

theorem Shutdown_completed_stage (w : World) (others : World → World)
    (h : (Shutdown w others).2 = ShutdownResult.completed) :
    (Shutdown w others).1.stage = Stage.ShutDown := by
  unfold Shutdown at h ⊢
  split at h
  · simp at h
  · simp only at h ⊢
    split at h
    · simp at h
    · split at h
      · rename_i h1 h2 h3
        rw [if_neg h1, if_neg h2, if_pos h3]
        exact h3
      · simp at h

/-- C10: `Shutdown` is a no-op on re-entry. In stage `ShuttingDown` or
`ShutDown` it returns at once and the world after the call is the world before
it: no stage is stored, `cancel` is not called, no notification is awaited.
So a second call made after a first call that came back (completed or ignored)
changes nothing, and the stage after two calls is the stage after one. -/
theorem Shutdown_idempotent_on_reentry (w : World) (others again : World → World) :
    ((w.stage = Stage.ShuttingDown ∨ w.stage = Stage.ShutDown) →
      Shutdown w others = (w, ShutdownResult.ignored) ∧
      (Shutdown w others).1.since w = []) ∧
    ((Shutdown w others).2 = ShutdownResult.completed ∨
        (Shutdown w others).2 = ShutdownResult.ignored →
      Shutdown (Shutdown w others).1 again =
        ((Shutdown w others).1, ShutdownResult.ignored) ∧
      (Shutdown (Shutdown w others).1 again).1.stage = (Shutdown w others).1.stage) := by
  refine ⟨fun h => ?_, fun h => ?_⟩
  · rw [Shutdown_of_stopping w others h]
    exact ⟨rfl, since_self w⟩
  · have hst : (Shutdown w others).1.stage = Stage.ShuttingDown ∨
        (Shutdown w others).1.stage = Stage.ShutDown := by
      rcases h with h | h
      · exact Or.inr (Shutdown_completed_stage w others h)
      · by_cases hw : w.stage = Stage.ShuttingDown ∨ w.stage = Stage.ShutDown
        · rw [Shutdown_of_stopping w others hw]
          exact hw
        · exfalso
          unfold Shutdown at h
          rw [if_neg (fun hc => hw (Or.symm hc))] at h
          simp only at h
          split at h
          · simp at h
          · split at h <;> simp at h
    have h2 := Shutdown_of_stopping (Shutdown w others).1 again hst
    rw [h2]
    exact ⟨rfl, rfl⟩

/-- C10, evaluated: a first `Shutdown` of the running world, during whose wait
`cleanup` runs, completes in stage `ShutDown`; a second one is ignored and the
stage stays `ShutDown`. -/
theorem Shutdown_idempotent_on_reentry_witness :
    (Shutdown worldRunning (cleanup envOk)).2 = ShutdownResult.completed ∧
    (Shutdown (Shutdown worldRunning (cleanup envOk)).1 (cleanup envOk)).2 =
      ShutdownResult.ignored ∧
    (Shutdown (Shutdown worldRunning (cleanup envOk)).1 (cleanup envOk)).1.stage =
      Stage.ShutDown :=
  ⟨by decide,
   congrArg Prod.snd ((Shutdown_idempotent_on_reentry worldRunning (cleanup envOk)
      (cleanup envOk)).2 (Or.inl (by decide))).1,
   ((Shutdown_idempotent_on_reentry worldRunning (cleanup envOk)
      (cleanup envOk)).2 (Or.inl (by decide))).2⟩

end Cardinal

namespace EvmRouter

/-! ## The message queue -/

theorem MsgQueue.isSet_iff (q : MsgQueue) (a : Address) :
    q.IsSet a = true ↔ ∃ p ∈ q, p.1 = a := by
  unfold MsgQueue.IsSet MsgQueue.Message
  rw [Option.isSome_map', List.find?_isSome]
  simp

theorem MsgQueue.isSet_remove (q : MsgQueue) (a0 a : Address) :
    (q.Remove a0).IsSet a = true ↔ (a ≠ a0 ∧ q.IsSet a = true) := by
  rw [MsgQueue.isSet_iff, MsgQueue.isSet_iff]
  unfold MsgQueue.Remove
  constructor
  · rintro ⟨p, hp, rfl⟩
    rw [List.mem_filter] at hp
    exact ⟨by simpa using hp.2, p, hp.1, rfl⟩
  · rintro ⟨hne, p, hp, rfl⟩
    exact ⟨p, List.mem_filter.mpr ⟨hp, by simpa using hne⟩, rfl⟩

theorem MsgQueue.isSet_setMsg (q : MsgQueue) (a0 a : Address) (m : SendMessageRequest) :
    (q.setMsg a0 m).IsSet a = true ↔ q.IsSet a = true := by
  rw [MsgQueue.isSet_iff, MsgQueue.isSet_iff]
  unfold MsgQueue.setMsg
  constructor
  · rintro ⟨p, hp, rfl⟩
    rw [List.mem_map] at hp
    obtain ⟨p0, hp0, rfl⟩ := hp
    refine ⟨p0, hp0, ?_⟩
    split <;> rfl
  · rintro ⟨p, hp, rfl⟩
    refine ⟨_, List.mem_map.mpr ⟨p, hp, rfl⟩, ?_⟩
    split <;> rfl

theorem dispatchMessage_isSet (env : RouterEnv) (r : Router) (sender : Address) (h : Hash)
    (a : Address) :
    (dispatchMessage env r sender h).queue.IsSet a = true ↔ r.queue.IsSet a = true := by
  unfold dispatchMessage
  simp only
  split
  · rfl
  · split <;> simp only [MsgQueue.isSet_setMsg]

theorem dispatchMessage_dispatched (env : RouterEnv) (r : Router) (sender : Address)
    (h : Hash) :
    (dispatchMessage env r sender h).dispatched = r.dispatched ++ [(sender, h)] := by
  unfold dispatchMessage
  simp only
  split
  · rfl
  · split <;> rfl

/-! ## The loop of `PostBlockHook` -/

theorem earlier_iff (pre rest : List EvmTx) (a : Address) :
    (∀ j < pre.length, ((pre ++ rest).get? j).bind EvmTx.To ≠ some a) ↔
      ∀ t ∈ pre, t.To ≠ some a := by
  constructor
  · intro h t ht
    obtain ⟨j, hj, rfl⟩ := List.getElem_of_mem ht
    have := h j hj
    rw [List.get?_eq_getElem?, List.getElem?_append_left hj, List.getElem?_eq_getElem hj] at this
    simpa using this
  · intro h j hj
    rw [List.get?_eq_getElem?, List.getElem?_append_left hj, List.getElem?_eq_getElem hj]
    simpa using h _ (List.getElem_mem hj)

theorem specDispatchAt_here (q0 : MsgQueue) (pre rest : List EvmTx) (tx : EvmTx)
    (receipts : List EvmReceipt) (receipt : EvmReceipt)
    (hr : receipts.get? pre.length = some receipt) :
    specDispatchAt q0 (pre ++ tx :: rest) receipts pre.length =
      match tx.To with
      | some a =>
        if q0.IsSet a = true ∧ (∀ t ∈ pre, t.To ≠ some a) ∧
            receipt.status = ReceiptStatusSuccessful then some (a, receipt.txHash) else none
      | none => none := by
  have ht : (pre ++ tx :: rest).get? pre.length = some tx := by
    rw [List.get?_eq_getElem?, List.getElem?_append_right (le_refl _)]
    simp
  unfold specDispatchAt
  rw [ht, hr]
  simp only
  cases hto : tx.To with
  | none => rfl
  | some a =>
    simp only
    have he := earlier_iff pre (tx :: rest) a
    by_cases hc : q0.IsSet a = true ∧ (∀ t ∈ pre, t.To ≠ some a) ∧
        receipt.status = ReceiptStatusSuccessful
    · rw [if_pos hc, if_pos ⟨hc.1, he.mpr hc.2.1, hc.2.2⟩]
    · rw [if_neg hc, if_neg (fun h => hc ⟨h.1, he.mp h.2.1, h.2.2⟩)]

theorem isSet_after_remove_iff (q q0 : MsgQueue) (pre : List EvmTx) (tx : EvmTx)
    (a0 : Address) (hto : tx.To = some a0)
    (hinv : ∀ a, q.IsSet a = true ↔ (q0.IsSet a = true ∧ ∀ t ∈ pre, t.To ≠ some a))
    (a : Address) :
    (a ≠ a0 ∧ q.IsSet a = true) ↔
      (q0.IsSet a = true ∧ ∀ t ∈ pre ++ [tx], t.To ≠ some a) := by
  rw [hinv a]
  simp only [List.mem_append, List.mem_singleton, ne_eq]
  constructor
  · rintro ⟨hne, hq, hp⟩
    refine ⟨hq, fun t ht => ?_⟩
    rcases ht with ht | rfl
    · exact hp t ht
    · rw [hto]
      intro hc
      exact hne (Option.some.inj hc).symm
  · rintro ⟨hq, hp⟩
    refine ⟨?_, hq, fun t ht => hp t (Or.inl ht)⟩
    intro hc
    exact hp tx (Or.inr rfl) (by rw [hto, hc])

theorem MsgQueue.message_remove_ne (q : MsgQueue) (a0 a : Address) (h : a ≠ a0) :
    (q.Remove a0).Message a = q.Message a := by
  unfold MsgQueue.Remove MsgQueue.Message
  congr 1
  induction q with
  | nil => rfl
  | cons p q ih =>
    by_cases hp : p.1 = a0
    · have hpa : ¬ p.1 = a := fun hc => h (hc.symm.trans hp)
      rw [List.filter_cons_of_neg (by simpa using hp),
        List.find?_cons_of_neg _ (by simpa using hpa), ih]
    · rw [List.filter_cons_of_pos (by simpa using hp)]
      by_cases hpa : p.1 = a
      · rw [List.find?_cons_of_pos _ (by simpa using hpa),
          List.find?_cons_of_pos _ (by simpa using hpa)]
      · rw [List.find?_cons_of_neg _ (by simpa using hpa),
          List.find?_cons_of_neg _ (by simpa using hpa), ih]

theorem MsgQueue.message_setMsg_ne (q : MsgQueue) (a0 a : Address) (m : SendMessageRequest)
    (h : a ≠ a0) : (q.setMsg a0 m).Message a = q.Message a := by
  unfold MsgQueue.setMsg MsgQueue.Message
  congr 1
  induction q with
  | nil => rfl
  | cons p q ih =>
    rw [List.map_cons]
    by_cases hp : p.1 = a0
    · have hpa : ¬ p.1 = a := fun hc => h (hc.symm.trans hp)
      rw [if_pos hp, List.find?_cons_of_neg _ (by simpa using hpa),
        List.find?_cons_of_neg _ (by simpa using hpa), ih]
    · rw [if_neg hp]
      by_cases hpa : p.1 = a
      · rw [List.find?_cons_of_pos _ (by simpa using hpa),
          List.find?_cons_of_pos _ (by simpa using hpa)]
      · rw [List.find?_cons_of_neg _ (by simpa using hpa),
          List.find?_cons_of_neg _ (by simpa using hpa), ih]

theorem dispatchMessage_message_ne (env : RouterEnv) (r : Router) (sender : Address) (h : Hash)
    (a : Address) (hne : a ≠ sender) :
    (dispatchMessage env r sender h).queue.Message a = r.queue.Message a := by
  unfold dispatchMessage
  simp only
  split
  · rfl
  · split <;> simp only [MsgQueue.message_setMsg_ne _ _ _ _ hne]

theorem dispatchMessage_clock (env : RouterEnv) (r : Router) (sender : Address) (h : Hash) :
    (dispatchMessage env r sender h).clock = r.clock := by
  unfold dispatchMessage
  simp only
  split
  · rfl
  · split <;> rfl

theorem dispatchMessage_spawned (env : RouterEnv) (r : Router) (sender : Address) (h : Hash)
    (q0 : MsgQueue) (m : NamespacedMessage) (hm : r.queue.Message sender = some m)
    (h0 : q0.Message sender = some m) :
    (dispatchMessage env r sender h).spawned = r.spawned ++ specSent env q0 [(sender, h)] := by
  unfold dispatchMessage specSent
  simp only [hm, h0, List.filterMap_cons, List.filterMap_nil]
  cases hc : getConnectionForNamespace env m.ns with
  | error e => simp
  | ok client => simp [specRequest]

theorem dispatchMessage_resultStore (env : RouterEnv) (r : Router) (sender : Address) (h : Hash)
    (q0 : MsgQueue) (m : NamespacedMessage) (hm : r.queue.Message sender = some m)
    (h0 : q0.Message sender = some m) :
    (dispatchMessage env r sender h).resultStore =
      (specRecorded env q0 [(sender, h)]).foldl (fun st res => st.SetResult r.clock res)
        r.resultStore := by
  unfold dispatchMessage specRecorded
  simp only [hm, h0, List.filterMap_cons, List.filterMap_nil]
  cases hc : getConnectionForNamespace env m.ns with
  | error e => simp [specConnectionFailure]
  | ok client => simp

theorem specSent_cons (env : RouterEnv) (q0 : MsgQueue) (d : Address × Hash)
    (ds : List (Address × Hash)) :
    specSent env q0 (d :: ds) = specSent env q0 [d] ++ specSent env q0 ds := by
  unfold specSent
  rw [← List.filterMap_append]
  rfl

theorem specRecorded_cons (env : RouterEnv) (q0 : MsgQueue) (d : Address × Hash)
    (ds : List (Address × Hash)) :
    specRecorded env q0 (d :: ds) = specRecorded env q0 [d] ++ specRecorded env q0 ds := by
  unfold specRecorded
  rw [← List.filterMap_append]
  rfl

theorem postBlockLoop_spec (env : RouterEnv) (receipts : List EvmReceipt) (q0 : MsgQueue)
    (txs : List EvmTx) :
    ∀ (pre : List EvmTx) (r : Router),
      (pre ++ txs).length ≤ receipts.length →
      (∀ a, r.queue.IsSet a = true ↔ (q0.IsSet a = true ∧ ∀ t ∈ pre, t.To ≠ some a)) →
      (∀ a, r.queue.IsSet a = true → r.queue.Message a = q0.Message a) →
      ∃ r1, postBlockLoop env receipts pre.length txs r = some r1 ∧
        r1.dispatched = r.dispatched ++
          (List.range' pre.length txs.length).filterMap
            (specDispatchAt q0 (pre ++ txs) receipts) ∧
        r1.spawned = r.spawned ++ specSent env q0
          ((List.range' pre.length txs.length).filterMap
            (specDispatchAt q0 (pre ++ txs) receipts)) ∧
        r1.resultStore = (specRecorded env q0
          ((List.range' pre.length txs.length).filterMap
            (specDispatchAt q0 (pre ++ txs) receipts))).foldl
              (fun st res => st.SetResult r.clock res) r.resultStore ∧
        r1.clock = r.clock := by
  induction txs with
  | nil =>
    intro pre r _ _ _
    exact ⟨r, rfl, by simp, by simp [specSent], by simp [specRecorded], rfl⟩
  | cons tx txs ih =>
    intro pre r hlen hinv hmsg
    have hi : pre.length < receipts.length := by
      simp only [List.length_append, List.length_cons] at hlen
      omega
    have hrc : receipts.get? pre.length = some receipts[pre.length] := by
      rw [List.get?_eq_getElem?, List.getElem?_eq_getElem hi]
    have hall : pre ++ tx :: txs = (pre ++ [tx]) ++ txs := by simp
    have hlen1 : ((pre ++ [tx]) ++ txs).length ≤ receipts.length := by
      rw [← hall]; exact hlen
    have hpl : (pre ++ [tx]).length = pre.length + 1 := by simp
    have hhere := specDispatchAt_here q0 pre txs tx receipts _ hrc
    rw [List.length_cons, List.range'_succ, List.filterMap_cons, hhere]
    unfold postBlockLoop
    cases hto : tx.To with
    | none =>
      simp only
      have hinv1 : ∀ a, r.queue.IsSet a = true ↔
          (q0.IsSet a = true ∧ ∀ t ∈ pre ++ [tx], t.To ≠ some a) := by
        intro a
        rw [hinv a]
        simp only [List.mem_append, List.mem_singleton, ne_eq]
        constructor
        · rintro ⟨hq, hp⟩
          refine ⟨hq, fun t ht => ?_⟩
          rcases ht with ht | rfl
          · exact hp t ht
          · rw [hto]
            simp
        · rintro ⟨hq, hp⟩
          exact ⟨hq, fun t ht => hp t (Or.inl ht)⟩
      obtain ⟨r1, h1, h2, h3, h4, h5⟩ := ih (pre ++ [tx]) r hlen1 hinv1 hmsg
      rw [hpl] at h1 h2 h3 h4
      rw [← hall] at h2 h3 h4
      exact ⟨r1, h1, h2, h3, h4, h5⟩
    | some a0 =>
      simp only
      by_cases hset : r.queue.IsSet a0 = true
      · rw [if_pos hset, hrc]
        simp only
        have hq0 := (hinv a0).mp hset
        have hmsg0 := hmsg a0 hset
        by_cases hok : receipts[pre.length].status = ReceiptStatusSuccessful
        · rw [if_pos hok, if_pos ⟨hq0.1, hq0.2, hok⟩]
          have hinv1 : ∀ a, ({ dispatchMessage env r a0 receipts[pre.length].txHash with
              queue := (dispatchMessage env r a0
                receipts[pre.length].txHash).queue.Remove a0 } : Router).queue.IsSet a = true ↔
              (q0.IsSet a = true ∧ ∀ t ∈ pre ++ [tx], t.To ≠ some a) := by
            intro a
            simp only [MsgQueue.isSet_remove, dispatchMessage_isSet]
            exact isSet_after_remove_iff r.queue q0 pre tx a0 hto hinv a
          have hmsg1 : ∀ a, ({ dispatchMessage env r a0 receipts[pre.length].txHash with
              queue := (dispatchMessage env r a0
                receipts[pre.length].txHash).queue.Remove a0 } : Router).queue.IsSet a = true →
              ({ dispatchMessage env r a0 receipts[pre.length].txHash with
                queue := (dispatchMessage env r a0
                  receipts[pre.length].txHash).queue.Remove a0 } : Router).queue.Message a =
                q0.Message a := by
            intro a ha
            simp only [MsgQueue.isSet_remove, dispatchMessage_isSet] at ha
            simp only
            rw [MsgQueue.message_remove_ne _ _ _ ha.1,
              dispatchMessage_message_ne _ _ _ _ _ ha.1]
            exact hmsg a ha.2
          obtain ⟨m, hm⟩ : ∃ m, r.queue.Message a0 = some m := by
            have := hset
            unfold MsgQueue.IsSet at this
            exact Option.isSome_iff_exists.mp this
          have hm0 : q0.Message a0 = some m := by rw [← hmsg0, hm]
          obtain ⟨r1, h1, h2, h3, h4, h5⟩ := ih (pre ++ [tx]) _ hlen1 hinv1 hmsg1
          rw [hpl] at h1 h2 h3 h4
          rw [← hall] at h2 h3 h4
          simp only [dispatchMessage_clock] at h4 h5
          refine ⟨r1, h1, ?_, ?_, ?_, h5⟩
          · rw [h2]
            simp only [dispatchMessage_dispatched, List.append_assoc, List.singleton_append]
          · rw [h3, specSent_cons]
            simp only [dispatchMessage_spawned env r a0 _ q0 m hm hm0, List.append_assoc]
          · rw [h4, specRecorded_cons, List.foldl_append]
            simp only [dispatchMessage_resultStore env r a0 _ q0 m hm hm0]
        · rw [if_neg hok, if_neg (fun hc => hok hc.2.2)]
          have hinv1 : ∀ a, ({ r with queue := r.queue.Remove a0 } : Router).queue.IsSet a = true ↔
              (q0.IsSet a = true ∧ ∀ t ∈ pre ++ [tx], t.To ≠ some a) := by
            intro a
            simp only [MsgQueue.isSet_remove]
            exact isSet_after_remove_iff r.queue q0 pre tx a0 hto hinv a
          have hmsg1 : ∀ a, ({ r with queue := r.queue.Remove a0 } : Router).queue.IsSet a = true →
              ({ r with queue := r.queue.Remove a0 } : Router).queue.Message a =
                q0.Message a := by
            intro a ha
            simp only [MsgQueue.isSet_remove] at ha
            simp only
            rw [MsgQueue.message_remove_ne _ _ _ ha.1]
            exact hmsg a ha.2
          obtain ⟨r1, h1, h2, h3, h4, h5⟩ := ih (pre ++ [tx]) _ hlen1 hinv1 hmsg1
          rw [hpl] at h1 h2 h3 h4
          rw [← hall] at h2 h3 h4
          exact ⟨r1, h1, h2, h3, h4, h5⟩
      · rw [if_neg hset]
        have hno : ¬ (q0.IsSet a0 = true ∧ (∀ t ∈ pre, t.To ≠ some a0) ∧
            receipts[pre.length].status = ReceiptStatusSuccessful) :=
          fun hc => hset ((hinv a0).mpr ⟨hc.1, hc.2.1⟩)
        rw [if_neg hno]
        have hinv1 : ∀ a, r.queue.IsSet a = true ↔
            (q0.IsSet a = true ∧ ∀ t ∈ pre ++ [tx], t.To ≠ some a) := by
          intro a
          rw [hinv a]
          simp only [List.mem_append, List.mem_singleton, ne_eq]
          constructor
          · rintro ⟨hq, hp⟩
            refine ⟨hq, fun t ht => ?_⟩
            rcases ht with ht | rfl
            · exact hp t ht
            · rw [hto]
              intro hc
              have hc1 : a0 = a := Option.some.inj hc
              exact hset (by rw [hc1]; exact (hinv a).mpr ⟨hq, hp⟩)
          · rintro ⟨hq, hp⟩
            exact ⟨hq, fun t ht => hp t (Or.inl ht)⟩
        obtain ⟨r1, h1, h2, h3, h4, h5⟩ := ih (pre ++ [tx]) r hlen1 hinv1 hmsg
        rw [hpl] at h1 h2 h3 h4
        rw [← hall] at h2 h3 h4
        exact ⟨r1, h1, h2, h3, h4, h5⟩

theorem postBlockLoop_from_start (env : RouterEnv) (r : Router) (txs : List EvmTx)
    (receipts : List EvmReceipt) (h : txs.length ≤ receipts.length) :
    ∃ r1, postBlockLoop env receipts 0 txs r = some r1 ∧
      r1.dispatched = r.dispatched ++ specDispatches r.queue txs receipts ∧
      r1.spawned = r.spawned ++ specSent env r.queue (specDispatches r.queue txs receipts) ∧
      r1.resultStore = (specRecorded env r.queue (specDispatches r.queue txs receipts)).foldl
        (fun st res => st.SetResult r.clock res) r.resultStore ∧
      r1.clock = r.clock := by
  have := postBlockLoop_spec env receipts r.queue txs [] r (by simpa using h)
    (fun a => by simp) (fun a _ => rfl)
  simpa [specDispatches, List.range_eq_range'] using this

theorem specDispatchAt_some {q0 : MsgQueue} {txs : List EvmTx} {receipts : List EvmReceipt}
    {i : Nat} {a : Address} {hsh : Hash} (h : specDispatchAt q0 txs receipts i = some (a, hsh)) :
    (txs.get? i).bind EvmTx.To = some a ∧
    (∀ j < i, (txs.get? j).bind EvmTx.To ≠ some a) ∧
    q0.IsSet a = true ∧
    ∃ receipt, receipts.get? i = some receipt ∧
      receipt.status = ReceiptStatusSuccessful ∧ receipt.txHash = hsh := by
  unfold specDispatchAt at h
  split at h
  · rename_i tx receipt htx hrc
    split at h
    · rename_i a1 hto
      split at h
      · rename_i hc
        simp only [Option.some.injEq, Prod.mk.injEq] at h
        obtain ⟨rfl, rfl⟩ := h
        exact ⟨by rw [htx]; simpa using hto, hc.2.1, hc.1, receipt, hrc, hc.2.2, rfl⟩
      · simp at h
    · simp at h
  · simp at h

theorem specDispatchAt_index_unique {q0 : MsgQueue} {txs : List EvmTx}
    {receipts : List EvmReceipt} {i j : Nat} {a : Address} {h1 h2 : Hash}
    (hi : specDispatchAt q0 txs receipts i = some (a, h1))
    (hj : specDispatchAt q0 txs receipts j = some (a, h2)) : i = j := by
  obtain ⟨hia, hib, _, _⟩ := specDispatchAt_some hi
  obtain ⟨hja, hjb, _, _⟩ := specDispatchAt_some hj
  rcases Nat.lt_trichotomy i j with hlt | heq | hgt
  · exact absurd hia (hjb i hlt)
  · exact heq
  · exact absurd hja (hib j hgt)

/-- C11: with a receipt for each transaction, `PostBlockHook` returns and the
queue is empty afterwards, whatever the queue held and whichever transactions
matched, succeeded or were dispatched. -/
theorem PostBlockHook_leaves_queue_empty (env : RouterEnv) (r : Router) (txs : List EvmTx)
    (receipts : List EvmReceipt) (h : txs.length ≤ receipts.length) :
    (∃ r1, PostBlockHook env r txs receipts = some r1) ∧
    ∀ r1, PostBlockHook env r txs receipts = some r1 → r1.queue = [] := by
  obtain ⟨r0, h0, _⟩ := postBlockLoop_from_start env r txs receipts h
  unfold PostBlockHook
  rw [h0]
  refine ⟨⟨_, rfl⟩, fun r1 h1 => ?_⟩
  simp only [Option.map_some', Option.some.injEq] at h1
  rw [← h1]
  rfl

/-- C11, evaluated: a block with a successful transaction to address 10 and
none to address 20 leaves the queue of two messages empty. -/
theorem PostBlockHook_leaves_queue_empty_witness :
    (PostBlockHook renvOk routerTwo [{ hash := 1, To := some 10 }]
      [{ status := 1, txHash := 1 }]).map Router.queue = some [] :=
  match (PostBlockHook_leaves_queue_empty renvOk routerTwo [{ hash := 1, To := some 10 }]
      [{ status := 1, txHash := 1 }] (by decide)).1 with
  | ⟨r1, h1⟩ => by
    rw [h1]
    exact congrArg some
      ((PostBlockHook_leaves_queue_empty renvOk routerTwo [{ hash := 1, To := some 10 }]
        [{ status := 1, txHash := 1 }] (by decide)).2 r1 h1)

theorem foldl_setResult_results (t : Nat) (l : List SendMessageResponse) :
    ∀ st : ResultStorage,
      (l.foldl (fun st res => st.SetResult t res) st).results =
        (l.map (fun res => ({ res := res, storedAt := t } : StoredResult))).reverse ++
          st.results := by
  induction l with
  | nil => intro st; rfl
  | cons x l ih =>
    intro st
    rw [List.foldl_cons, ih]
    simp [ResultStorage.SetResult]

theorem mem_specDispatches {q0 : MsgQueue} {txs : List EvmTx} {receipts : List EvmReceipt}
    {i : Nat} {d : Address × Hash} (h : specDispatchAt q0 txs receipts i = some d) :
    d ∈ specDispatches q0 txs receipts := by
  unfold specDispatches
  rw [List.mem_filterMap]
  refine ⟨i, ?_, h⟩
  rw [List.mem_range]
  by_contra hc
  have hn : txs.get? i = none := by
    rw [List.get?_eq_getElem?]
    exact List.getElem?_eq_none (by omega)
  unfold specDispatchAt at h
  rw [hn] at h
  simp at h

/-- C12: with a receipt for each transaction, `PostBlockHook` returns, and what
it dispatches is what the spec says. The calls of `dispatchMessage` are, in
order, those for the transactions `i` whose `To` is not nil, for whose address
the queue held a message at the start of the block, before which no transaction
of the block has the same `To`, and whose receipt is successful
(`specDispatchAt`, spelled out in the second part). Each such dispatch has its
effect with the hash of `receipts[i]`: the goroutines started by the hook are
exactly, in order, the sends of the message queued for the address at the start
of the block with `EvmTxHash = receipts[i].TxHash.String()` to the client of
its namespace, and the results stored by the hook are exactly the
`CodeConnectionError` results under that hash for the dispatches whose
namespace has no connection; nothing else is sent or stored. So no address is
dispatched twice in a block, a first transaction to an address with an
unsuccessful receipt leaves the address without dispatch, and a later
transaction to the same address dispatches nothing. -/
theorem PostBlockHook_dispatches_first_successful (env : RouterEnv) (r : Router)
    (txs : List EvmTx) (receipts : List EvmReceipt) (h : txs.length ≤ receipts.length) :
    (∃ r1, PostBlockHook env r txs receipts = some r1 ∧
      r1.dispatched = r.dispatched ++ specDispatches r.queue txs receipts ∧
      r1.spawned = r.spawned ++ specSent env r.queue (specDispatches r.queue txs receipts) ∧
      r1.resultStore = (specRecorded env r.queue (specDispatches r.queue txs receipts)).foldl
        (fun st res => st.SetResult r.clock res) r.resultStore ∧
      ∀ i a hsh, specDispatchAt r.queue txs receipts i = some (a, hsh) →
        ∃ m, r.queue.Message a = some m ∧
          ((∃ client, getConnectionForNamespace env m.ns = Except.ok client ∧
              (client, { m.msg with Sender := env.toLower m.msg.Sender,
                                    EvmTxHash := env.hashString hsh }) ∈ r1.spawned) ∨
            (∃ e, getConnectionForNamespace env m.ns = Except.error e ∧
              { res := { EvmTxHash := env.hashString hsh, Code := CodeConnectionError,
                         Errs := "error getting game shard gRPC connection: " ++ e,
                         Result := [] },
                storedAt := r.clock } ∈ r1.resultStore.results))) ∧
    (∀ i a hsh, specDispatchAt r.queue txs receipts i = some (a, hsh) ↔
      ((txs.get? i).bind EvmTx.To = some a ∧ r.queue.IsSet a = true ∧
        (∀ j < i, (txs.get? j).bind EvmTx.To ≠ some a) ∧
        ∃ receipt, receipts.get? i = some receipt ∧
          receipt.status = ReceiptStatusSuccessful ∧ receipt.txHash = hsh)) ∧
    ((specDispatches r.queue txs receipts).map Prod.fst).Nodup ∧
    (∀ i tx receipt a, txs.get? i = some tx → tx.To = some a →
      (∀ j < i, (txs.get? j).bind EvmTx.To ≠ some a) →
      receipts.get? i = some receipt → receipt.status ≠ ReceiptStatusSuccessful →
      ∀ hsh, (a, hsh) ∉ specDispatches r.queue txs receipts) ∧
    (∀ i j a, j < i → (txs.get? j).bind EvmTx.To = some a →
      (txs.get? i).bind EvmTx.To = some a →
      specDispatchAt r.queue txs receipts i = none) := by
  refine ⟨?_, ?_, ?_, ?_, ?_⟩
  · obtain ⟨r0, h0, hd, hsp, hrs, _⟩ := postBlockLoop_from_start env r txs receipts h
    refine ⟨{ r0 with queue := r0.queue.Clear }, ?_, hd, hsp, hrs, ?_⟩
    · unfold PostBlockHook
      rw [h0]
      rfl
    · intro i a hsh hi
      have hmem := mem_specDispatches hi
      obtain ⟨_, _, hset, _⟩ := specDispatchAt_some hi
      obtain ⟨m, hm⟩ : ∃ m, r.queue.Message a = some m := by
        unfold MsgQueue.IsSet at hset
        exact Option.isSome_iff_exists.mp hset
      refine ⟨m, hm, ?_⟩
      cases hc : getConnectionForNamespace env m.ns with
      | ok client =>
        refine Or.inl ⟨client, rfl, ?_⟩
        show _ ∈ r0.spawned
        rw [hsp]
        refine List.mem_append_right _ ?_
        unfold specSent
        rw [List.mem_filterMap]
        refine ⟨(a, hsh), hmem, ?_⟩
        simp only [hm, hc]
        rfl
      | error e =>
        refine Or.inr ⟨e, rfl, ?_⟩
        show _ ∈ r0.resultStore.results
        rw [hrs, foldl_setResult_results]
        refine List.mem_append_left _ ?_
        rw [List.mem_reverse, List.mem_map]
        refine ⟨specConnectionFailure env hsh e, ?_, rfl⟩
        unfold specRecorded
        rw [List.mem_filterMap]
        refine ⟨(a, hsh), hmem, ?_⟩
        simp only [hm, hc]
  · intro i a hsh
    constructor
    · intro hi
      obtain ⟨h1, h2, h3, h4⟩ := specDispatchAt_some hi
      exact ⟨h1, h3, h2, h4⟩
    · rintro ⟨h1, h3, h2, receipt, hrc, hok, hh⟩
      cases htx : txs.get? i with
      | none => rw [htx] at h1; simp at h1
      | some tx =>
        rw [htx] at h1
        have hto : tx.To = some a := by simpa using h1
        unfold specDispatchAt
        rw [htx, hrc]
        simp only [hto]
        rw [if_pos ⟨h3, h2, hok⟩, hh]
  · unfold specDispatches
    rw [List.map_filterMap]
    refine List.Nodup.filterMap ?_ (List.nodup_range _)
    intro i j a hi hj
    rw [Option.mem_def] at hi hj
    cases hsi : specDispatchAt r.queue txs receipts i with
    | none => simp [hsi] at hi
    | some p =>
      cases hsj : specDispatchAt r.queue txs receipts j with
      | none => simp [hsj] at hj
      | some q =>
        obtain ⟨a1, h1⟩ := p
        obtain ⟨a2, h2⟩ := q
        simp only [hsi, hsj, Option.map_some', Option.some.injEq] at hi hj
        subst hi
        subst hj
        exact specDispatchAt_index_unique hsi hsj
  · intro i tx receipt a htx hto hfirst hrc hbad hsh hmem
    unfold specDispatches at hmem
    rw [List.mem_filterMap] at hmem
    obtain ⟨k, _, hk⟩ := hmem
    obtain ⟨hka, hkb, _, rc, hrck, hok, _⟩ := specDispatchAt_some hk
    have hia : (txs.get? i).bind EvmTx.To = some a := by rw [htx]; simpa using hto
    have hik : i = k := by
      rcases Nat.lt_trichotomy i k with hlt | heq | hgt
      · exact absurd hia (hkb i hlt)
      · exact heq
      · exact absurd hka (hfirst k hgt)
    subst hik
    rw [hrc] at hrck
    simp only [Option.some.injEq] at hrck
    subst hrck
    exact hbad hok
  · intro i j a hji hj hi
    cases hs : specDispatchAt r.queue txs receipts i with
    | none => rfl
    | some p =>
      obtain ⟨a1, h1⟩ := p
      obtain ⟨hia, hib, _, _⟩ := specDispatchAt_some hs
      rw [hi] at hia
      simp only [Option.some.injEq] at hia
      subst hia
      exact absurd hj (hib j hji)

/-- C12, evaluated: messages are queued for addresses 10 and 20; the block
holds a reverted transaction to 10, a successful one to 10, and two successful
ones to 20. Only the first transaction to 20 dispatches: the one goroutine
started sends the message queued for 20 with the hash of the third receipt,
103, and nothing is stored. When no namespace resolves, the one result stored
is the connection error under the hash 103, and nothing is sent. -/
theorem PostBlockHook_dispatches_first_successful_witness :
    (PostBlockHook renvOk routerTwo
      [{ hash := 1, To := some 10 }, { hash := 2, To := some 10 },
       { hash := 3, To := some 20 }, { hash := 4, To := some 20 }]
      [{ status := 0, txHash := 101 }, { status := 1, txHash := 102 },
       { status := 1, txHash := 103 }, { status := 1, txHash := 104 }]).map
        (fun r1 => (r1.dispatched, r1.spawned, r1.resultStore.results)) =
      some ([(20, 103)],
        [(1, { Sender := renvOk.toLower "0xB", PersonaTag := "q", MessageId := "m",
               Message := [2], EvmTxHash := renvOk.hashString 103 })], []) ∧
    (PostBlockHook renvNoConnection routerTwo
      [{ hash := 1, To := some 10 }, { hash := 2, To := some 10 },
       { hash := 3, To := some 20 }, { hash := 4, To := some 20 }]
      [{ status := 0, txHash := 101 }, { status := 1, txHash := 102 },
       { status := 1, txHash := 103 }, { status := 1, txHash := 104 }]).map
        (fun r1 => (r1.dispatched, r1.spawned, r1.resultStore.results)) =
      some ([(20, 103)], [],
        [{ res := { EvmTxHash := renvNoConnection.hashString 103, Code := 100,
                    Errs := "error getting game shard gRPC connection: " ++
                      "namespace not found", Result := [] },
           storedAt := 0 }]) :=
  ⟨match (PostBlockHook_dispatches_first_successful renvOk routerTwo
      [{ hash := 1, To := some 10 }, { hash := 2, To := some 10 },
       { hash := 3, To := some 20 }, { hash := 4, To := some 20 }]
      [{ status := 0, txHash := 101 }, { status := 1, txHash := 102 },
       { status := 1, txHash := 103 }, { status := 1, txHash := 104 }] (by decide)).1 with
    | ⟨_, h1, h2, h3, h4, _⟩ => by
      rw [h1, Option.map_some', h2, h3, h4]
      rfl,
   match (PostBlockHook_dispatches_first_successful renvNoConnection routerTwo
      [{ hash := 1, To := some 10 }, { hash := 2, To := some 10 },
       { hash := 3, To := some 20 }, { hash := 4, To := some 20 }]
      [{ status := 0, txHash := 101 }, { status := 1, txHash := 102 },
       { status := 1, txHash := 103 }, { status := 1, txHash := 104 }] (by decide)).1 with
    | ⟨_, h1, h2, h3, h4, _⟩ => by
      rw [h1, Option.map_some', h2, h3, h4]
      rfl⟩

/-! ## `SendMessage` -/

theorem MsgQueue.message_of_not_isSet (q : MsgQueue) (a : Address)
    (h : q.IsSet a = false) : q.Message a = none := by
  unfold MsgQueue.IsSet at h
  cases hm : q.Message a with
  | none => rfl
  | some m => rw [hm] at h; simp at h

theorem MsgQueue.message_append_new (q : MsgQueue) (a : Address) (m : NamespacedMessage)
    (h : q.IsSet a = false) : MsgQueue.Message (q ++ [(a, m)]) a = some m := by
  have hn := MsgQueue.message_of_not_isSet q a h
  unfold MsgQueue.Message at hn ⊢
  rw [List.find?_append]
  cases hf : List.find? (fun p => decide (p.1 = a)) q with
  | none => simp
  | some p => rw [hf] at hn; simp at hn

theorem MsgQueue.message_append_old (q : MsgQueue) (a : Address) (p : Address × NamespacedMessage)
    (h : q.IsSet a = true) : MsgQueue.Message (q ++ [p]) a = q.Message a := by
  unfold MsgQueue.IsSet at h
  unfold MsgQueue.Message at h ⊢
  rw [List.find?_append]
  cases hf : List.find? (fun p => decide (p.1 = a)) q with
  | none => rw [hf] at h; simp at h
  | some p => simp

theorem SendMessage_of_isSet (env : RouterEnv) (r : Router) (personaTag ns sender msgID : String)
    (msg : List Nat) (h : r.queue.IsSet (env.hexToAddress sender) = true) :
    SendMessage env r personaTag ns sender msgID msg =
      (r, some "message already queued for this address") := by
  simp [SendMessage, MsgQueue.Set, h]

theorem SendMessage_of_not_isSet (env : RouterEnv) (r : Router)
    (personaTag ns sender msgID : String) (msg : List Nat)
    (h : r.queue.IsSet (env.hexToAddress sender) = false) :
    SendMessage env r personaTag ns sender msgID msg =
      ({ r with queue := r.queue ++ [(env.hexToAddress sender,
          { ns := ns, msg := { Sender := sender, PersonaTag := personaTag, MessageId := msgID,
                               Message := msg, EvmTxHash := "" } })] }, none) := by
  simp [SendMessage, MsgQueue.Set, h]

/-- C13: when no entry is pending for `HexToAddress(sender)`, `SendMessage`
returns nil and the queue holds, under that address, the request with the
given sender, persona tag, message id and payload, with its namespace. When an
entry is pending it returns an error and the router is unchanged. So a second
call for the same address, with no block in between, fails and the queue still
holds the first message; and a queue with at most one entry per address keeps
that property. -/
theorem SendMessage_one_pending_per_address (env : RouterEnv) (r : Router)
    (personaTag ns sender msgID : String) (msg : List Nat) :
    (r.queue.IsSet (env.hexToAddress sender) = false →
      (SendMessage env r personaTag ns sender msgID msg).2 = none ∧
      (SendMessage env r personaTag ns sender msgID msg).1.queue.Message
        (env.hexToAddress sender) =
          some { ns := ns, msg := { Sender := sender, PersonaTag := personaTag,
                                    MessageId := msgID, Message := msg, EvmTxHash := "" } } ∧
      ∀ (personaTag2 ns2 sender2 msgID2 : String) (msg2 : List Nat),
        env.hexToAddress sender2 = env.hexToAddress sender →
        (SendMessage env (SendMessage env r personaTag ns sender msgID msg).1
          personaTag2 ns2 sender2 msgID2 msg2).2 ≠ none ∧
        (SendMessage env (SendMessage env r personaTag ns sender msgID msg).1
          personaTag2 ns2 sender2 msgID2 msg2).1 =
            (SendMessage env r personaTag ns sender msgID msg).1) ∧
    (r.queue.IsSet (env.hexToAddress sender) = true →
      (SendMessage env r personaTag ns sender msgID msg).2 ≠ none ∧
      (SendMessage env r personaTag ns sender msgID msg).1 = r) ∧
    ((r.queue.map Prod.fst).Nodup →
      ((SendMessage env r personaTag ns sender msgID msg).1.queue.map Prod.fst).Nodup) := by
  refine ⟨fun h => ?_, fun h => ?_, fun hnd => ?_⟩
  · rw [SendMessage_of_not_isSet env r personaTag ns sender msgID msg h]
    refine ⟨rfl, MsgQueue.message_append_new _ _ _ h, ?_⟩
    intro personaTag2 ns2 sender2 msgID2 msg2 haddr
    have hset : ∀ m : NamespacedMessage,
        MsgQueue.IsSet (r.queue ++ [(env.hexToAddress sender, m)])
          (env.hexToAddress sender2) = true := by
      intro m
      rw [haddr, MsgQueue.isSet_iff]
      exact ⟨_, List.mem_append_right _ (List.mem_singleton.mpr rfl), rfl⟩
    rw [SendMessage_of_isSet env _ personaTag2 ns2 sender2 msgID2 msg2 (hset _)]
    exact ⟨by simp, rfl⟩
  · rw [SendMessage_of_isSet env r personaTag ns sender msgID msg h]
    exact ⟨by simp, rfl⟩
  · by_cases h : r.queue.IsSet (env.hexToAddress sender) = true
    · rw [SendMessage_of_isSet env r personaTag ns sender msgID msg h]
      exact hnd
    · have h0 : r.queue.IsSet (env.hexToAddress sender) = false := by simpa using h
      rw [SendMessage_of_not_isSet env r personaTag ns sender msgID msg h0]
      simp only [List.map_append, List.map_cons, List.map_nil]
      rw [List.nodup_append]
      refine ⟨hnd, List.nodup_singleton _, ?_⟩
      intro a ha hb
      rw [List.mem_singleton] at hb
      subst hb
      rw [List.mem_map] at ha
      obtain ⟨p, hp, hpa⟩ := ha
      exact h ((MsgQueue.isSet_iff _ _).mpr ⟨p, hp, hpa⟩)

/-- C13, evaluated: on the new router a first `SendMessage` from "0xA" is
accepted, and a second one from "0xA" is refused and leaves the first message. -/
theorem SendMessage_one_pending_per_address_witness :
    (SendMessage renvOk routerNew "p" "game" "0xA" "m" [1]).2 = none ∧
    (SendMessage renvOk (SendMessage renvOk routerNew "p" "game" "0xA" "m" [1]).1
      "q" "game" "0xA" "m" [2]).2 ≠ none ∧
    (SendMessage renvOk (SendMessage renvOk routerNew "p" "game" "0xA" "m" [1]).1
      "q" "game" "0xA" "m" [2]).1 = (SendMessage renvOk routerNew "p" "game" "0xA" "m" [1]).1 :=
  ⟨((SendMessage_one_pending_per_address renvOk routerNew "p" "game" "0xA" "m" [1]).1 rfl).1,
   (((SendMessage_one_pending_per_address renvOk routerNew "p" "game" "0xA" "m" [1]).1
      rfl).2.2 "q" "game" "0xA" "m" [2] rfl).1,
   (((SendMessage_one_pending_per_address renvOk routerNew "p" "game" "0xA" "m" [1]).1
      rfl).2.2 "q" "game" "0xA" "m" [2] rfl).2⟩

/-! ## `dispatchMessage` and `MessageResult` -/

theorem connection_error_text_ne_empty (e : String) :
    "error getting game shard gRPC connection: " ++ e ≠ "" := by
  intro h
  have hl := congrArg String.length h
  rw [String.length_append] at hl
  have h1 : "error getting game shard gRPC connection: ".length = 42 := by decide
  have h2 : "".length = 0 := rfl
  omega

theorem MessageResult_of_newest (r : Router) (res : SendMessageResponse) (t : Nat)
    (st : List StoredResult)
    (h : r.resultStore.results = { res := res, storedAt := t } :: st) :
    MessageResult r res.EvmTxHash =
      if t + r.resultStore.keepAlive < r.clock then
        Except.error ("no result found for tx " ++ res.EvmTxHash)
      else Except.ok (res.Result, res.Errs, res.Code) := by
  unfold MessageResult ResultStorage.Result
  rw [h, List.find?_cons_of_pos _ (by simp)]
  simp only [StoredResult.expired, decide_eq_true_eq]
  by_cases hx : t + r.resultStore.keepAlive < r.clock
  · simp only [if_pos hx]
  · simp only [if_neg hx]

theorem sendInBackground_keepAlive (env : RouterEnv) (now : Nat) (st : ResultStorage)
    (task : Client × SendMessageRequest) :
    (sendInBackground env now st task).keepAlive = st.keepAlive := by
  unfold sendInBackground
  split <;> rfl

theorem runSpawned_keepAlive (env : RouterEnv) (r : Router) :
    (runSpawned env r).resultStore.keepAlive = r.resultStore.keepAlive := by
  unfold runSpawned
  simp only
  generalize r.resultStore = st
  induction r.spawned generalizing st with
  | nil => rfl
  | cons task tasks ih => rw [List.foldl_cons, ih, sendInBackground_keepAlive]

/-- C14, as stated, fails when the RPC error has an empty text: the error
string stored for a failed send is the text of the RPC error as it is, so it is
empty when that text is. For the message queued for address 10 and the hash 7, a send that fails with an error
of empty text is recorded under code 101 with the empty error string, and that
is what `MessageResult` returns. -/
theorem dispatchMessage_server_error_text_empty :
    (runSpawned renvServerFailsNoText
      (dispatchMessage renvServerFailsNoText routerTwo 10 7)).resultStore.results =
        [{ res := { EvmTxHash := renvServerFailsNoText.hashString 7, Code := 101, Errs := "",
                    Result := [] },
           storedAt := 0 }] ∧
    MessageResult (runSpawned renvServerFailsNoText
      (dispatchMessage renvServerFailsNoText routerTwo 10 7))
        (renvServerFailsNoText.hashString 7) = Except.ok ([], "", 101) :=
  ⟨rfl, (MessageResult_of_newest _ ⟨renvServerFailsNoText.hashString 7, 101, "", []⟩ 0 [] rfl).trans
    (if_neg (by decide))⟩

/-- C14, amended: dispatch failures are recorded, not raised. For a queued
message and a hash `h`: when no connection is found for the namespace,
`dispatchMessage` stores, at the present time, a result with
`EvmTxHash = h.String()`, `Code = CodeConnectionError = 100` and a non-empty
error string, and starts no goroutine. When the connection is found and the
send fails with the error text `e`, `dispatchMessage` itself stores nothing and
starts the goroutine; when the goroutine has run, `d1` later, the newest result
has `EvmTxHash = h.String()`, `Code = CodeServerError = 101` and the error
string `e` as it is (so non-empty exactly when the text of the RPC error is).
In both cases a `MessageResult` of `h.String()` made a time `d` after the
result was stored returns that error string and code without error as long as
`d` is at most the TTL of the storage, and the error of a missing result once
the TTL has passed. -/
theorem dispatchMessage_records_failures (env : RouterEnv) (r : Router) (sender : Address)
    (h : Hash) (m : NamespacedMessage) (hq : r.queue.Message sender = some m) :
    (∀ e, getConnectionForNamespace env m.ns = Except.error e →
      (dispatchMessage env r sender h).resultStore =
        r.resultStore.SetResult r.clock
          { EvmTxHash := env.hashString h, Code := 100,
            Errs := "error getting game shard gRPC connection: " ++ e, Result := [] } ∧
      "error getting game shard gRPC connection: " ++ e ≠ "" ∧
      (dispatchMessage env r sender h).spawned = r.spawned ∧
      ∀ d, MessageResult ((dispatchMessage env r sender h).advance d) (env.hashString h) =
        if d ≤ r.resultStore.keepAlive then
          Except.ok ([], "error getting game shard gRPC connection: " ++ e, CodeConnectionError)
        else Except.error ("no result found for tx " ++ env.hashString h)) ∧
    (∀ client e, getConnectionForNamespace env m.ns = Except.ok client →
      env.clientSendMessage client
        { m.msg with Sender := env.toLower m.msg.Sender, EvmTxHash := env.hashString h } =
          Except.error e →
      (dispatchMessage env r sender h).resultStore = r.resultStore ∧
      (dispatchMessage env r sender h).spawned = r.spawned ++ [(client,
        { m.msg with Sender := env.toLower m.msg.Sender, EvmTxHash := env.hashString h })] ∧
      ∀ d1,
        (runSpawned env ((dispatchMessage env r sender h).advance d1)).resultStore =
          (runSpawned env (r.advance d1)).resultStore.SetResult (r.clock + d1)
            { EvmTxHash := env.hashString h, Code := 101, Errs := e, Result := [] } ∧
        ∀ d, MessageResult
            ((runSpawned env ((dispatchMessage env r sender h).advance d1)).advance d)
            (env.hashString h) =
          if d ≤ r.resultStore.keepAlive then Except.ok ([], e, CodeServerError)
          else Except.error ("no result found for tx " ++ env.hashString h)) := by
  refine ⟨fun e hc => ?_, fun client e hc hs => ?_⟩
  · have hst : (dispatchMessage env r sender h).resultStore =
        r.resultStore.SetResult r.clock
          ⟨env.hashString h, 100, "error getting game shard gRPC connection: " ++ e, []⟩ := by
      simp only [dispatchMessage, hq, hc]
      rfl
    refine ⟨hst, connection_error_text_ne_empty e, ?_, fun d => ?_⟩
    · simp only [dispatchMessage, hq, hc]
    · have hres : ((dispatchMessage env r sender h).advance d).resultStore.results =
          { res := ⟨env.hashString h, 100,
              "error getting game shard gRPC connection: " ++ e, []⟩,
            storedAt := r.clock } :: r.resultStore.results := by
        show (dispatchMessage env r sender h).resultStore.results = _
        rw [hst]
        rfl
      have hka : ((dispatchMessage env r sender h).advance d).resultStore.keepAlive =
          r.resultStore.keepAlive := by
        show (dispatchMessage env r sender h).resultStore.keepAlive = _
        rw [hst]
        rfl
      have hck : ((dispatchMessage env r sender h).advance d).clock = r.clock + d := by
        show (dispatchMessage env r sender h).clock + d = _
        rw [dispatchMessage_clock]
      have := MessageResult_of_newest _ _ _ _ hres
      rw [hka, hck] at this
      rw [this]
      by_cases hd : d ≤ r.resultStore.keepAlive
      · rw [if_pos hd, if_neg (by omega)]
        rfl
      · rw [if_neg hd, if_pos (by omega)]
  · have hst : (dispatchMessage env r sender h).resultStore = r.resultStore := by
      simp only [dispatchMessage, hq, hc]
    have hsp : (dispatchMessage env r sender h).spawned = r.spawned ++ [(client,
        { m.msg with Sender := env.toLower m.msg.Sender, EvmTxHash := env.hashString h })] := by
      simp only [dispatchMessage, hq, hc]
    refine ⟨hst, hsp, fun d1 => ?_⟩
    have hrun : (runSpawned env ((dispatchMessage env r sender h).advance d1)).resultStore =
        (runSpawned env (r.advance d1)).resultStore.SetResult (r.clock + d1)
          ⟨env.hashString h, 101, e, []⟩ := by
      simp only [runSpawned, Router.advance, hsp, hst, dispatchMessage_clock, List.foldl_append,
        List.foldl_cons, List.foldl_nil, sendInBackground, hs]
      rfl
    refine ⟨hrun, fun d => ?_⟩
    have hres : ((runSpawned env ((dispatchMessage env r sender h).advance d1)).advance
        d).resultStore.results =
        { res := ⟨env.hashString h, 101, e, []⟩, storedAt := r.clock + d1 } ::
          (runSpawned env (r.advance d1)).resultStore.results := by
      show (runSpawned env ((dispatchMessage env r sender h).advance d1)).resultStore.results = _
      rw [hrun]
      rfl
    have hka : ((runSpawned env ((dispatchMessage env r sender h).advance d1)).advance
        d).resultStore.keepAlive = r.resultStore.keepAlive := by
      show (runSpawned env ((dispatchMessage env r sender h).advance d1)).resultStore.keepAlive = _
      rw [runSpawned_keepAlive]
      exact congrArg ResultStorage.keepAlive hst
    have hck : ((runSpawned env ((dispatchMessage env r sender h).advance d1)).advance
        d).clock = r.clock + d1 + d := by
      show (dispatchMessage env r sender h).clock + d1 + d = _
      rw [dispatchMessage_clock]
    have := MessageResult_of_newest _ _ _ _ hres
    rw [hka, hck] at this
    rw [this]
    by_cases hd : d ≤ r.resultStore.keepAlive
    · rw [if_pos hd, if_neg (by omega)]
      rfl
    · rw [if_neg hd, if_pos (by omega)]

/-- C14 amended, evaluated: for the message queued for address 10 and the hash 7, a
missing namespace gives code 100 and a failing send gives code 101, both read
back by `MessageResult` five nanoseconds later; an hour and one nanosecond
after the connection error was stored it is no longer returned. -/
theorem dispatchMessage_records_failures_witness :
    MessageResult ((dispatchMessage renvNoConnection routerTwo 10 7).advance 5)
        (renvNoConnection.hashString 7) =
      Except.ok ([], "error getting game shard gRPC connection: " ++ "namespace not found", 100) ∧
    MessageResult ((runSpawned renvServerFails
        ((dispatchMessage renvServerFails routerTwo 10 7).advance 3)).advance 5)
      (renvServerFails.hashString 7) = Except.ok ([], "rpc error: unavailable", 101) ∧
    MessageResult ((dispatchMessage renvNoConnection routerTwo 10 7).advance
        (defaultStorageTimeout + 1)) (renvNoConnection.hashString 7) =
      Except.error ("no result found for tx " ++ renvNoConnection.hashString 7) :=
  ⟨(((dispatchMessage_records_failures renvNoConnection routerTwo 10 7 _ rfl).1
      "namespace not found" rfl).2.2.2 5).trans (if_pos (by decide)),
   ((((dispatchMessage_records_failures renvServerFails routerTwo 10 7 _ rfl).2
      1 "rpc error: unavailable" rfl rfl).2.2 3).2 5).trans (if_pos (by decide)),
   (((dispatchMessage_records_failures renvNoConnection routerTwo 10 7 _ rfl).1
      "namespace not found" rfl).2.2.2 (defaultStorageTimeout + 1)).trans
        (if_neg (by decide))⟩

end EvmRouter

namespace NakamaAuth

/-! ## Routing by the `type` var -/

theorem eq_of_handler_result (x : Except AuthError Request) (hd : Handler) :
    (match x with
      | Except.error err => ((Except.error err : Except AuthError Request), [hd])
      | Except.ok inResult => (Except.ok inResult, [hd])) = (x, [hd]) := by
  cases x <;> rfl

/-- C15: both `handleCustomAuthentication` and `handleCustomLink` route by the
`type` var. Type "siwe" goes to the SIWE handler whatever the JWT secret is;
type "argus" goes to the Argus ID handler when the secret is not empty; in
every other case (another or a missing type, or "argus" with an empty secret)
the result is `ErrBadCustomAuthType` and no handler is invoked. -/
theorem customAuth_routes_by_type (env : AuthEnv) (secret : String) (req : Request) :
    (req.var "type" = "siwe" →
      handleCustomAuthentication env secret req = (env.authWithSIWE req, [Handler.authWithSIWE]) ∧
      handleCustomLink env secret req = (env.linkWithSIWE req, [Handler.linkWithSIWE])) ∧
    (req.var "type" = "argus" → secret ≠ "" →
      handleCustomAuthentication env secret req =
        (env.authWithArgusID req, [Handler.authWithArgusID]) ∧
      handleCustomLink env secret req = (env.linkWithArgusID req, [Handler.linkWithArgusID])) ∧
    (req.var "type" ≠ "siwe" → (req.var "type" ≠ "argus" ∨ secret = "") →
      handleCustomAuthentication env secret req =
        (Except.error AuthError.ErrBadCustomAuthType, []) ∧
      handleCustomLink env secret req = (Except.error AuthError.ErrBadCustomAuthType, [])) := by
  refine ⟨fun h => ?_, fun h hs => ?_, fun h1 h2 => ?_⟩
  · unfold handleCustomAuthentication handleCustomLink
    simp only [signInWithEthereumType, h, if_true]
    exact ⟨eq_of_handler_result _ _, eq_of_handler_result _ _⟩
  · have hne : ¬ ("argus" = "siwe") := by decide
    unfold handleCustomAuthentication handleCustomLink
    simp only [signInWithEthereumType, signInWithArgusIDType, h, hne, if_false, ne_eq, hs,
      not_false_eq_true, and_self, if_true]
    exact ⟨eq_of_handler_result _ _, eq_of_handler_result _ _⟩
  · have hno : ¬ (req.var "type" = signInWithArgusIDType ∧ secret ≠ "") := by
      rintro ⟨ha, hs⟩
      rcases h2 with h2 | h2
      · exact h2 ha
      · exact hs h2
    unfold handleCustomAuthentication handleCustomLink
    simp only [signInWithEthereumType, h1, if_false, hno]
    exact ⟨trivial, trivial⟩

/-- C15, evaluated: "siwe" is routed to the SIWE handler with an empty secret,
"argus" with an empty secret and a missing type are refused. -/
theorem customAuth_routes_by_type_witness :
    handleCustomAuthentication authEnvOk "" { id := "u", vars := [("type", "siwe")] } =
      (Except.ok { id := "siwe-auth", vars := [("type", "siwe")] }, [Handler.authWithSIWE]) ∧
    handleCustomLink authEnvOk "" { id := "u", vars := [("type", "argus")] } =
      (Except.error AuthError.ErrBadCustomAuthType, []) ∧
    handleCustomAuthentication authEnvOk "secret" { id := "u", vars := [] } =
      (Except.error AuthError.ErrBadCustomAuthType, []) :=
  ⟨((customAuth_routes_by_type authEnvOk "" { id := "u", vars := [("type", "siwe")] }).1
      (by decide)).1,
   ((customAuth_routes_by_type authEnvOk "" { id := "u", vars := [("type", "argus")] }).2.2
      (by decide) (Or.inr rfl)).2,
   ((customAuth_routes_by_type authEnvOk "secret" { id := "u", vars := [] }).2.2
      (by decide) (Or.inl (by decide))).1⟩

end NakamaAuth

namespace Cardinal

/-! ## `AddTransaction` against the tick -/

theorem snapshotTxs_append (l1 l2 : List Effect) :
    snapshotTxs (l1 ++ l2) = snapshotTxs l1 ++ snapshotTxs l2 := by
  induction l1 with
  | nil => rfl
  | cons e l ih => cases e <;> simp [snapshotTxs, ih]

theorem doTick_snapshot_subset (env : Env) (w : World) (ts : Nat) :
    ∀ tx ∈ snapshotTxs ((doTick env w ts).1.since w), tx ∈ w.txPool := by
  rcases doTick_cases env w ts with h | ⟨e, h⟩ | ⟨r, h⟩ | ⟨e, h⟩ | ⟨e, h⟩ | h
  · rw [h]
    simp [since_self, snapshotTxs]
  · rw [h, since_of_trace_eq (atFinalize_trace w ts)]
    simp [snapshotTxs]
  · rw [h, since_of_trace_eq (atFinalize_trace w ts)]
    simp [snapshotTxs]
  · have htr : ((w.atFinalize ts).log Effect.finalizeTick).trace = w.trace ++
        [Effect.copyTransactions w.txPool, Effect.storeTimestamp ts,
          Effect.runSystems w.txPool, Effect.finalizeTick] := by
      simp [World.atFinalize, World.atSystems, World.log]
    rw [h, since_of_trace_eq htr]
    simp [snapshotTxs]
  · rw [h, since_of_trace_eq (atIncrement_trace w ts)]
    unfold World.untilSubmit World.submitEffects
    split <;> simp [snapshotTxs]
  · have hf := doTick_nil_fields env w _ ts h
    rw [h, since_of_trace_eq hf.2.2.2]
    unfold World.untilSubmit World.submitEffects broadcastEffects
    split <;> split <;> simp [snapshotTxs]

theorem doTick_txPool_subset (env : Env) (w : World) (ts : Nat) :
    ∀ tx ∈ (doTick env w ts).1.txPool, tx ∈ w.txPool := by
  rcases doTick_cases env w ts with h | ⟨e, h⟩ | ⟨r, h⟩ | ⟨e, h⟩ | ⟨e, h⟩ | h <;> rw [h]
  · exact fun tx htx => htx
  · simp [World.atFinalize, World.atSystems, World.log]
  · simp [World.atFinalize, World.atSystems, World.log]
  · simp [World.atFinalize, World.atSystems, World.log]
  · unfold World.atIncrement
    split <;> simp [World.atSubmit, World.atFinalize, World.atSystems, World.log]
  · have hp : (w.atBroadcast ts).txPool = [] := by
      unfold World.atBroadcast World.atIncrement
      split <;> simp [World.atSubmit, World.atFinalize, World.atSystems, World.log]
    show ∀ tx ∈ (if w.stage ≠ Stage.Recovering then broadcastTickResults env (w.atBroadcast ts)
      else w.atBroadcast ts).txPool, tx ∈ w.txPool
    split
    · rw [broadcastTickResults_eq]
      simp [hp]
    · simp [hp]

theorem doTick_tick_cases (env : Env) (w : World) (ts : Nat) :
    (doTick env w ts).1.tick = w.tick ∨ (doTick env w ts).1.tick = u64Add w.tick 1 := by
  by_cases hn : (doTick env w ts).2 = TickResult.nil
  · right
    exact (doTick_nil_fields env w (doTick env w ts).1 ts (by rw [← hn])).1
  · left
    exact doTick_tick_of_ne_nil env w ts hn

theorem raceRun_inv (env : Env) (steps : List RaceStep) :
    ∀ (s : RaceState) (known : List Tx),
      raceWellFormed known steps = true →
      s.world.tick + ticksIn steps < 2 ^ 64 →
      (∀ p ∈ s.reported, p.2 ≤ s.world.tick ∧ p.1 ∈ known) →
      (∀ tx ∈ s.world.txPool, tx ∈ known) →
      (∀ p ∈ s.executed, p.1 ∈ known ∧ p.2 ≤ s.world.tick) →
      reportedNotAfterExecution s →
      reportedNotAfterExecution (raceRun env s steps) := by
  induction steps with
  | nil => intro s known _ _ _ _ _ hP; exact hP
  | cons st rest ih =>
    intro s known hwf hb ha hpool hc hP
    simp only [raceRun, List.foldl_cons]
    cases st with
    | readTick tx =>
      simp only [raceWellFormed, Bool.and_eq_true, Bool.not_eq_true'] at hwf
      have hnew : tx ∉ known := by
        intro hmem
        have := List.elem_iff.mpr hmem
        simp only [List.contains] at hwf
        rw [this] at hwf
        exact absurd hwf.1 (by simp)
      refine ih _ (tx :: known) hwf.2 (by simpa [raceStep, ticksIn] using hb) ?_ ?_ ?_ ?_
      · intro p hp
        simp only [raceStep, List.mem_append, List.mem_singleton] at hp ⊢
        rcases hp with hp | rfl
        · exact ⟨(ha p hp).1, List.mem_cons_of_mem _ (ha p hp).2⟩
        · exact ⟨le_refl _, List.mem_cons_self _ _⟩
      · intro t ht
        exact List.mem_cons_of_mem _ (hpool t ht)
      · intro p hp
        exact ⟨List.mem_cons_of_mem _ (hc p hp).1, (hc p hp).2⟩
      · intro tx0 t t1 hr he
        simp only [raceStep, List.mem_append, List.mem_singleton, Prod.mk.injEq] at hr he
        rcases hr with hr | ⟨rfl, rfl⟩
        · exact hP tx0 t t1 hr he
        · exact absurd (hc _ he).1 hnew
    | appendTx tx =>
      simp only [raceWellFormed, Bool.and_eq_true] at hwf
      have hold : tx ∈ known := List.elem_iff.mp (by simpa [List.contains] using hwf.1)
      refine ih _ known hwf.2 (by simpa [raceStep, ticksIn] using hb) ha ?_ hc hP
      intro t ht
      simp only [raceStep, List.mem_append, List.mem_singleton] at ht
      rcases ht with ht | rfl
      · exact hpool t ht
      · exact hold
    | tick ts =>
      simp only [raceWellFormed] at hwf
      simp only [ticksIn] at hb
      have hle : s.world.tick ≤ (doTick env s.world ts).1.tick ∧
          (doTick env s.world ts).1.tick + ticksIn rest < 2 ^ 64 := by
        rcases doTick_tick_cases env s.world ts with h | h <;> rw [h]
        · exact ⟨le_refl _, by omega⟩
        · have : u64Add s.world.tick 1 = s.world.tick + 1 := by
            unfold u64Add u64
            exact Nat.mod_eq_of_lt (by omega)
          rw [this]
          exact ⟨by omega, by omega⟩
      refine ih _ known hwf hle.2 ?_ ?_ ?_ ?_
      · intro p hp
        exact ⟨le_trans (ha p hp).1 hle.1, (ha p hp).2⟩
      · intro t ht
        exact hpool t (doTick_txPool_subset env s.world ts t ht)
      · intro p hp
        simp only [raceStep, List.mem_append, List.mem_map] at hp
        rcases hp with hp | ⟨t, ht, rfl⟩
        · exact ⟨(hc p hp).1, le_trans (hc p hp).2 hle.1⟩
        · exact ⟨hpool t (doTick_snapshot_subset env s.world ts t ht), hle.1⟩
      · intro tx0 t t1 hr he
        simp only [raceStep, List.mem_append, List.mem_map, Prod.mk.injEq] at hr he
        rcases he with he | ⟨t0, _, rfl, rfl⟩
        · exact hP tx0 t t1 hr he
        · exact (ha _ hr).1

/-- C16, as stated, fails when the 64-bit counter wraps: with the counter at
`2^64 - 1`, `AddTransaction` reads the tick for transaction 1, a tick completes
and the counter wraps to 0, the transaction is appended and the next tick takes
it in its snapshot; the reported tick is `2^64 - 1` and the tick of execution
is 0. -/
theorem addTransaction_reported_tick_wraps :
    raceWellFormed worldAtMaxTick.txPool
      [RaceStep.readTick 1, RaceStep.tick 5, RaceStep.appendTx 1, RaceStep.tick 6] = true ∧
    ¬ reportedNotAfterExecution (raceRun envOk (RaceState.start worldAtMaxTick)
      [RaceStep.readTick 1, RaceStep.tick 5, RaceStep.appendTx 1, RaceStep.tick 6]) := by
  refine ⟨by decide, fun h => ?_⟩
  have h1 := h 1 (2 ^ 64 - 1) 0 (by decide) (by decide)
  exact absurd h1 (by decide)

/-- C16, amended: in a run of reads of the tick, appends to the pool and calls
of `doTick` that starts with nothing reported, and in which the 64-bit counter
does not wrap (the counter at the start plus the number of ticks of the run is
below `2^64`), no transaction is in the snapshot of a tick numbered less than
the tick reported for it; and the tick reported by a read is the counter at the
time of the read. -/
theorem addTransaction_reported_tick_not_after_execution (env : Env) (w : World)
    (steps : List RaceStep) (hwf : raceWellFormed w.txPool steps = true)
    (hb : w.tick + ticksIn steps < 2 ^ 64) :
    reportedNotAfterExecution (raceRun env (RaceState.start w) steps) ∧
    ∀ (s : RaceState) (tx : Tx),
      (raceStep env s (RaceStep.readTick tx)).reported = s.reported ++ [(tx, s.world.CurrentTick)] ∧
      (raceStep env s (RaceStep.readTick tx)).world = s.world := by
  refine ⟨?_, fun s tx => ⟨rfl, rfl⟩⟩
  refine raceRun_inv env steps (RaceState.start w) w.txPool hwf hb ?_ ?_ ?_ ?_
  · intro p hp
    simp [RaceState.start] at hp
  · intro tx htx
    exact htx
  · intro p hp
    simp [RaceState.start] at hp
  · intro tx t t1 hr _
    simp [RaceState.start] at hr

/-- C16 amended, evaluated: in the running world at tick 7 the tick is read
for transaction 1, a tick completes, the transaction is appended and the next
tick takes it: the tick reported is 7, the tick of execution is 8. -/
theorem addTransaction_reported_tick_not_after_execution_witness :
    (raceRun envOk (RaceState.start worldRunning)
      [RaceStep.readTick 1, RaceStep.tick 5, RaceStep.appendTx 1, RaceStep.tick 6]).reported =
      [(1, 7)] ∧
    (1, 8) ∈ (raceRun envOk (RaceState.start worldRunning)
      [RaceStep.readTick 1, RaceStep.tick 5, RaceStep.appendTx 1, RaceStep.tick 6]).executed ∧
    reportedNotAfterExecution (raceRun envOk (RaceState.start worldRunning)
      [RaceStep.readTick 1, RaceStep.tick 5, RaceStep.appendTx 1, RaceStep.tick 6]) :=
  ⟨by decide, by decide,
   (addTransaction_reported_tick_not_after_execution envOk worldRunning
      [RaceStep.readTick 1, RaceStep.tick 5, RaceStep.appendTx 1, RaceStep.tick 6]
      (by decide) (by decide)).1⟩

/-! ## The startup of `StartGame` -/

theorem replayBlobs_trace (env : Env) (blobs : List Blob) :
    ∀ w : World, (replayBlobs env w blobs).1.stage = w.stage ∧
      ∃ l, (replayBlobs env w blobs).1.trace = w.trace ++ l ∧
        ∀ x ∈ l, x.isTickStep = true := by
  induction blobs with
  | nil => intro w; exact ⟨rfl, [], by simp [replayBlobs], by simp⟩
  | cons b bs ih =>
    intro w
    have hst := doTick_stage env { w with txPool := w.txPool ++ b.txs } b.timestamp
    obtain ⟨l1, hl1, hx1⟩ := doTick_trace env { w with txPool := w.txPool ++ b.txs } b.timestamp
    unfold replayBlobs
    cases hd : doTick env { w with txPool := w.txPool ++ b.txs } b.timestamp with
    | mk w1 r =>
      rw [hd] at hst hl1
      simp only at hst hl1
      cases r with
      | nil =>
        simp only
        obtain ⟨h2, l2, hl2, hx2⟩ := ih w1
        refine ⟨by rw [h2, hst], l1 ++ l2, by rw [hl2, hl1, List.append_assoc], ?_⟩
        intro x hx
        rcases List.mem_append.mp hx with hx | hx
        · exact hx1 x hx
        · exact hx2 x hx
      | err e => exact ⟨hst, l1, hl1, hx1⟩
      | panic v => exact ⟨hst, l1, hl1, hx1⟩

theorem recoverFromChain_trace (env : Env) (w : World) :
    (recoverFromChain env w).1.stage = w.stage ∧
      ∃ l, (recoverFromChain env w).1.trace = w.trace ++ Effect.recoverFromChain :: l ∧
        ∀ x ∈ l, x.isTickStep = true := by
  unfold recoverFromChain
  obtain ⟨h1, l, hl, hx⟩ := replayBlobs_trace env (env.chainBlobs w) (w.log Effect.recoverFromChain)
  refine ⟨h1, l, ?_, hx⟩
  rw [hl]
  simp [World.log]

theorem startGameBody_blocked_inv (env : Env) (w w1 : World)
    (h : startGameBody env w [] = (w1, StartResult.blocked)) :
    w.stage = Stage.Init ∧ ∃ n w8,
      env.getLastFinalizedTick w.atLastFinalizedTick = Except.ok n ∧
      (if w.rollupEnabled = true ∧ w.router = true then recoverFromChain env (w.atRecovery n)
        else (w.atRecovery n, TickResult.nil)) = (w8, TickResult.nil) ∧
      w1 = w8.started := by
  unfold startGameBody at h
  by_cases hs : w.stage ≠ Stage.Init
  · rw [if_pos hs] at h
    simp at h
  rw [if_neg hs] at h
  simp only [World.log, World.storeStage] at h
  refine ⟨by simpa using hs, ?_⟩
  split at h
  · simp at h
  · split at h
    · simp at h
    · rename_i w4 hpair
      have hw4 : w4 =
          { w with stage := Stage.Starting, trace := w.trace ++ w.startupEffects } := by
        unfold World.startupEffects
        split at hpair
        · rename_i hr
          rw [if_pos hr]
          split at hpair
          · simp at hpair
          · split at hpair
            · simp at hpair
            · simp only [Prod.mk.injEq, and_true] at hpair
              rw [← hpair]
              simp
        · rename_i hr
          rw [if_neg hr]
          simp only [Prod.mk.injEq, and_true] at hpair
          rw [← hpair]
          simp
      subst hw4
      split at h
      · simp at h
      · rename_i n hn
        split at h
        · simp at h
        · simp at h
        · rename_i w8 hrec
          refine ⟨n, w8, ?_, ?_, ?_⟩
          · simpa [World.atLastFinalizedTick] using hn
          · simpa [World.atRecovery] using hrec
          · simp only [startGameLoop, List.foldl_nil, GameLoop.start, Prod.mk.injEq,
              and_true] at h
            rw [← h]
            simp [World.started, World.log, World.storeStage]

theorem mem_startupEffects_ne_running (w : World) (x : Effect) (h : x ∈ w.startupEffects) :
    x ≠ Effect.storeStage Stage.Running := by
  unfold World.startupEffects at h
  split at h <;>
    simp only [List.cons_append, List.nil_append, List.append_nil, List.mem_cons,
      List.mem_singleton, List.not_mem_nil, or_false] at h
  · rcases h with rfl | rfl | rfl | rfl <;> simp
  · rcases h with rfl | rfl <;> simp

theorem startGameBody_of_failed_recovery (env : Env) (w : World) (evs : List LoopEvent)
    (hfail : (∃ e, env.getLastFinalizedTick w.atLastFinalizedTick = Except.error e) ∨
      (w.rollupEnabled = true ∧ w.router = true ∧ ∃ n e,
        env.getLastFinalizedTick w.atLastFinalizedTick = Except.ok n ∧
        (recoverFromChain env (w.atRecovery n)).2 = TickResult.err e)) :
    (∃ msg, (startGameBody env w evs).2 = StartResult.err msg) ∧
    ∀ x ∈ (startGameBody env w evs).1.since w, x ≠ Effect.storeStage Stage.Running := by
  unfold startGameBody
  by_cases hs : w.stage ≠ Stage.Init
  · rw [if_pos hs]
    exact ⟨⟨_, rfl⟩, by simp [since_self]⟩
  rw [if_neg hs]
  simp only [World.log, World.storeStage]
  split
  · exact ⟨⟨_, rfl⟩, by simp [World.since]⟩
  · split
    · rename_i w4 msg hpair
      refine ⟨⟨_, rfl⟩, ?_⟩
      split at hpair
      · split at hpair
        · simp only [Prod.mk.injEq] at hpair
          rw [← hpair.1]
          simp [World.since]
        · split at hpair
          · simp only [Prod.mk.injEq] at hpair
            rw [← hpair.1]
            simp [World.since]
          · simp at hpair
      · simp at hpair
    · rename_i w4 hpair
      have hw4 : w4 =
          { w with stage := Stage.Starting, trace := w.trace ++ w.startupEffects } := by
        unfold World.startupEffects
        split at hpair
        · rename_i hr
          rw [if_pos hr]
          split at hpair
          · simp at hpair
          · split at hpair
            · simp at hpair
            · simp only [Prod.mk.injEq, and_true] at hpair
              rw [← hpair]
              simp
        · rename_i hr
          rw [if_neg hr]
          simp only [Prod.mk.injEq, and_true] at hpair
          rw [← hpair]
          simp
      subst hw4
      split
      · rename_i e he
        refine ⟨⟨_, rfl⟩, ?_⟩
        have htr : ∀ W : World, W.trace = w.trace ++ w.startupEffects ++
            [Effect.storeStage Stage.Recovering] ++ [Effect.getLastFinalizedTick] →
            ∀ x ∈ W.since w, x ≠ Effect.storeStage Stage.Running := by
          intro W hW x hx
          have hW2 : W.trace = w.trace ++ (w.startupEffects ++
              [Effect.storeStage Stage.Recovering, Effect.getLastFinalizedTick]) := by
            rw [hW]
            simp
          rw [since_of_trace_eq hW2] at hx
          rcases List.mem_append.mp hx with h1 | h1
          · exact mem_startupEffects_ne_running w x h1
          · simp only [List.mem_cons, List.mem_singleton, List.not_mem_nil, or_false] at h1
            rcases h1 with rfl | rfl <;> simp
        exact htr _ rfl
      · rename_i n hn
        have hn1 : env.getLastFinalizedTick w.atLastFinalizedTick = Except.ok n := by
          simpa [World.atLastFinalizedTick] using hn
        rcases hfail with ⟨e, he⟩ | ⟨hroll, hrouter, n1, e1, hn2, hrecfail⟩
        · rw [he] at hn1
          simp at hn1
        · rw [hn2] at hn1
          have hnn : n1 = n := by
            injection hn1
          subst hnn
          simp only [hroll, hrouter, and_self, if_true]
          have key : ∀ (W : World) (p : World × TickResult), recoverFromChain env W = p →
              W = w.atRecovery n1 →
              (∃ e, p.2 = TickResult.err e) ∧
              ∃ l, p.1.trace = (w.atRecovery n1).trace ++ Effect.recoverFromChain :: l ∧
                ∀ x ∈ l, x.isTickStep = true := by
            intro W p hp hW
            subst hW
            subst hp
            exact ⟨⟨e1, hrecfail⟩, (recoverFromChain_trace env _).2⟩
          split
          · rename_i w8 r hrec
            obtain ⟨⟨e, he⟩, _⟩ := key _ _ hrec (by simp [World.atRecovery, hroll, hrouter])
            simp at he
          · rename_i w8 e0 hrec
            obtain ⟨_, l, hl, hx⟩ := key _ _ hrec (by simp [World.atRecovery, hroll, hrouter])
            simp only at hl
            refine ⟨⟨_, rfl⟩, ?_⟩
            have htr : w8.trace = w.trace ++ (w.startupEffects ++
                [Effect.storeStage Stage.Recovering, Effect.getLastFinalizedTick,
                  Effect.tickStore n1] ++ Effect.recoverFromChain :: l) := by
              rw [hl]
              simp [World.atRecovery]
            rw [since_of_trace_eq htr]
            intro x hx1
            rcases List.mem_append.mp hx1 with h1 | h1
            · rcases List.mem_append.mp h1 with h2 | h2
              · exact mem_startupEffects_ne_running w x h2
              · simp only [List.mem_cons, List.mem_singleton, List.not_mem_nil,
                  or_false] at h2
                rcases h2 with rfl | rfl | rfl <;> simp
            · rcases List.mem_cons.mp h1 with rfl | h2
              · simp
              · intro hc
                have := hx x h2
                rw [hc] at this
                simp [Effect.isTickStep] at this
          · rename_i w8 hrec
            obtain ⟨⟨e, he⟩, _⟩ := key _ _ hrec (by simp [World.atRecovery, hroll, hrouter])
            simp at he

theorem mem_since_cleanup (env : Env) (wb w : World) (x : Effect)
    (h : x ∈ (cleanup env wb).since w) :
    x ∈ wb.since w ∨ x = Effect.redisClose ∨ x = Effect.telemetryShutdown ∨
      x = Effect.storeStage Stage.ShutDown := by
  unfold World.since at h ⊢
  rw [cleanup_trace, List.drop_append_eq_append_drop] at h
  rcases List.mem_append.mp h with h1 | h1
  · exact Or.inl h1
  · right
    have h2 := List.mem_of_mem_drop h1
    split at h2 <;>
      simp only [List.cons_append, List.nil_append, List.append_nil, List.mem_cons,
        List.mem_singleton, List.not_mem_nil, or_false] at h2
    · rcases h2 with rfl | rfl | rfl <;> simp
    · rcases h2 with rfl | rfl <;> simp

theorem StartGame_of_body (env : Env) (w w1 : World) (evs : List LoopEvent) (r : StartResult)
    (hb : startGameBody env { w with cancel := true } evs = (w1, r)) :
    StartGame env w evs =
      match r with
      | StartResult.blocked => (w1, StartResult.blocked)
      | StartResult.crashed v => (w1, StartResult.crashed v)
      | r => (cleanup env w1, r) := by
  unfold StartGame
  simp only [hb]
  cases r <;> rfl

theorem isStoreStage_of_isTickStep {x : Effect} (h : x.isTickStep = true) :
    x.isStoreStage = false := by
  cases x <;> simp_all [Effect.isTickStep, Effect.isStoreStage]

theorem startupEffects_filter (w : World) :
    w.startupEffects.filter Effect.isStoreStage = [Effect.storeStage Stage.Starting] := by
  unfold World.startupEffects
  split <;> simp [List.filter, Effect.isStoreStage]

theorem recovered_trace (env : Env) (w0 w8 : World) (n : Nat)
    (h : (if w0.rollupEnabled = true ∧ w0.router = true then recoverFromChain env (w0.atRecovery n)
        else (w0.atRecovery n, TickResult.nil)) = (w8, TickResult.nil)) :
    w8.stage = Stage.Recovering ∧
    ∃ mid, w8.trace = (w0.atRecovery n).trace ++ mid ∧
      (∀ x ∈ mid, x.isStoreStage = false) ∧
      (¬ (w0.rollupEnabled = true ∧ w0.router = true) → mid = [] ∧ w8 = w0.atRecovery n) := by
  by_cases hc : w0.rollupEnabled = true ∧ w0.router = true
  · rw [if_pos hc] at h
    obtain ⟨hst, l, hl, hx⟩ := recoverFromChain_trace env (w0.atRecovery n)
    rw [h] at hst hl
    refine ⟨hst, Effect.recoverFromChain :: l, hl, ?_, fun hn => absurd hc hn⟩
    intro x hx1
    rcases List.mem_cons.mp hx1 with rfl | hx1
    · rfl
    · exact isStoreStage_of_isTickStep (hx x hx1)
  · rw [if_neg hc] at h
    have hw : w8 = w0.atRecovery n := (congrArg Prod.fst h).symm
    subst hw
    exact ⟨rfl, [], by simp, by simp, fun _ => ⟨rfl, rfl⟩⟩

/-- C17: startup re-anchors the clock. When `StartGame` has reached the game
loop (it is blocked in `g.Wait()` before any loop event), the stage is
`Running`; the stages stored by the call are `Starting`, `Recovering`,
`Running`, in that order; the tick counter was stored from
`GetLastFinalizedTick()` after `Recovering` and before `Running`; the last
steps before the loop are `SetTick(CurrentTick())` on the receipt history and
the store of `Running`, so the receipt history is anchored at the current
tick; and without recovery from the chain (no router, or rollup disabled) the
current tick and the anchor are the last finalized tick. When
`GetLastFinalizedTick` fails at the call `StartGame` makes (in the world where
`Recovering` has just been stored), or when it yields `n` there and
`recoverFromChain`, called with rollup and router set in the world where `n`
has been stored in the tick counter, returns an error, `StartGame` returns an
error and `Running` is never stored. Nothing is assumed of the two
collaborators in any other world. -/
theorem StartGame_reanchors_clock (env : Env) (w : World) :
    (∀ w1, StartGame env w [] = (w1, StartResult.blocked) →
      w1.stage = Stage.Running ∧
      (w1.since w).filter Effect.isStoreStage =
        [Effect.storeStage Stage.Starting, Effect.storeStage Stage.Recovering,
          Effect.storeStage Stage.Running] ∧
      w1.receiptTick = w1.CurrentTick ∧
      ∃ n mid,
        env.getLastFinalizedTick (World.atLastFinalizedTick { w with cancel := true }) =
          Except.ok n ∧
        w1.since w = w.startupEffects ++
          [Effect.storeStage Stage.Recovering, Effect.getLastFinalizedTick,
            Effect.tickStore n] ++ mid ++
          [Effect.receiptSetTick w1.CurrentTick, Effect.storeStage Stage.Running,
            Effect.startGameLoop] ∧
        (∀ x ∈ mid, x.isStoreStage = false) ∧
        (¬ (w.rollupEnabled = true ∧ w.router = true) →
          mid = [] ∧ w1.CurrentTick = n ∧ w1.receiptTick = n)) ∧
    (∀ evs,
      ((∃ e, env.getLastFinalizedTick (World.atLastFinalizedTick { w with cancel := true }) =
          Except.error e) ∨
        (w.rollupEnabled = true ∧ w.router = true ∧ ∃ n e,
          env.getLastFinalizedTick (World.atLastFinalizedTick { w with cancel := true }) =
            Except.ok n ∧
          (recoverFromChain env (World.atRecovery { w with cancel := true } n)).2 =
            TickResult.err e)) →
      (∃ msg, (StartGame env w evs).2 = StartResult.err msg) ∧
      ∀ x ∈ (StartGame env w evs).1.since w, x ≠ Effect.storeStage Stage.Running) := by
  refine ⟨fun w1 h => ?_, fun evs hfail => ?_⟩
  · have hb : startGameBody env { w with cancel := true } [] = (w1, StartResult.blocked) := by
      cases hbody : startGameBody env { w with cancel := true } [] with
      | mk wb r =>
        rw [StartGame_of_body env w wb [] r hbody] at h
        cases r with
        | blocked =>
          simp only [Prod.mk.injEq, and_true] at h
          rw [h]
        | nil => simp at h
        | err msg => simp at h
        | panic v => simp at h
        | crashed v => simp at h
    obtain ⟨_, n, w8, hn, hrec, hw1⟩ := startGameBody_blocked_inv env _ w1 hb
    obtain ⟨hst8, mid, hmid, hmidx, hnorec⟩ := recovered_trace env _ w8 n hrec
    have htr : w1.trace = w.trace ++ (w.startupEffects ++
        [Effect.storeStage Stage.Recovering, Effect.getLastFinalizedTick,
          Effect.tickStore n] ++ mid ++
        [Effect.receiptSetTick w1.CurrentTick, Effect.storeStage Stage.Running,
          Effect.startGameLoop]) := by
      rw [hw1]
      simp only [World.started, World.log, World.storeStage, World.receiptSetTick,
        World.CurrentTick, hmid, World.atRecovery, World.startupEffects]
      simp
    have hfm : mid.filter Effect.isStoreStage = [] := by
      rw [List.filter_eq_nil_iff]
      intro x hx
      simp [hmidx x hx]
    refine ⟨by rw [hw1]; rfl, ?_, by rw [hw1]; rfl, n, mid, hn, since_of_trace_eq htr, hmidx, ?_⟩
    · rw [since_of_trace_eq htr]
      simp only [List.filter_append, startupEffects_filter, hfm]
      simp [List.filter, Effect.isStoreStage]
    · intro hno
      obtain ⟨hm, hw8⟩ := hnorec hno
      refine ⟨hm, ?_, ?_⟩
      · rw [hw1, hw8]; rfl
      · rw [hw1, hw8]; rfl
  · obtain ⟨⟨msg, hmsg⟩, hsince⟩ :=
      startGameBody_of_failed_recovery env { w with cancel := true } evs hfail
    cases hbody : startGameBody env { w with cancel := true } evs with
    | mk wb r =>
      rw [hbody] at hmsg hsince
      simp only at hmsg hsince
      subst hmsg
      rw [StartGame_of_body env w wb evs _ hbody]
      refine ⟨⟨msg, rfl⟩, ?_⟩
      simp only
      intro x hx
      rcases mem_since_cleanup env wb w x hx with h1 | rfl | rfl | rfl
      · have h2 : x ∈ wb.since { w with cancel := true } := h1
        exact hsince x h2
      · simp
      · simp
      · simp

/-- C17, evaluated: on a new world whose last finalized tick is 7, `StartGame`
reaches the game loop in stage `Running` with the stages stored in order and
the receipt history anchored at the current tick, 7; with a failing
`GetLastFinalizedTick`, and with a failing recovery from the chain, `Running`
is not stored. -/
theorem StartGame_reanchors_clock_witness :
    (StartGame envFinalizedSeven worldNew []).1.stage = Stage.Running ∧
    ((StartGame envFinalizedSeven worldNew []).1.since worldNew).filter Effect.isStoreStage =
      [Effect.storeStage Stage.Starting, Effect.storeStage Stage.Recovering,
        Effect.storeStage Stage.Running] ∧
    (StartGame envFinalizedSeven worldNew []).1.receiptTick =
      (StartGame envFinalizedSeven worldNew []).1.CurrentTick ∧
    (StartGame envFinalizedSeven worldNew []).1.CurrentTick = 7 ∧
    Effect.storeStage Stage.Running ∉
      (StartGame envNoFinalizedTick worldNew []).1.since worldNew ∧
    Effect.storeStage Stage.Running ∉
      (StartGame envRecoveryFails { worldNew with rollupEnabled := true, router := true }
        []).1.since { worldNew with rollupEnabled := true, router := true } :=
  ⟨((StartGame_reanchors_clock envFinalizedSeven worldNew).1 _ rfl).1,
   ((StartGame_reanchors_clock envFinalizedSeven worldNew).1 _ rfl).2.1,
   ((StartGame_reanchors_clock envFinalizedSeven worldNew).1 _ rfl).2.2.1,
   by decide,
   fun h => ((StartGame_reanchors_clock envNoFinalizedTick worldNew).2 []
      (Or.inl ⟨_, rfl⟩)).2 _ h rfl,
   fun h => ((StartGame_reanchors_clock envRecoveryFails
      { worldNew with rollupEnabled := true, router := true }).2 []
      (Or.inr ⟨rfl, rfl, 0, TickError.systems "system failed", rfl, by decide⟩)).2 _ h rfl⟩

/-! ## The deferred `cleanup` of `StartGame` -/

theorem cleanup_stage (env : Env) (w : World) : (cleanup env w).stage = Stage.ShutDown := by
  unfold cleanup
  simp [World.storeStage]

theorem cleanup_last (env : Env) (w : World) :
    (cleanup env w).trace.getLast? = some (Effect.storeStage Stage.ShutDown) := by
  rw [cleanup_trace, ← List.append_assoc, ← List.append_assoc]
  exact List.getLast?_append_of_ne_nil _ (by simp)

theorem StartGame_of_not_Init (env : Env) (w : World) (evs : List LoopEvent)
    (h : w.stage ≠ Stage.Init) :
    StartGame env w evs =
      (cleanup env { w with cancel := true },
        StartResult.err "game has already been started") := by
  have hbody : startGameBody env { w with cancel := true } evs =
      ({ w with cancel := true }, StartResult.err "game has already been started") := by
    unfold startGameBody
    rw [if_pos h]
  rw [StartGame_of_body env w _ evs _ hbody]

/-- C18: every return of `StartGame` runs the deferred `cleanup`. When the call
returns nil or an error, or panics in its own goroutine, the world it leaves is
the `cleanup` of the world left by its body: the stage is `ShutDown`, the
storage connection was closed after the body, and the last effect is the store
of `ShutDown`. In particular a `StartGame` called while the world is `Running`
returns "game has already been started" and moves the stage from `Running` to
`ShutDown`. -/
theorem StartGame_always_cleans_up (env : Env) (w : World) (evs : List LoopEvent) :
    (((StartGame env w evs).2 = StartResult.nil ∨
        (∃ msg, (StartGame env w evs).2 = StartResult.err msg) ∨
        (∃ v, (StartGame env w evs).2 = StartResult.panic v)) →
      (StartGame env w evs).1 =
        cleanup env (startGameBody env { w with cancel := true } evs).1 ∧
      (StartGame env w evs).1.stage = Stage.ShutDown ∧
      Effect.redisClose ∈ (StartGame env w evs).1.since
        (startGameBody env { w with cancel := true } evs).1 ∧
      (StartGame env w evs).1.trace.getLast? = some (Effect.storeStage Stage.ShutDown)) ∧
    (w.stage = Stage.Running →
      (StartGame env w evs).2 = StartResult.err "game has already been started" ∧
      (StartGame env w evs).1.stage = Stage.ShutDown ∧
      (StartGame env w evs).1.since w = [Effect.redisClose] ++
        (if w.telemetry = true then [Effect.telemetryShutdown] else []) ++
        [Effect.storeStage Stage.ShutDown]) := by
  refine ⟨fun h => ?_, fun h => ?_⟩
  · cases hbody : startGameBody env { w with cancel := true } evs with
    | mk wb r =>
      rw [StartGame_of_body env w wb evs r hbody] at h ⊢
      have hc : (cleanup env wb).since wb = [Effect.redisClose] ++
          (if wb.telemetry = true then [Effect.telemetryShutdown] else []) ++
          [Effect.storeStage Stage.ShutDown] := since_of_trace_eq (cleanup_trace env wb)
      cases r with
      | blocked => simp at h
      | crashed v => simp at h
      | nil => exact ⟨rfl, cleanup_stage env wb, by rw [hc]; simp, cleanup_last env wb⟩
      | err msg => exact ⟨rfl, cleanup_stage env wb, by rw [hc]; simp, cleanup_last env wb⟩
      | panic v => exact ⟨rfl, cleanup_stage env wb, by rw [hc]; simp, cleanup_last env wb⟩
  · rw [StartGame_of_not_Init env w evs (by rw [h]; decide)]
    refine ⟨rfl, cleanup_stage env _, ?_⟩
    exact since_of_trace_eq (w := w) (cleanup_trace env { w with cancel := true })

/-- C18, evaluated: a `StartGame` called on the running world returns "game
has already been started" and leaves the stage `ShutDown`. -/
theorem StartGame_always_cleans_up_witness :
    (StartGame envOk worldRunning []).2 = StartResult.err "game has already been started" ∧
    (StartGame envOk worldRunning []).1.stage = Stage.ShutDown ∧
    (StartGame envOk worldNew [LoopEvent.ctxDone]).1.stage = Stage.ShutDown :=
  ⟨((StartGame_always_cleans_up envOk worldRunning []).2 rfl).1,
   ((StartGame_always_cleans_up envOk worldRunning []).2 rfl).2.1,
   ((StartGame_always_cleans_up envOk worldNew [LoopEvent.ctxDone]).1 (Or.inl rfl)).2.1⟩

/-! ## `Shutdown` outside re-entry -/

/-- C19: for a world whose stage is neither `ShuttingDown` nor `ShutDown`,
`Shutdown` first stores `ShuttingDown` and then calls `cancel`. With `cancel`
assigned the effects up to the wait are the store of `ShuttingDown`, one call
of `cancel` and the subscription to `ShutDown`, in that order. With a nil
`cancel`, as on a freshly built world, the call of `cancel` panics after the
stage has been changed to `ShuttingDown`, and nothing else is done. -/
theorem Shutdown_stores_then_cancels (w : World) (others : World → World)
    (h : w.stage ≠ Stage.ShuttingDown ∧ w.stage ≠ Stage.ShutDown) :
    (w.cancel = true →
      ∃ w3, (Shutdown w others).1 = others w3 ∧
        w3.stage = Stage.ShuttingDown ∧
        w3.since w = [Effect.storeStage Stage.ShuttingDown, Effect.cancel,
          Effect.notifyOnStage Stage.ShutDown] ∧
        (Shutdown w others).2 ≠ ShutdownResult.ignored ∧
        (Shutdown w others).2 ≠ ShutdownResult.nilCancelPanic) ∧
    (w.cancel = false →
      Shutdown w others = (w.storeStage Stage.ShuttingDown, ShutdownResult.nilCancelPanic) ∧
      (Shutdown w others).1.stage = Stage.ShuttingDown ∧
      (Shutdown w others).1.since w = [Effect.storeStage Stage.ShuttingDown]) := by
  have hg : ¬ (w.stage = Stage.ShutDown ∨ w.stage = Stage.ShuttingDown) := by
    rintro (hc | hc)
    · exact h.2 hc
    · exact h.1 hc
  refine ⟨fun hc => ?_, fun hc => ?_⟩
  · refine ⟨((w.storeStage Stage.ShuttingDown).log Effect.cancel).log
      (Effect.notifyOnStage Stage.ShutDown), ?_, rfl, ?_, ?_, ?_⟩
    · unfold Shutdown
      rw [if_neg hg]
      simp only [World.storeStage, World.log, hc, Bool.true_eq_false, if_false]
      split <;> rfl
    · apply since_of_trace_eq
      simp [World.storeStage, World.log]
    · unfold Shutdown
      rw [if_neg hg]
      simp only [World.storeStage, World.log, hc, Bool.true_eq_false, if_false]
      split <;> simp
    · unfold Shutdown
      rw [if_neg hg]
      simp only [World.storeStage, World.log, hc, Bool.true_eq_false, if_false]
      split <;> simp
  · have hs : Shutdown w others =
        (w.storeStage Stage.ShuttingDown, ShutdownResult.nilCancelPanic) := by
      unfold Shutdown
      rw [if_neg hg]
      simp [World.storeStage, hc]
    rw [hs]
    refine ⟨rfl, rfl, ?_⟩
    apply since_of_trace_eq
    simp [World.storeStage]

/-- C19, evaluated: `Shutdown` on a freshly built world (stage `Init`, nil
`cancel`) panics on the nil `cancel` with the stage already `ShuttingDown`;
on the running world it stores `ShuttingDown` and calls `cancel` once. -/
theorem Shutdown_stores_then_cancels_witness :
    (Shutdown worldNew id).2 = ShutdownResult.nilCancelPanic ∧
    (Shutdown worldNew id).1.stage = Stage.ShuttingDown ∧
    (Shutdown worldRunning id).1.since worldRunning =
      [Effect.storeStage Stage.ShuttingDown, Effect.cancel,
        Effect.notifyOnStage Stage.ShutDown] :=
  ⟨congrArg Prod.snd ((Shutdown_stores_then_cancels worldNew id (by decide)).2 rfl).1,
   ((Shutdown_stores_then_cancels worldNew id (by decide)).2 rfl).2.1,
   match (Shutdown_stores_then_cancels worldRunning id (by decide)).1 rfl with
   | ⟨_, h1, _, h3, _⟩ => by rw [h1]; exact h3⟩

end Cardinal
